import Mathlib

/-!
Verification of the cplwm window-manager layers.

The Rust sources are translated layer by layer into executable Lean
definitions:

* geometry primitives and the pluggable layouters
  (src/layouter.rs, src/b_tiling_wm.rs, src/f_gaps.rs);
* the tiling core TilingWM (src/b_tiling_wm.rs), instantiated as in
  src/f_gaps.rs with the gap-inset layouter wrapping the master-stack
  layouter (the only instantiation the repository uses);
* the float layer FloatingWM (src/c_floating_windows.rs);
* the minimise layer MinimisingWM (src/d_minimising_windows.rs);
* the fullscreen layer FullscreenWM (src/e_fullscreen_windows.rs);
* the workspace router WorkspaceWM (src/g_multiple_workspaces.rs).

Rust mutation is modelled by explicit state passing: a fallible method
on state sigma becomes a function into sigma times Except WMError Unit,
so mutations performed before an early error return are kept, exactly as
in the Rust code.  Machine integers (c_int, c_uint) are modelled by Int
and Nat; the only subtraction the sources perform on unsigned values is
the gap inset, which is modelled by truncated Nat subtraction (the Rust
code would overflow in exactly the cases where the truncation differs,
and every theorem below uses gap 0).  Partial operations of the Rust
standard library (indexing, unwrap) are modelled totally with explicit
defaults; each such spot is marked with a comment and is unreachable
from well-formed states.
-/

/-- A rectangle on screen: x and y are signed, width and height unsigned
(cplwm_api Geometry). -/
structure Geometry where
  x : Int
  y : Int
  width : Nat
  height : Nat
deriving DecidableEq, Repr

/-- The screen dimensions (cplwm_api Screen). -/
structure Screen where
  width : Nat
  height : Nat
deriving DecidableEq, Repr

/-- Convert the screen to the rectangle at the origin covering it. -/
def Screen.to_geometry (s : Screen) : Geometry :=
  { x := 0, y := 0, width := s.width, height := s.height }

/-- Window handles (cplwm_api Window, an integer handle). -/
abbrev Window := Nat

/-- Whether a window floats or tiles. -/
inductive FloatOrTile where
  | Float
  | Tile
deriving DecidableEq, Repr

/-- Direction for focus cycling and swapping. -/
inductive PrevOrNext where
  | Prev
  | Next
deriving DecidableEq, Repr

/-- A window together with the information supplied when adding it. -/
structure WindowWithInfo where
  window : Window
  geometry : Geometry
  float_or_tile : FloatOrTile
  fullscreen : Bool
deriving DecidableEq, Repr

/-- Constructor matching cplwm_api WindowWithInfo::new_tiled. -/
def WindowWithInfo.new_tiled (w : Window) (g : Geometry) : WindowWithInfo :=
  { window := w, geometry := g, float_or_tile := FloatOrTile.Tile, fullscreen := false }

/-- Constructor matching cplwm_api WindowWithInfo::new_float. -/
def WindowWithInfo.new_float (w : Window) (g : Geometry) : WindowWithInfo :=
  { window := w, geometry := g, float_or_tile := FloatOrTile.Float, fullscreen := false }

/-- Constructor matching cplwm_api WindowWithInfo::new_fullscreen. -/
def WindowWithInfo.new_fullscreen (w : Window) (g : Geometry) : WindowWithInfo :=
  { window := w, geometry := g, float_or_tile := FloatOrTile.Tile, fullscreen := true }

/-- The layout handed to the renderer: back-to-front entries plus focus. -/
structure WindowLayout where
  focused_window : Option Window
  windows : List (Window × Geometry)
deriving DecidableEq, Repr

/-- The empty layout (cplwm_api WindowLayout::new). -/
def WindowLayout.new : WindowLayout :=
  { focused_window := none, windows := [] }

/-- The error type of every single-workspace layer (src/error.rs). -/
inductive WMError where
  | UnknownWindow : Window → WMError
deriving DecidableEq, Repr

/-- The error type of the workspace router (src/error.rs).  The wrapped
error is always a WMError in the stack the repository builds. -/
inductive MultiWMError where
  | UnknownWorkspace : Nat → MultiWMError
  | WrappedError : WMError → MultiWMError
deriving DecidableEq, Repr

/-- Vec::iter().position(...) for window lists: the index of the first
occurrence of w, if any. -/
def position (l : List Window) (w : Window) : Option Nat :=
  match l with
  | [] => none
  | x :: xs => if x = w then some 0 else (position xs w).map (· + 1)

/-! ## Layout strategies (src/b_tiling_wm.rs lines 52-82, src/layouter.rs) -/

namespace SimpleLayouter

/-- Master geometry of the master-stack layouter: left half when there
are slaves, the full screen otherwise. -/
def get_master_geom (screen : Screen) (nb_windows : Nat) : Geometry :=
  if nb_windows > 1 then
    { x := 0, y := 0, width := screen.width / 2, height := screen.height }
  else
    screen.to_geometry

/-- Geometry of the i-th slave (0-based among the slaves): the right
half, evenly divided vertically between the slaves. -/
def get_slave_geom (i : Nat) (screen : Screen) (nb_windows : Nat) : Geometry :=
  let nn := nb_windows - 1
  { x := (screen.width / 2 : Nat),
    y := ((screen.height / nn) * i : Nat),
    width := screen.width / 2,
    height := screen.height / nn }

/-- The Layouter trait default get_geom: index 0 is the master, index
i > 0 is slave i - 1 (src/layouter.rs lines 12-20). -/
def get_geom (i : Nat) (screen : Screen) (nb_windows : Nat) : Geometry :=
  if i = 0 then get_master_geom screen nb_windows
  else get_slave_geom (i - 1) screen nb_windows

end SimpleLayouter

/-- The gap-inset layouter of src/f_gaps.rs, instantiated (as the
repository does) with SimpleLayouter as the wrapped layouter. -/
structure GappedLayouter where
  gap_size : Nat
deriving DecidableEq, Repr

namespace GappedLayouter

/-- Inset the wrapped geometry by the gap on all four sides.  The Rust
u32 subtraction is modelled by truncated Nat subtraction; both agree
whenever the gap fits, and every use below has gap 0. -/
def get_geom (l : GappedLayouter) (i : Nat) (screen : Screen) (nb_windows : Nat) : Geometry :=
  let geom := SimpleLayouter.get_geom i screen nb_windows
  let signed_gap : Int := (l.gap_size : Int)
  { x := geom.x + signed_gap,
    y := geom.y + signed_gap,
    width := geom.width - 2 * l.gap_size,
    height := geom.height - 2 * l.gap_size }

/-- The layouter the repository starts from: gap 0. -/
def new : GappedLayouter := { gap_size := 0 }

end GappedLayouter

/-! ## Tiling core (src/b_tiling_wm.rs), with the gapped layouter as in
src/f_gaps.rs. -/

/-- TilingWM state: tiled windows in order (head is the master), the
screen, the focused index, and the layouter. -/
structure TilingWM where
  windows : List Window
  screen : Screen
  focused_index : Option Nat
  layouter : GappedLayouter
deriving DecidableEq, Repr

namespace TilingWM

/-- WindowManager::new. -/
def new (screen : Screen) : TilingWM :=
  { windows := [], screen := screen, focused_index := none, layouter := GappedLayouter.new }

/-- The trait helper is_managed: membership of the tiled list. -/
def is_managed (s : TilingWM) (w : Window) : Bool :=
  s.windows.contains w

/-- get_windows. -/
def get_windows (s : TilingWM) : List Window :=
  s.windows

/-- get_screen. -/
def get_screen (s : TilingWM) : Screen :=
  s.screen

/-- Geometry for the window at position i (private helper get_geom). -/
def get_geom (s : TilingWM) (i : Nat) : Geometry :=
  s.layouter.get_geom i s.get_screen s.windows.length

/-- get_focused_window.  The Rust indexing self.windows[i] is modelled
with default 0; well-formed states keep the index in bounds. -/
def get_focused_window (s : TilingWM) : Option Window :=
  s.focused_index.map (fun i => s.windows.getD i 0)

/-- The private helper cycle_index: the next index in direction dir. -/
def cycle_index (s : TilingWM) (i : Nat) (dir : PrevOrNext) : Nat :=
  match dir with
  | PrevOrNext.Prev => (i + s.windows.length - 1) % s.windows.length
  | PrevOrNext.Next => (i + 1) % s.windows.length

/-- cycle_focus: focus the first (Next) or last (Prev) window when
unfocused, else step the focused index cyclically. -/
def cycle_focus (s : TilingWM) (dir : PrevOrNext) : TilingWM :=
  { s with focused_index :=
      match s.focused_index with
      | none =>
        if s.windows.length = 0 then none
        else
          match dir with
          | PrevOrNext.Next => some 0
          | PrevOrNext.Prev => some (s.windows.length - 1)
      | some i => some (s.cycle_index i dir) }

/-- cycle_focus_helper: like cycle_focus but wrapping off either end
leaves no window focused (used by the float layer). -/
def cycle_focus_helper (s : TilingWM) (dir : PrevOrNext) : TilingWM :=
  let is_going_to_wrap :=
    match s.focused_index with
    | some i =>
      (match dir with
       | PrevOrNext.Prev => i == 0
       | PrevOrNext.Next => i == s.windows.length - 1)
    | none => false
  if is_going_to_wrap then { s with focused_index := none }
  else s.cycle_focus dir

/-- add_window: append and focus the new window unless already managed. -/
def add_window (s : TilingWM) (wi : WindowWithInfo) : TilingWM × Except WMError Unit :=
  if ¬ s.is_managed wi.window then
    ({ s with windows := s.windows ++ [wi.window],
              -- push, then focus the last index: windows.len() - 1 after
              -- the push equals the length before it
              focused_index := some s.windows.length }, Except.ok ())
  else
    (s, Except.ok ())

/-- remove_window: drop the window at its position, then repair focus
(losing all focus when empty, cycling Prev when the removal was at or
before the focused index). -/
def remove_window (s : TilingWM) (w : Window) : TilingWM × Except WMError Unit :=
  match position s.windows w with
  | none => (s, Except.error (WMError.UnknownWindow w))
  | some i =>
    let s1 := { s with windows := s.windows.eraseIdx i }
    let s2 :=
      if s1.windows.length = 0 then { s1 with focused_index := none }
      else
        match s1.focused_index with
        | some j => if i ≤ j then s1.cycle_focus PrevOrNext.Prev else s1
        | none => s1
    (s2, Except.ok ())

/-- get_window_layout: every tiled window with its computed geometry. -/
def get_window_layout (s : TilingWM) : WindowLayout :=
  if s.windows.length = 0 then WindowLayout.new
  else
    { focused_window := s.get_focused_window,
      windows := s.windows.enum.map (fun p => (p.2, s.get_geom p.1)) }

/-- focus_window: clear focus, or focus the given managed window. -/
def focus_window (s : TilingWM) (window : Option Window) : TilingWM × Except WMError Unit :=
  match window with
  | none => ({ s with focused_index := none }, Except.ok ())
  | some w =>
    if ¬ s.is_managed w then (s, Except.error (WMError.UnknownWindow w))
    else ({ s with focused_index := position s.windows w }, Except.ok ())

/-- get_window_info: a tiled descriptor with the computed geometry. -/
def get_window_info (s : TilingWM) (w : Window) : Except WMError WindowWithInfo :=
  match position s.windows w with
  | none => Except.error (WMError.UnknownWindow w)
  | some i =>
    Except.ok { window := w, geometry := s.get_geom i,
                float_or_tile := FloatOrTile.Tile, fullscreen := false }

/-- resize_screen. -/
def resize_screen (s : TilingWM) (screen : Screen) : TilingWM :=
  { s with screen := screen }

/-- get_master_window. -/
def get_master_window (s : TilingWM) : Option Window :=
  s.windows.head?

/-- swap_with_master: exchange the given window with index 0 and focus
the master tile. -/
def swap_with_master (s : TilingWM) (w : Window) : TilingWM × Except WMError Unit :=
  match position s.windows w with
  | none => (s, Except.error (WMError.UnknownWindow w))
  | some pos =>
    let m := s.windows.getD 0 0
    ({ s with windows := (s.windows.set pos m).set 0 w,
              focused_index := some 0 }, Except.ok ())

/-- swap_windows: exchange the focused window with its cyclic neighbour
and follow it with the focus. -/
def swap_windows (s : TilingWM) (dir : PrevOrNext) : TilingWM :=
  match s.focused_index with
  | none => s
  | some pos =>
    let other_pos := s.cycle_index pos dir
    let w := s.windows.getD pos 0
    let other := s.windows.getD other_pos 0
    { s with windows := (s.windows.set pos other).set other_pos w,
             focused_index := some other_pos }

/-- get_gap (src/f_gaps.rs). -/
def get_gap (s : TilingWM) : Nat :=
  s.layouter.gap_size

/-- set_gap (src/f_gaps.rs). -/
def set_gap (s : TilingWM) (g : Nat) : TilingWM :=
  { s with layouter := { gap_size := g } }

end TilingWM

/-! ## Float layer (src/c_floating_windows.rs) -/

/-- FloatingWM state: floating windows in insertion order, the z-order
stack (bottom to top), the focused floating index (none when no window
or a tiled window is focused), the wrapped tiling manager, and the
stored descriptors of all managed windows.  The Rust HashMap is
modelled as a function to Option. -/
structure FloatingWM where
  floating_windows : List Window
  stack_order_floating_windows : List Window
  focused_index : Option Nat
  tiling_wm : TilingWM
  infos : Window → Option WindowWithInfo

namespace FloatingWM

/-- WindowManager::new. -/
def new (screen : Screen) : FloatingWM :=
  { floating_windows := [], stack_order_floating_windows := [],
    focused_index := none, tiling_wm := TilingWM.new screen,
    infos := fun _ => none }

/-- FloatSupport::is_floating (trait default: membership of
get_floating_windows). -/
def is_floating (s : FloatingWM) (w : Window) : Bool :=
  s.floating_windows.contains w

/-- is_managed: floating or managed by the tiling core. -/
def is_managed (s : FloatingWM) (w : Window) : Bool :=
  s.is_floating w || s.tiling_wm.is_managed w

/-- get_floating_windows. -/
def get_floating_windows (s : FloatingWM) : List Window :=
  s.floating_windows

/-- get_windows: tiled windows followed by floating windows. -/
def get_windows (s : FloatingWM) : List Window :=
  s.tiling_wm.get_windows ++ s.get_floating_windows

/-- The private helper get_geom: the stored geometry of a window.  The
Rust unwrap is modelled with a zero default; well-formed states have an
infos entry for every managed window. -/
def get_geom (s : FloatingWM) (w : Window) : Geometry :=
  ((s.infos w).map (fun wi => wi.geometry)).getD { x := 0, y := 0, width := 0, height := 0 }

/-- get_focused_window: the focused floating window, else the focus of
the tiling core. -/
def get_focused_window (s : FloatingWM) : Option Window :=
  match s.focused_index with
  | some i => some (s.floating_windows.getD i 0)
  | none => s.tiling_wm.get_focused_window

/-- The private helper cycle_index_helper: step the floating index,
returning none when the step would wrap off either end. -/
def cycle_index_helper (s : FloatingWM) (i : Nat) (dir : PrevOrNext) : Option Nat :=
  let nb_windows := s.floating_windows.length
  let is_going_to_wrap :=
    match dir with
    | PrevOrNext.Prev => i == 0
    | PrevOrNext.Next => i == nb_windows - 1
  if is_going_to_wrap then none
  else
    some (match dir with
          | PrevOrNext.Prev => (i + nb_windows - 1) % nb_windows
          | PrevOrNext.Next => (i + 1) % nb_windows)

/-- focus_window: clear all focus, focus a tiled window through the
tiling core, or focus a floating window, moving it to the top of the
z-order stack.  The Rust stack remove at position(w) is List.erase. -/
def focus_window (s : FloatingWM) (window : Option Window) : FloatingWM × Except WMError Unit :=
  match window with
  | none =>
    let p := s.tiling_wm.focus_window none
    ({ s with focused_index := none, tiling_wm := p.1 }, p.2)
  | some w =>
    if s.tiling_wm.is_managed w then
      let p := s.tiling_wm.focus_window (some w)
      ({ s with focused_index := none, tiling_wm := p.1 }, p.2)
    else if s.is_floating w then
      let stack := (s.stack_order_floating_windows.erase w) ++ [w]
      let p := s.tiling_wm.focus_window none
      ({ s with stack_order_floating_windows := stack,
                focused_index := position s.floating_windows w,
                tiling_wm := p.1 }, p.2)
    else
      (s, Except.error (WMError.UnknownWindow w))

/-- add_window: route by mode, record the descriptor, focus the new
window; a managed window is left untouched. -/
def add_window (s : FloatingWM) (wi : WindowWithInfo) : FloatingWM × Except WMError Unit :=
  if ¬ s.is_managed wi.window then
    match wi.float_or_tile with
    | FloatOrTile.Float =>
      let s1 := { s with floating_windows := s.floating_windows ++ [wi.window],
                         stack_order_floating_windows :=
                           s.stack_order_floating_windows ++ [wi.window] }
      let s2 := { s1 with infos := fun w => if w = wi.window then some wi else s1.infos w }
      s2.focus_window (some wi.window)
    | FloatOrTile.Tile =>
      let p := s.tiling_wm.add_window wi
      let s1 := { s with tiling_wm := p.1 }
      match p.2 with
      | Except.error e => (s1, Except.error e)
      | Except.ok _ =>
        let s2 := { s1 with infos := fun w => if w = wi.window then some wi else s1.infos w }
        s2.focus_window (some wi.window)
  else
    (s, Except.ok ())

/-- remove_window: drop the infos entry, then remove from the tiling
core or from the floating lists, repairing the floating focus when the
removal was at or before the focused floating index. -/
def remove_window (s : FloatingWM) (w : Window) : FloatingWM × Except WMError Unit :=
  let s0 := { s with infos := fun w2 => if w2 = w then none else s.infos w2 }
  if s0.tiling_wm.is_managed w then
    let p := s0.tiling_wm.remove_window w
    ({ s0 with tiling_wm := p.1 }, p.2)
  else
    let s1 :=
      { s0 with stack_order_floating_windows :=
          match position s0.stack_order_floating_windows w with
          | some i => s0.stack_order_floating_windows.eraseIdx i
          | none => s0.stack_order_floating_windows }
    match position s1.floating_windows w with
    | none => (s1, Except.error (WMError.UnknownWindow w))
    | some i =>
      let s2 := { s1 with floating_windows := s1.floating_windows.eraseIdx i }
      if s2.get_windows.length = 0 then
        s2.focus_window none
      else
        match s2.focused_index with
        | some j =>
          if i ≤ j then
            let s3 := { s2 with focused_index := s2.cycle_index_helper i PrevOrNext.Prev }
            s3.focus_window s3.get_focused_window
          else (s2, Except.ok ())
        | none => (s2, Except.ok ())

/-- get_window_layout: the tiled layout followed by the floating
windows in z-order with their stored geometries. -/
def get_window_layout (s : FloatingWM) : WindowLayout :=
  if s.get_windows.length = 0 then WindowLayout.new
  else
    { focused_window := s.get_focused_window,
      windows := s.tiling_wm.get_window_layout.windows
                 ++ s.stack_order_floating_windows.map (fun w => (w, s.get_geom w)) }

/-- One unfolding of cycle_focus.  The Rust method recurses (at most
once from any state, since the recursive call always enters the
unfocused branch); the recursion is modelled with a fuel parameter, and
cycle_focus below supplies fuel 2, which is never exhausted.  The
trailing focus_window(get_focused_window()).unwrap() discards the
result, mirroring the Rust unwrap of an always-Ok call. -/
def cycle_focus_fuel : Nat → FloatingWM → PrevOrNext → FloatingWM
  | 0, s, _ => s
  | fuel + 1, s, dir =>
    let s1 :=
      if s.get_focused_window = none then
        if s.floating_windows.length ≥ 1 then
          let idx :=
            match dir with
            | PrevOrNext.Next => 0
            | PrevOrNext.Prev => s.floating_windows.length - 1
          { s with focused_index := some idx }
        else
          { s with tiling_wm := s.tiling_wm.cycle_focus dir }
      else
        match s.focused_index with
        | none =>
          let sa := { s with tiling_wm := s.tiling_wm.cycle_focus_helper dir }
          if sa.tiling_wm.get_focused_window = none then cycle_focus_fuel fuel sa dir
          else sa
        | some i =>
          let sa := { s with focused_index := s.cycle_index_helper i dir }
          match sa.focused_index with
          | none =>
            let sb := { sa with tiling_wm := sa.tiling_wm.cycle_focus dir }
            if sb.tiling_wm.get_focused_window = none then cycle_focus_fuel fuel sb dir
            else sb
          | some _ => sa
    (s1.focus_window s1.get_focused_window).1

/-- cycle_focus: treat floating windows and the tiled ring as one ring. -/
def cycle_focus (s : FloatingWM) (dir : PrevOrNext) : FloatingWM :=
  cycle_focus_fuel 2 s dir

/-- get_window_info: the tiling answer if tiled, else the stored
descriptor reported as floating. -/
def get_window_info (s : FloatingWM) (w : Window) : Except WMError WindowWithInfo :=
  match s.tiling_wm.get_window_info w with
  | Except.ok wi => Except.ok wi
  | Except.error _ =>
    match s.infos w with
    | none => Except.error (WMError.UnknownWindow w)
    | some wi =>
      Except.ok { window := wi.window, geometry := wi.geometry,
                  float_or_tile := FloatOrTile.Float, fullscreen := false }

/-- get_screen. -/
def get_screen (s : FloatingWM) : Screen :=
  s.tiling_wm.get_screen

/-- resize_screen. -/
def resize_screen (s : FloatingWM) (screen : Screen) : FloatingWM :=
  { s with tiling_wm := s.tiling_wm.resize_screen screen }

/-- The private helper float_or_tile_window: flip the stored mode of
the window, remove it, and re-add the flipped descriptor. -/
def float_or_tile_window (s : FloatingWM) (w : Window) (fot : FloatOrTile) :
    FloatingWM × Except WMError Unit :=
  match s.infos w with
  | none => (s, Except.error (WMError.UnknownWindow w))
  | some info =>
    let wi := { info with float_or_tile := fot }
    let p := s.remove_window w
    match p.2 with
    | Except.error e => (p.1, Except.error e)
    | Except.ok _ => p.1.add_window wi

/-- toggle_floating: flip the window between floating and tiled, then
refocus the window that was focused before the toggle. -/
def toggle_floating (s : FloatingWM) (w : Window) : FloatingWM × Except WMError Unit :=
  if ¬ s.is_managed w then (s, Except.error (WMError.UnknownWindow w))
  else
    let current_focused_window := s.get_focused_window
    let fot := if s.is_floating w then FloatOrTile.Tile else FloatOrTile.Float
    let p := s.float_or_tile_window w fot
    match p.2 with
    | Except.error e => (p.1, Except.error e)
    | Except.ok _ =>
      let s1 := p.1
      match current_focused_window with
      | none => s1.focus_window none
      | some cw =>
        if s1.tiling_wm.is_managed cw then
          let q := s1.tiling_wm.focus_window (some cw)
          ({ s1 with focused_index := none, tiling_wm := q.1 }, q.2)
        else
          let q := s1.tiling_wm.focus_window none
          ({ s1 with focused_index := position s1.floating_windows cw,
                     tiling_wm := q.1 }, q.2)

/-- set_window_geometry: update the stored geometry of a managed
window (visible immediately only when it floats). -/
def set_window_geometry (s : FloatingWM) (w : Window) (g : Geometry) :
    FloatingWM × Except WMError Unit :=
  if ¬ s.is_managed w then (s, Except.error (WMError.UnknownWindow w))
  else
    match s.infos w with
    | none => (s, Except.error (WMError.UnknownWindow w))
    | some info =>
      ({ s with infos := fun w2 => if w2 = w then some { info with geometry := g }
                                   else s.infos w2 }, Except.ok ())

/-- get_master_window. -/
def get_master_window (s : FloatingWM) : Option Window :=
  s.tiling_wm.get_master_window

/-- swap_with_master: tile the window first when it floats, then swap
in the tiling core. -/
def swap_with_master (s : FloatingWM) (w : Window) : FloatingWM × Except WMError Unit :=
  if ¬ s.is_managed w then (s, Except.error (WMError.UnknownWindow w))
  else
    let p :=
      if s.floating_windows.contains w then s.float_or_tile_window w FloatOrTile.Tile
      else (s, Except.ok ())
    match p.2 with
    | Except.error e => (p.1, Except.error e)
    | Except.ok _ =>
      let q := p.1.tiling_wm.swap_with_master w
      ({ p.1 with tiling_wm := q.1 }, q.2)

/-- swap_windows: tile the focused window first when it floats, then
swap in the tiling core.  The Rust unwrap of toggle_floating is
modelled by keeping the resulting state. -/
def swap_windows (s : FloatingWM) (dir : PrevOrNext) : FloatingWM :=
  let s1 :=
    if s.focused_index.isSome then
      match s.get_focused_window with
      | some fw => (s.toggle_floating fw).1
      | none => s
    else s
  { s1 with tiling_wm := s1.tiling_wm.swap_windows dir }

/-- get_gap. -/
def get_gap (s : FloatingWM) : Nat :=
  s.tiling_wm.get_gap

/-- set_gap. -/
def set_gap (s : FloatingWM) (g : Nat) : FloatingWM :=
  { s with tiling_wm := s.tiling_wm.set_gap g }

/-- RealWindowInfo::get_real_window_info (src/c_floating_windows.rs
lines 414-433): the stored descriptor with the actual current mode. -/
def get_real_window_info (s : FloatingWM) (w : Window) : Except WMError WindowWithInfo :=
  match s.infos w with
  | none => Except.error (WMError.UnknownWindow w)
  | some wi =>
    Except.ok { window := wi.window, geometry := wi.geometry,
                float_or_tile := if s.floating_windows.contains w then FloatOrTile.Float
                                 else FloatOrTile.Tile,
                fullscreen := wi.fullscreen }

end FloatingWM

/-! ## Minimise layer (src/d_minimising_windows.rs), wrapping the float
layer as the repository does. -/

/-- MinimisingWM state: minimised windows in minimising order, the
wrapped float layer, and the frozen descriptors of the minimised
windows (a HashMap in Rust, modelled as a function to Option). -/
structure MinimisingWM where
  minimised_windows : List Window
  wrapped_wm : FloatingWM
  infos : Window → Option WindowWithInfo

namespace MinimisingWM

/-- WindowManager::new. -/
def new (screen : Screen) : MinimisingWM :=
  { minimised_windows := [], wrapped_wm := FloatingWM.new screen, infos := fun _ => none }

/-- is_minimised: key of the frozen-descriptor map. -/
def is_minimised (s : MinimisingWM) (w : Window) : Bool :=
  (s.infos w).isSome

/-- get_minimised_windows. -/
def get_minimised_windows (s : MinimisingWM) : List Window :=
  s.minimised_windows

/-- is_managed: minimised or managed by the wrapped layer. -/
def is_managed (s : MinimisingWM) (w : Window) : Bool :=
  s.is_minimised w || s.wrapped_wm.is_managed w

/-- get_windows: wrapped windows followed by the minimised ones. -/
def get_windows (s : MinimisingWM) : List Window :=
  s.wrapped_wm.get_windows ++ s.get_minimised_windows

/-- add_window: delegate unless the window is already minimised. -/
def add_window (s : MinimisingWM) (wi : WindowWithInfo) : MinimisingWM × Except WMError Unit :=
  if ¬ s.is_minimised wi.window then
    let p := s.wrapped_wm.add_window wi
    ({ s with wrapped_wm := p.1 }, p.2)
  else
    (s, Except.ok ())

/-- remove_window: delegate, or drop the window from the minimised
set. -/
def remove_window (s : MinimisingWM) (w : Window) : MinimisingWM × Except WMError Unit :=
  if ¬ s.is_minimised w then
    let p := s.wrapped_wm.remove_window w
    ({ s with wrapped_wm := p.1 }, p.2)
  else
    let s1 := { s with infos := fun w2 => if w2 = w then none else s.infos w2 }
    let s2 :=
      { s1 with minimised_windows :=
          match position s1.minimised_windows w with
          | some i => s1.minimised_windows.eraseIdx i
          | none => s1.minimised_windows }
    (s2, Except.ok ())

/-- get_window_layout: the wrapped layout (minimised windows are
invisible). -/
def get_window_layout (s : MinimisingWM) : WindowLayout :=
  s.wrapped_wm.get_window_layout

/-- get_window_info: the frozen descriptor for a minimised window, the
wrapped answer otherwise.  The Rust unwrap on the minimised branch is
modelled by the error case, which is unreachable since is_minimised
means the map holds an entry. -/
def get_window_info (s : MinimisingWM) (w : Window) : Except WMError WindowWithInfo :=
  if s.is_minimised w then
    match s.infos w with
    | some wi => Except.ok wi
    | none => Except.error (WMError.UnknownWindow w)
  else
    s.wrapped_wm.get_window_info w

/-- toggle_minimised: restore a minimised window by re-adding its
frozen descriptor, or freeze the current descriptor and remove the
window from the wrapped layer. -/
def toggle_minimised (s : MinimisingWM) (w : Window) : MinimisingWM × Except WMError Unit :=
  match s.get_window_info w with
  | Except.error e => (s, Except.error e)
  | Except.ok wi =>
    let was_minimised := s.is_minimised w
    if was_minimised then
      let p := s.remove_window w
      match p.2 with
      | Except.error e => (p.1, Except.error e)
      | Except.ok _ => p.1.add_window wi
    else
      let p := s.wrapped_wm.remove_window w
      let s1 := { s with wrapped_wm := p.1 }
      match p.2 with
      | Except.error e => (s1, Except.error e)
      | Except.ok _ =>
        ({ s1 with infos := fun w2 => if w2 = w then some wi else s1.infos w2,
                   minimised_windows := s1.minimised_windows ++ [w] }, Except.ok ())

/-- focus_window: unminimise the target first when needed, then
delegate. -/
def focus_window (s : MinimisingWM) (window : Option Window) :
    MinimisingWM × Except WMError Unit :=
  let step :=
    match window with
    | some w =>
      if s.is_minimised w then s.toggle_minimised w
      else (s, Except.ok ())
    | none => (s, Except.ok ())
  match step.2 with
  | Except.error e => (step.1, Except.error e)
  | Except.ok _ =>
    let p := step.1.wrapped_wm.focus_window window
    ({ step.1 with wrapped_wm := p.1 }, p.2)

/-- cycle_focus: delegate. -/
def cycle_focus (s : MinimisingWM) (dir : PrevOrNext) : MinimisingWM :=
  { s with wrapped_wm := s.wrapped_wm.cycle_focus dir }

/-- get_focused_window: delegate. -/
def get_focused_window (s : MinimisingWM) : Option Window :=
  s.wrapped_wm.get_focused_window

/-- get_screen: delegate. -/
def get_screen (s : MinimisingWM) : Screen :=
  s.wrapped_wm.get_screen

/-- resize_screen: delegate. -/
def resize_screen (s : MinimisingWM) (screen : Screen) : MinimisingWM :=
  { s with wrapped_wm := s.wrapped_wm.resize_screen screen }

/-- get_master_window: delegate. -/
def get_master_window (s : MinimisingWM) : Option Window :=
  s.wrapped_wm.get_master_window

/-- swap_with_master: unminimise first when needed, then delegate. -/
def swap_with_master (s : MinimisingWM) (w : Window) : MinimisingWM × Except WMError Unit :=
  let step :=
    if s.is_minimised w then s.toggle_minimised w
    else (s, Except.ok ())
  match step.2 with
  | Except.error e => (step.1, Except.error e)
  | Except.ok _ =>
    let p := step.1.wrapped_wm.swap_with_master w
    ({ step.1 with wrapped_wm := p.1 }, p.2)

/-- swap_windows: delegate. -/
def swap_windows (s : MinimisingWM) (dir : PrevOrNext) : MinimisingWM :=
  { s with wrapped_wm := s.wrapped_wm.swap_windows dir }

/-- get_floating_windows: delegate. -/
def get_floating_windows (s : MinimisingWM) : List Window :=
  s.wrapped_wm.get_floating_windows

/-- is_floating at this layer (trait default): membership of the
wrapped floating windows. -/
def is_floating (s : MinimisingWM) (w : Window) : Bool :=
  s.get_floating_windows.contains w

/-- toggle_floating: unminimise first when needed, then delegate. -/
def toggle_floating (s : MinimisingWM) (w : Window) : MinimisingWM × Except WMError Unit :=
  let step :=
    if s.is_minimised w then s.toggle_minimised w
    else (s, Except.ok ())
  match step.2 with
  | Except.error e => (step.1, Except.error e)
  | Except.ok _ =>
    let p := step.1.wrapped_wm.toggle_floating w
    ({ step.1 with wrapped_wm := p.1 }, p.2)

/-- set_window_geometry: update the frozen geometry of a minimised
window, else delegate.  The Rust unwrap on the minimised branch cannot
fail since is_minimised means the map holds an entry; the impossible
branch leaves the state unchanged. -/
def set_window_geometry (s : MinimisingWM) (w : Window) (g : Geometry) :
    MinimisingWM × Except WMError Unit :=
  if s.is_minimised w then
    match s.infos w with
    | some wi =>
      ({ s with infos := fun w2 => if w2 = w then some { wi with geometry := g }
                                   else s.infos w2 }, Except.ok ())
    | none => (s, Except.ok ())
  else
    let p := s.wrapped_wm.set_window_geometry w g
    ({ s with wrapped_wm := p.1 }, p.2)

/-- get_gap: delegate. -/
def get_gap (s : MinimisingWM) : Nat :=
  s.wrapped_wm.get_gap

/-- set_gap: delegate. -/
def set_gap (s : MinimisingWM) (g : Nat) : MinimisingWM :=
  { s with wrapped_wm := s.wrapped_wm.set_gap g }

/-- RealWindowInfo for the minimise layer (delegation with the frozen
descriptor for minimised windows, as in the repository). -/
def get_real_window_info (s : MinimisingWM) (w : Window) : Except WMError WindowWithInfo :=
  if s.is_minimised w then
    match s.infos w with
    | some wi => Except.ok wi
    | none => Except.error (WMError.UnknownWindow w)
  else
    s.wrapped_wm.get_real_window_info w

end MinimisingWM

/-! ## Fullscreen layer (src/e_fullscreen_windows.rs), wrapping the
minimise layer as the repository does. -/

/-- FullscreenWM state: the optionally held fullscreen descriptor and
the wrapped minimise layer. -/
structure FullscreenWM where
  fullscreen_window : Option WindowWithInfo
  wrapped_wm : MinimisingWM

namespace FullscreenWM

/-- WindowManager::new. -/
def new (screen : Screen) : FullscreenWM :=
  { fullscreen_window := none, wrapped_wm := MinimisingWM.new screen }

/-- get_fullscreen_window. -/
def get_fullscreen_window (s : FullscreenWM) : Option Window :=
  s.fullscreen_window.map (fun wi => wi.window)

/-- The private helper is_fullscreen. -/
def is_fullscreen (s : FullscreenWM) (w : Window) : Bool :=
  (s.get_fullscreen_window.map (fun w2 => w2 == w)).getD false

/-- is_managed: the fullscreen window or a window of the wrapped
layer. -/
def is_managed (s : FullscreenWM) (w : Window) : Bool :=
  s.is_fullscreen w || s.wrapped_wm.is_managed w

/-- get_windows: wrapped windows, then the fullscreen window. -/
def get_windows (s : FullscreenWM) : List Window :=
  s.wrapped_wm.get_windows ++ (s.get_fullscreen_window.map (fun w => [w])).getD []

/-- get_screen. -/
def get_screen (s : FullscreenWM) : Screen :=
  s.wrapped_wm.get_screen

/-- toggle_fullscreen: restore the held window through the wrapped add,
or freeze the descriptor of a wrapped window and hold it. -/
def toggle_fullscreen (s : FullscreenWM) (w : Window) : FullscreenWM × Except WMError Unit :=
  if s.is_fullscreen w then
    match s.fullscreen_window with
    | some wi =>
      let s1 := { s with fullscreen_window := none }
      let p := s1.wrapped_wm.add_window wi
      ({ s1 with wrapped_wm := p.1 }, p.2)
    | none => (s, Except.ok ())  -- unreachable: is_fullscreen means a window is held
  else
    match s.wrapped_wm.get_window_info w with
    | Except.error e => (s, Except.error e)
    | Except.ok wi =>
      let s1 := { s with fullscreen_window := some wi }
      let p := s1.wrapped_wm.remove_window w
      ({ s1 with wrapped_wm := p.1 }, p.2)

/-- The private helper un_fullscreen: restore any held window (the
result of the inner toggle is discarded in Rust via Option::map). -/
def un_fullscreen (s : FullscreenWM) : FullscreenWM :=
  let s1 :=
    match s.get_fullscreen_window with
    | some w => (s.toggle_fullscreen w).1
    | none => s
  { s1 with fullscreen_window := none }

/-- add_window: a no-op for managed windows; otherwise exit fullscreen,
then hold the descriptor if it asks for fullscreen, else delegate. -/
def add_window (s : FullscreenWM) (wi : WindowWithInfo) : FullscreenWM × Except WMError Unit :=
  if s.is_managed wi.window then
    (s, Except.ok ())
  else
    let s1 := s.un_fullscreen
    if wi.fullscreen then
      ({ s1 with fullscreen_window := some wi }, Except.ok ())
    else
      let p := s1.wrapped_wm.add_window wi
      ({ s1 with wrapped_wm := p.1 }, p.2)

/-- remove_window: drop the held window, or delegate. -/
def remove_window (s : FullscreenWM) (w : Window) : FullscreenWM × Except WMError Unit :=
  if s.is_fullscreen w then
    ({ s with fullscreen_window := none }, Except.ok ())
  else
    let p := s.wrapped_wm.remove_window w
    ({ s with wrapped_wm := p.1 }, p.2)

/-- get_window_layout: the held window alone at the full screen,
focused; otherwise the wrapped layout. -/
def get_window_layout (s : FullscreenWM) : WindowLayout :=
  match s.get_fullscreen_window with
  | some w =>
    { windows := [(w, s.get_screen.to_geometry)], focused_window := some w }
  | none => s.wrapped_wm.get_window_layout

/-- focus_window: focusing the held fullscreen window is a no-op;
anything else exits fullscreen first, then delegates. -/
def focus_window (s : FullscreenWM) (window : Option Window) :
    FullscreenWM × Except WMError Unit :=
  if (window.map (fun w => s.is_fullscreen w)).getD false then
    (s, Except.ok ())
  else
    let s1 := s.un_fullscreen
    let p := s1.wrapped_wm.focus_window window
    ({ s1 with wrapped_wm := p.1 }, p.2)

/-- cycle_focus: exit fullscreen, then delegate. -/
def cycle_focus (s : FullscreenWM) (dir : PrevOrNext) : FullscreenWM :=
  let s1 := s.un_fullscreen
  { s1 with wrapped_wm := s1.wrapped_wm.cycle_focus dir }

/-- get_window_info: the held descriptor at the full screen, or the
wrapped answer.  The Rust unwrap is safe since is_fullscreen means a
window is held; the impossible branch reports the window unknown. -/
def get_window_info (s : FullscreenWM) (w : Window) : Except WMError WindowWithInfo :=
  if s.is_fullscreen w then
    match s.fullscreen_window with
    | some wi =>
      Except.ok { window := wi.window, geometry := s.get_screen.to_geometry,
                  float_or_tile := wi.float_or_tile, fullscreen := true }
    | none => Except.error (WMError.UnknownWindow w)
  else
    s.wrapped_wm.get_window_info w

/-- resize_screen: delegate. -/
def resize_screen (s : FullscreenWM) (screen : Screen) : FullscreenWM :=
  { s with wrapped_wm := s.wrapped_wm.resize_screen screen }

/-- get_focused_window: the held window, else the wrapped focus. -/
def get_focused_window (s : FullscreenWM) : Option Window :=
  match s.get_fullscreen_window with
  | some w => some w
  | none => s.wrapped_wm.get_focused_window

/-- get_master_window: delegate. -/
def get_master_window (s : FullscreenWM) : Option Window :=
  s.wrapped_wm.get_master_window

/-- swap_with_master: exit fullscreen, then delegate. -/
def swap_with_master (s : FullscreenWM) (w : Window) : FullscreenWM × Except WMError Unit :=
  let s1 := s.un_fullscreen
  let p := s1.wrapped_wm.swap_with_master w
  ({ s1 with wrapped_wm := p.1 }, p.2)

/-- swap_windows: exit fullscreen, then delegate. -/
def swap_windows (s : FullscreenWM) (dir : PrevOrNext) : FullscreenWM :=
  let s1 := s.un_fullscreen
  { s1 with wrapped_wm := s1.wrapped_wm.swap_windows dir }

/-- get_floating_windows: delegate. -/
def get_floating_windows (s : FullscreenWM) : List Window :=
  s.wrapped_wm.get_floating_windows

/-- toggle_floating: exit fullscreen first when the window is held,
then delegate. -/
def toggle_floating (s : FullscreenWM) (w : Window) : FullscreenWM × Except WMError Unit :=
  let s1 := if s.is_fullscreen w then s.un_fullscreen else s
  let p := s1.wrapped_wm.toggle_floating w
  ({ s1 with wrapped_wm := p.1 }, p.2)

/-- set_window_geometry: remember the geometry on the held descriptor,
else delegate. -/
def set_window_geometry (s : FullscreenWM) (w : Window) (g : Geometry) :
    FullscreenWM × Except WMError Unit :=
  if s.is_fullscreen w then
    match s.fullscreen_window with
    | some wi => ({ s with fullscreen_window := some { wi with geometry := g } }, Except.ok ())
    | none => (s, Except.ok ())  -- unreachable: is_fullscreen means a window is held
  else
    let p := s.wrapped_wm.set_window_geometry w g
    ({ s with wrapped_wm := p.1 }, p.2)

/-- get_minimised_windows: delegate. -/
def get_minimised_windows (s : FullscreenWM) : List Window :=
  s.wrapped_wm.get_minimised_windows

/-- is_minimised: delegate. -/
def is_minimised (s : FullscreenWM) (w : Window) : Bool :=
  s.wrapped_wm.is_minimised w

/-- toggle_minimised: exit fullscreen first when the window is held,
then delegate. -/
def toggle_minimised (s : FullscreenWM) (w : Window) : FullscreenWM × Except WMError Unit :=
  let s1 := if s.is_fullscreen w then s.un_fullscreen else s
  let p := s1.wrapped_wm.toggle_minimised w
  ({ s1 with wrapped_wm := p.1 }, p.2)

/-- RealWindowInfo for the fullscreen layer: delegation (the repository
routes get_real_window_info through the layers unchanged for
non-fullscreen windows). -/
def get_real_window_info (s : FullscreenWM) (w : Window) : Except WMError WindowWithInfo :=
  if s.is_fullscreen w then
    match s.fullscreen_window with
    | some wi => Except.ok wi
    | none => Except.error (WMError.UnknownWindow w)
  else
    s.wrapped_wm.get_real_window_info w

end FullscreenWM

/-! ## Workspace router (src/g_multiple_workspaces.rs) -/

/-- MAX_WORKSPACE_INDEX of the external cplwm_api crate.  Its concrete
value is immaterial to every theorem below; 3 gives four workspaces. -/
def MAX_WORKSPACE_INDEX : Nat := 3

/-- A list update helper for the router: replace the element at the
given index, leaving the list unchanged out of range (Rust indexes the
Vec directly; every reachable router state has the index in range). -/
def updateAt (l : List FullscreenWM) (i : Nat) (wm : FullscreenWM) : List FullscreenWM :=
  l.set i wm

/-- WorkspaceWM state: the current workspace index and one wrapped
fullscreen stack per workspace. -/
structure WorkspaceWM where
  current_workspace : Nat
  wrapped_wms : List FullscreenWM

namespace WorkspaceWM

/-- WindowManager::new: MAX_WORKSPACE_INDEX + 1 fresh workspaces. -/
def new (screen : Screen) : WorkspaceWM :=
  { current_workspace := 0,
    wrapped_wms := (List.range (MAX_WORKSPACE_INDEX + 1)).map (fun _ => FullscreenWM.new screen) }

/-- The private helper get_current_wm.  Rust indexes the Vec; out of
range (unreachable from the constructor) yields a fresh manager. -/
def get_current_wm (s : WorkspaceWM) : FullscreenWM :=
  (s.wrapped_wms.get? s.current_workspace).getD (FullscreenWM.new { width := 0, height := 0 })

/-- is_managed: managed by any workspace. -/
def is_managed (s : WorkspaceWM) (w : Window) : Bool :=
  s.wrapped_wms.any (fun wm => wm.is_managed w)

/-- The private helper get_index_for_window: the owning workspace, or
the current one when no workspace owns the window. -/
def get_index_for_window (s : WorkspaceWM) (w : Window) : Nat :=
  if s.is_managed w then
    ((s.wrapped_wms.findIdx? (fun wm => wm.is_managed w)).getD s.current_workspace)
  else
    s.current_workspace

/-- The private helper get_wm_for_window. -/
def get_wm_for_window (s : WorkspaceWM) (w : Window) : FullscreenWM :=
  (s.wrapped_wms.get? (s.get_index_for_window w)).getD
    (FullscreenWM.new { width := 0, height := 0 })

/-- get_windows: concatenation over all workspaces. -/
def get_windows (s : WorkspaceWM) : List Window :=
  (s.wrapped_wms.map (fun wm => wm.get_windows)).flatten

/-- add_window: delegate to the current workspace. -/
def add_window (s : WorkspaceWM) (wi : WindowWithInfo) : WorkspaceWM × Except MultiWMError Unit :=
  let p := s.get_current_wm.add_window wi
  ({ s with wrapped_wms := updateAt s.wrapped_wms s.current_workspace p.1 },
   p.2.mapError MultiWMError.WrappedError)

/-- remove_window: delegate to the owning workspace. -/
def remove_window (s : WorkspaceWM) (w : Window) : WorkspaceWM × Except MultiWMError Unit :=
  let i := s.get_index_for_window w
  let p := (s.get_wm_for_window w).remove_window w
  ({ s with wrapped_wms := updateAt s.wrapped_wms i p.1 },
   p.2.mapError MultiWMError.WrappedError)

/-- get_window_layout: the current workspace's layout. -/
def get_window_layout (s : WorkspaceWM) : WindowLayout :=
  s.get_current_wm.get_window_layout

/-- focus_window: switch to the owning workspace for a named window,
then delegate. -/
def focus_window (s : WorkspaceWM) (window : Option Window) :
    WorkspaceWM × Except MultiWMError Unit :=
  match window with
  | none =>
    let p := s.get_current_wm.focus_window none
    ({ s with wrapped_wms := updateAt s.wrapped_wms s.current_workspace p.1 },
     p.2.mapError MultiWMError.WrappedError)
  | some w =>
    let i := s.get_index_for_window w
    let s1 := { s with current_workspace := i }
    let p := (s1.wrapped_wms.get? i |>.getD (FullscreenWM.new { width := 0, height := 0 })).focus_window (some w)
    ({ s1 with wrapped_wms := updateAt s1.wrapped_wms i p.1 },
     p.2.mapError MultiWMError.WrappedError)

/-- cycle_focus: delegate to the current workspace. -/
def cycle_focus (s : WorkspaceWM) (dir : PrevOrNext) : WorkspaceWM :=
  let wm := s.get_current_wm.cycle_focus dir
  { s with wrapped_wms := updateAt s.wrapped_wms s.current_workspace wm }

/-- get_window_info: ask the owning workspace. -/
def get_window_info (s : WorkspaceWM) (w : Window) : Except MultiWMError WindowWithInfo :=
  ((s.get_wm_for_window w).get_window_info w).mapError MultiWMError.WrappedError

/-- get_screen: the current workspace's screen. -/
def get_screen (s : WorkspaceWM) : Screen :=
  s.get_current_wm.get_screen

/-- resize_screen: broadcast to every workspace. -/
def resize_screen (s : WorkspaceWM) (screen : Screen) : WorkspaceWM :=
  { s with wrapped_wms := s.wrapped_wms.map (fun wm => wm.resize_screen screen) }

/-- get_focused_window: the current workspace's focus. -/
def get_focused_window (s : WorkspaceWM) : Option Window :=
  s.get_current_wm.get_focused_window

/-- get_current_workspace_index. -/
def get_current_workspace_index (s : WorkspaceWM) : Nat :=
  s.current_workspace

/-- switch_workspace: reject an out-of-range index, else update the
current workspace. -/
def switch_workspace (s : WorkspaceWM) (index : Nat) : WorkspaceWM × Except MultiWMError Unit :=
  if index > MAX_WORKSPACE_INDEX then
    (s, Except.error (MultiWMError.UnknownWorkspace index))
  else
    ({ s with current_workspace := index }, Except.ok ())

/-- toggle_fullscreen: switch to the owning workspace, then delegate. -/
def toggle_fullscreen (s : WorkspaceWM) (w : Window) : WorkspaceWM × Except MultiWMError Unit :=
  let i := s.get_index_for_window w
  let s1 := { s with current_workspace := i }
  let p := (s1.wrapped_wms.get? i |>.getD (FullscreenWM.new { width := 0, height := 0 })).toggle_fullscreen w
  ({ s1 with wrapped_wms := updateAt s1.wrapped_wms i p.1 },
   p.2.mapError MultiWMError.WrappedError)

end WorkspaceWM

/-! ## Basic lemmas about position and list indexing -/

/-- An element obtained by getD with an in-range index is a member. -/
theorem getD_mem_of_lt (l : List Window) (i : Nat) (d : Window) (h : i < l.length) :
    l.getD i d ∈ l := by
  induction l generalizing i with
  | nil => simp at h
  | cons x xs ih =>
    cases i with
    | zero => simp
    | succ j =>
      simp only [List.getD_cons_succ, List.mem_cons]
      right
      exact ih j (by simpa using h)

theorem position_eq_none_iff {l : List Window} {w : Window} :
    position l w = none ↔ w ∉ l := by
  induction l with
  | nil => simp [position]
  | cons x xs ih =>
    simp only [position, List.mem_cons]
    by_cases hx : x = w
    · simp [hx]
    · rw [if_neg hx, Option.map_eq_none', ih]
      constructor
      · intro h hc
        rcases hc with rfl | hm
        · exact hx rfl
        · exact h hm
      · intro h hm
        exact h (Or.inr hm)

theorem position_isSome_of_mem {l : List Window} {w : Window} (h : w ∈ l) :
    (position l w).isSome := by
  cases hp : position l w with
  | none => exact absurd h (position_eq_none_iff.mp hp)
  | some i => rfl

theorem position_spec {l : List Window} {w : Window} {i : Nat} :
    position l w = some i → i < l.length ∧ l.getD i 0 = w := by
  induction l generalizing i with
  | nil => intro h; simp [position] at h
  | cons x xs ih =>
    intro h
    by_cases hx : x = w
    · rw [position, if_pos hx] at h
      cases h
      simpa using hx
    · rw [position, if_neg hx] at h
      cases hp : position xs w with
      | none => rw [hp] at h; simp at h
      | some j =>
        rw [hp] at h
        simp only [Option.map_some', Option.some.injEq] at h
        subst h
        have hs := ih hp
        refine ⟨by simpa using Nat.succ_lt_succ hs.1, ?_⟩
        simpa using hs.2

theorem position_lt {l : List Window} {w : Window} {i : Nat} (h : position l w = some i) :
    i < l.length :=
  (position_spec h).1

theorem position_getD {l : List Window} {w : Window} {i : Nat} (h : position l w = some i) :
    l.getD i 0 = w :=
  (position_spec h).2

theorem position_mem {l : List Window} {w : Window} {i : Nat} (h : position l w = some i) :
    w ∈ l := by
  by_contra hmem
  rw [position_eq_none_iff.mpr hmem] at h
  exact absurd h (by simp)

theorem position_append_right {l : List Window} {w : Window} (h : w ∉ l) :
    position (l ++ [w]) w = some l.length := by
  induction l with
  | nil => simp [position]
  | cons x xs ih =>
    simp only [List.mem_cons, not_or] at h
    simp only [List.cons_append, position, List.append_eq]
    rw [if_neg (fun hc => h.1 hc.symm), ih h.2, Option.map_some', List.length_cons]

theorem position_append_left {l m : List Window} {w : Window} {i : Nat}
    (h : position l w = some i) :
    position (l ++ m) w = some i := by
  induction l generalizing i with
  | nil => simp [position] at h
  | cons x xs ih =>
    by_cases hx : x = w
    · rw [position, if_pos hx] at h
      cases h
      rw [List.cons_append, position, if_pos hx]
    · rw [position, if_neg hx] at h
      cases hp : position xs w with
      | none => rw [hp] at h; simp at h
      | some j =>
        rw [hp] at h
        simp only [Option.map_some', Option.some.injEq] at h
        subst h
        rw [List.cons_append, position, if_neg hx, ih hp, Option.map_some']

theorem position_of_getD {l : List Window} {i : Nat} (hn : l.Nodup) (hi : i < l.length) :
    position l (l.getD i 0) = some i := by
  induction l generalizing i with
  | nil => simp at hi
  | cons x xs ih =>
    cases i with
    | zero => simp [position]
    | succ j =>
      have hj : j < xs.length := by simpa using hi
      have hx : x ≠ xs.getD j 0 := by
        intro hc
        have hmem : xs.getD j 0 ∈ xs := getD_mem_of_lt xs j 0 hj
        rw [← hc] at hmem
        exact (List.nodup_cons.mp hn).1 hmem
      simp only [List.getD_cons_succ, position, if_neg hx]
      rw [ih (List.nodup_cons.mp hn).2 hj, Option.map_some']

/-! ## Claim C1: the master-stack geometry formula and scenario A -/

/-- Gap 0 leaves the wrapped master-stack geometry unchanged. -/
theorem GappedLayouter.get_geom_zero (i : Nat) (screen : Screen) (n : Nat) :
    GappedLayouter.new.get_geom i screen n = SimpleLayouter.get_geom i screen n := by
  simp [GappedLayouter.get_geom, GappedLayouter.new]

/-- C1: for the master-stack strategy with gap 0, one tiled window gets
the full screen; with N at least 2 the master (index 0) gets the left
half and slave i (for 1 at most i at most N-1) gets the rectangle
{width/2, (height/(N-1))*(i-1), width/2, height/(N-1)}; and on an 800
by 600 screen, adding tiled windows 1, 2, 3 in order yields the layout
[(1,{0,0,400,600}), (2,{400,0,400,300}), (3,{400,300,400,300})] with
focused window 3. -/
theorem claim_C1 :
    (∀ screen : Screen, SimpleLayouter.get_geom 0 screen 1 = screen.to_geometry) ∧
    (∀ (screen : Screen) (N i : Nat), 2 ≤ N → 1 ≤ i → i ≤ N - 1 →
      SimpleLayouter.get_geom 0 screen N =
        { x := 0, y := 0, width := screen.width / 2, height := screen.height } ∧
      SimpleLayouter.get_geom i screen N =
        { x := (screen.width / 2 : Nat),
          y := ((screen.height / (N - 1)) * (i - 1) : Nat),
          width := screen.width / 2, height := screen.height / (N - 1) }) ∧
    ((((((TilingWM.new { width := 800, height := 600 }).add_window
          (WindowWithInfo.new_tiled 1 { x := 10, y := 10, width := 100, height := 100 })).1.add_window
          (WindowWithInfo.new_tiled 2 { x := 10, y := 10, width := 100, height := 100 })).1.add_window
          (WindowWithInfo.new_tiled 3 { x := 10, y := 10, width := 100, height := 100 })).1.get_window_layout) =
      { focused_window := some 3,
        windows := [(1, { x := 0, y := 0, width := 400, height := 600 }),
                    (2, { x := 400, y := 0, width := 400, height := 300 }),
                    (3, { x := 400, y := 300, width := 400, height := 300 })] }) := by
  refine ⟨?_, ?_, ?_⟩
  · intro screen
    simp [SimpleLayouter.get_geom, SimpleLayouter.get_master_geom]
  · intro screen N i hN hi hiN
    constructor
    · rw [SimpleLayouter.get_geom, if_pos rfl, SimpleLayouter.get_master_geom,
        if_pos (by omega)]
    · rw [SimpleLayouter.get_geom, if_neg (by omega)]
      rfl
  · decide

/-- Witness for C1 at N = 3, i = 2 on the 800 by 600 screen. -/
theorem claim_C1_witness :
    SimpleLayouter.get_geom 2 { width := 800, height := 600 } 3 =
      { x := 400, y := 300, width := 400, height := 300 } := by
  have h := (claim_C1.2.1 { width := 800, height := 600 } 3 2
    (by decide) (by decide) (by decide)).2
  simpa using h

/-! ## Claim C6: disjointness and coverage of the master-stack tiling -/

/-- Membership of the integer point (x, y) in a rectangle: the point
lies at or right of the left edge, strictly left of the right edge, and
likewise vertically. -/
def Geometry.containsPoint (g : Geometry) (x y : Int) : Prop :=
  g.x ≤ x ∧ x < g.x + (g.width : Int) ∧ g.y ≤ y ∧ y < g.y + (g.height : Int)

instance (g : Geometry) (x y : Int) : Decidable (g.containsPoint x y) := by
  unfold Geometry.containsPoint
  infer_instance

/-- No two master-stack rectangles share a point, for any window count
and screen. -/
theorem masterstack_disjoint (screen : Screen) (N i j : Nat) (x y : Int)
    (hiN : i < N) (hjN : j < N) (hij : i ≠ j)
    (hi : (SimpleLayouter.get_geom i screen N).containsPoint x y)
    (hj : (SimpleLayouter.get_geom j screen N).containsPoint x y) : False := by
  -- A master point lies strictly left of width/2, a slave point at or
  -- right of it; two distinct slaves occupy disjoint bands.
  have hmaster : ∀ a : Nat, a < N → a ≠ 0 →
      (SimpleLayouter.get_geom 0 screen N).containsPoint x y →
      (SimpleLayouter.get_geom a screen N).containsPoint x y → False := by
    intro a haN ha h0 hA
    have hN2 : 1 < N := by omega
    rw [SimpleLayouter.get_geom, if_pos rfl, SimpleLayouter.get_master_geom,
      if_pos hN2] at h0
    rw [SimpleLayouter.get_geom, if_neg ha] at hA
    simp only [Geometry.containsPoint] at h0 hA
    rcases h0 with ⟨-, hxlt, -, -⟩
    rcases hA with ⟨hxge, -, -, -⟩
    simp only [SimpleLayouter.get_slave_geom] at hxge
    omega
  rcases Nat.eq_zero_or_pos i with hi0 | hi1
  · subst hi0
    exact hmaster j hjN (fun hc => hij hc.symm) hi hj
  · rcases Nat.eq_zero_or_pos j with hj0 | hj1
    · subst hj0
      exact hmaster i hiN (by omega) hj hi
    · -- both slaves: compare the vertical bands
      rw [SimpleLayouter.get_geom, if_neg (by omega)] at hi
      rw [SimpleLayouter.get_geom, if_neg (by omega)] at hj
      simp only [SimpleLayouter.get_slave_geom, Geometry.containsPoint] at hi hj
      rcases hi with ⟨-, -, hyi, hyi2⟩
      rcases hj with ⟨-, -, hyj, hyj2⟩
      set q := screen.height / (N - 1) with hq
      have key : ∀ a b : Nat, a < b → 1 ≤ a →
          ((q * (a - 1) : Nat) : Int) ≤ y → y < ((q * (a - 1) : Nat) : Int) + (q : Int) →
          ((q * (b - 1) : Nat) : Int) ≤ y → False := by
        intro a b hab ha1 hya hya2 hyb
        have hmono : q * (a - 1) + q ≤ q * (b - 1) := by
          have hab1 : a ≤ b - 1 := by omega
          calc q * (a - 1) + q = q * (a - 1 + 1) := by ring
          _ = q * a := by congr 1; omega
          _ ≤ q * (b - 1) := Nat.mul_le_mul_left q hab1
        have hcast : ((q * (a - 1) : Nat) : Int) + (q : Int) ≤ ((q * (b - 1) : Nat) : Int) := by
          exact_mod_cast hmono
        omega
      rcases Nat.lt_or_ge i j with hij2 | hge
      · exact key i j hij2 hi1 hyi hyi2 hyj
      · exact key j i (by omega) hj1 hyj hyj2 hyi

/-- Every master-stack rectangle lies inside the screen. -/
theorem masterstack_inside (screen : Screen) (N i : Nat) (x y : Int)
    (hi : i < N)
    (h : (SimpleLayouter.get_geom i screen N).containsPoint x y) :
    screen.to_geometry.containsPoint x y := by
  simp only [Screen.to_geometry, Geometry.containsPoint]
  rcases Nat.eq_zero_or_pos i with hi0 | hi1
  · subst hi0
    rw [SimpleLayouter.get_geom, if_pos rfl, SimpleLayouter.get_master_geom] at h
    by_cases hN : N > 1
    · rw [if_pos hN] at h
      simp only [Geometry.containsPoint] at h
      have hw : screen.width / 2 ≤ screen.width := Nat.div_le_self _ _
      have hw2 : ((screen.width / 2 : Nat) : Int) ≤ (screen.width : Int) := by
        exact_mod_cast hw
      obtain ⟨h1, h2, h3, h4⟩ := h
      exact ⟨h1, by omega, h3, by omega⟩
    · rw [if_neg hN] at h
      simp only [Screen.to_geometry, Geometry.containsPoint] at h
      exact h
  · rw [SimpleLayouter.get_geom, if_neg (by omega)] at h
    simp only [SimpleLayouter.get_slave_geom, Geometry.containsPoint] at h
    obtain ⟨hx1, hx2, hy1, hy2⟩ := h
    set q := screen.height / (N - 1) with hq
    have hband : q * (i - 1) + q ≤ screen.height := by
      have h1 : q * (i - 1) + q = q * i := by
        calc q * (i - 1) + q = q * (i - 1 + 1) := by ring
        _ = q * i := by congr 1; omega
      have h2 : q * i ≤ q * (N - 1) := Nat.mul_le_mul_left q (by omega)
      have h3 : q * (N - 1) ≤ screen.height := by
        rw [hq]
        exact Nat.div_mul_le_self _ _
      omega
    have hband2 : ((q * (i - 1) : Nat) : Int) + (q : Int) ≤ (screen.height : Int) := by
      exact_mod_cast hband
    have hwsum : screen.width / 2 + screen.width / 2 ≤ screen.width := by omega
    have hwsum2 : ((screen.width / 2 : Nat) : Int) + ((screen.width / 2 : Nat) : Int)
        ≤ (screen.width : Int) := by exact_mod_cast hwsum
    have hge0 : (0 : Int) ≤ ((screen.width / 2 : Nat) : Int) := Int.natCast_nonneg _
    have hge0y : (0 : Int) ≤ ((q * (i - 1) : Nat) : Int) := Int.natCast_nonneg _
    exact ⟨by omega, by omega, by omega, by omega⟩

/-- When the width is even and the slave count divides the height, the
master-stack rectangles cover the whole screen. -/
theorem masterstack_cover (screen : Screen) (N : Nat) (x y : Int)
    (hN : 1 ≤ N)
    (hcond : N = 1 ∨ (2 ∣ screen.width ∧ (N - 1) ∣ screen.height))
    (h : screen.to_geometry.containsPoint x y) :
    ∃ i, i < N ∧ (SimpleLayouter.get_geom i screen N).containsPoint x y := by
  simp only [Screen.to_geometry, Geometry.containsPoint] at h
  obtain ⟨hx1, hx2, hy1, hy2⟩ := h
  have hfull : N = 1 →
      ∃ i, i < N ∧ (SimpleLayouter.get_geom i screen N).containsPoint x y := by
    intro h1
    subst h1
    refine ⟨0, by omega, ?_⟩
    rw [SimpleLayouter.get_geom, if_pos rfl, SimpleLayouter.get_master_geom, if_neg (by omega)]
    exact ⟨hx1, hx2, hy1, hy2⟩
  rcases hcond with h1 | ⟨hw2, hdvd⟩
  · exact hfull h1
  · by_cases hN1 : N = 1
    · exact hfull hN1
    · have hN2 : 1 < N := by omega
      by_cases hx : x < ((screen.width / 2 : Nat) : Int)
      · refine ⟨0, by omega, ?_⟩
        rw [SimpleLayouter.get_geom, if_pos rfl, SimpleLayouter.get_master_geom, if_pos hN2]
        exact ⟨hx1, by simpa using hx, hy1, hy2⟩
      · push_neg at hx
        set nn := N - 1 with hnn
        have hnn1 : 1 ≤ nn := by omega
        set q := screen.height / nn with hq
        have hqnn : q * nn = screen.height := by
          rw [hq]
          exact Nat.div_mul_cancel hdvd
        have hh0 : 0 < screen.height := by
          by_contra hc
          push_neg at hc
          interval_cases hh : screen.height
          · simp at hy1 hy2; omega
        have hq0 : 0 < q := by
          rcases Nat.eq_zero_or_pos q with h0 | h0
          · rw [h0] at hqnn; simp at hqnn; omega
          · exact h0
        set yt := y.toNat with hyt
        have hyty : (yt : Int) = y := Int.toNat_of_nonneg hy1
        have hytlt : yt < screen.height := by omega
        set ii := yt / q with hii
        have hiilt : ii < nn := by
          rw [hii]
          exact Nat.div_lt_of_lt_mul (by omega)
        have hdm := Nat.div_add_mod yt q
        rw [← hii] at hdm
        have hmlt := Nat.mod_lt yt hq0
        clear_value nn q yt ii
        have hle : q * ii ≤ yt := by omega
        have hlt : yt < q * ii + q := by omega
        have hle2 : ((q * ii : Nat) : Int) ≤ (yt : Int) := by exact_mod_cast hle
        have hlt2 : (yt : Int) < ((q * ii : Nat) : Int) + (q : Int) := by exact_mod_cast hlt
        have hwsum : screen.width / 2 + screen.width / 2 = screen.width := by
          obtain ⟨c, hc⟩ := hw2
          omega
        have hwsum2 : ((screen.width / 2 : Nat) : Int) + ((screen.width / 2 : Nat) : Int)
            = (screen.width : Int) := by exact_mod_cast hwsum
        refine ⟨ii + 1, by omega, ?_⟩
        rw [SimpleLayouter.get_geom, if_neg (by omega)]
        simp only [SimpleLayouter.get_slave_geom, Nat.add_sub_cancel, Geometry.containsPoint]
        rw [← hnn, ← hq]
        refine ⟨hx, by omega, by omega, by omega⟩

/-- C6 counterexample: the claim asserts exact coverage for every
screen size and window count, but on a 3 by 1 screen with 2 windows the
screen point (2,0) lies in neither rectangle, and on a 2 by 3 screen
with 3 windows the screen point (1,2) lies in no rectangle. -/
theorem claim_C6_counterexample :
    Geometry.containsPoint (Screen.to_geometry { width := 3, height := 1 }) 2 0 ∧
    ¬ Geometry.containsPoint (SimpleLayouter.get_geom 0 { width := 3, height := 1 } 2) 2 0 ∧
    ¬ Geometry.containsPoint (SimpleLayouter.get_geom 1 { width := 3, height := 1 } 2) 2 0 ∧
    Geometry.containsPoint (Screen.to_geometry { width := 2, height := 3 }) 1 2 ∧
    ¬ Geometry.containsPoint (SimpleLayouter.get_geom 0 { width := 2, height := 3 } 3) 1 2 ∧
    ¬ Geometry.containsPoint (SimpleLayouter.get_geom 1 { width := 2, height := 3 } 3) 1 2 ∧
    ¬ Geometry.containsPoint (SimpleLayouter.get_geom 2 { width := 2, height := 3 } 3) 1 2 := by
  decide

/-- C6 (amended): for the master-stack strategy with gap 0 the N
rectangles are always pairwise disjoint and contained in the screen,
for every screen and every N at least 1; the union covers the screen
exactly when N = 1, or when the screen width is even and N - 1 divides
the screen height (integer division otherwise drops the last columns or
rows, as the counterexample shows). -/
theorem claim_C6 :
    (∀ (screen : Screen) (N i j : Nat) (x y : Int), i < N → j < N → i ≠ j →
      (SimpleLayouter.get_geom i screen N).containsPoint x y →
      ¬ (SimpleLayouter.get_geom j screen N).containsPoint x y) ∧
    (∀ (screen : Screen) (N i : Nat) (x y : Int), i < N →
      (SimpleLayouter.get_geom i screen N).containsPoint x y →
      screen.to_geometry.containsPoint x y) ∧
    (∀ (screen : Screen) (N : Nat) (x y : Int), 1 ≤ N →
      (N = 1 ∨ (2 ∣ screen.width ∧ (N - 1) ∣ screen.height)) →
      screen.to_geometry.containsPoint x y →
      ∃ i, i < N ∧ (SimpleLayouter.get_geom i screen N).containsPoint x y) :=
  ⟨fun screen N i j x y hiN hjN hij hi hj =>
      masterstack_disjoint screen N i j x y hiN hjN hij hi hj,
   fun screen N i x y hi h => masterstack_inside screen N i x y hi h,
   fun screen N x y hN hcond h => masterstack_cover screen N x y hN hcond h⟩

/-- Witness for C6 on an 800 by 600 screen with 4 windows: rectangles 1
and 2 are disjoint at the point (500, 100), rectangle 1 lies on screen
at that point, and the screen point (799, 599) is covered. -/
theorem claim_C6_witness :
    (¬ (SimpleLayouter.get_geom 2 { width := 800, height := 600 } 4).containsPoint 500 100) ∧
    Geometry.containsPoint (Screen.to_geometry { width := 800, height := 600 }) 500 100 ∧
    (∃ i, i < 4 ∧
      (SimpleLayouter.get_geom i { width := 800, height := 600 } 4).containsPoint 799 599) := by
  refine ⟨?_, ?_, ?_⟩
  · exact claim_C6.1 { width := 800, height := 600 } 4 1 2 500 100 (by decide) (by decide)
      (by decide) (by decide)
  · exact claim_C6.2.1 { width := 800, height := 600 } 4 1 500 100 (by decide) (by decide)
  · exact claim_C6.2.2 { width := 800, height := 600 } 4 799 599 (by decide)
      (Or.inr (by decide)) (by decide)

/-! ## More list lemmas used by the invariant proofs -/

theorem eraseIdx_position {l : List Window} {w : Window} {i : Nat}
    (h : position l w = some i) :
    l.eraseIdx i = l.erase w := by
  induction l generalizing i with
  | nil => simp [position] at h
  | cons x xs ih =>
    by_cases hx : x = w
    · rw [position, if_pos hx] at h
      cases h
      subst hx
      simp [List.eraseIdx, List.erase_cons_head]
    · rw [position, if_neg hx] at h
      cases hp : position xs w with
      | none => rw [hp] at h; simp at h
      | some j =>
        rw [hp] at h
        simp only [Option.map_some', Option.some.injEq] at h
        subst h
        have hbeq : (x == w) = false := by simp [hx]
        simp [List.eraseIdx, List.erase_cons, hbeq, ih hp]

theorem removeFirst_eq_erase (l : List Window) (w : Window) :
    (match position l w with
     | some i => l.eraseIdx i
     | none => l) = l.erase w := by
  cases hp : position l w with
  | none => simp [List.erase_of_not_mem (position_eq_none_iff.mp hp)]
  | some i => simp [eraseIdx_position hp]

theorem erase_append_singleton_perm {l : List Window} {w : Window} (h : w ∈ l) :
    ((l.erase w) ++ [w]).Perm l := by
  have h1 : ((l.erase w) ++ [w]).Perm (w :: l.erase w) := List.perm_append_singleton w _
  have h2 : (w :: l.erase w).Perm l := (List.perm_cons_erase h).symm
  exact h1.trans h2

/-! ## Well-formedness of the tiling core -/

namespace TilingWM

/-- Well-formed tiling state: distinct windows and an in-range focus. -/
structure WF (s : TilingWM) : Prop where
  nodup : s.windows.Nodup
  fidx : ∀ i, s.focused_index = some i → i < s.windows.length

theorem WF_new_t (screen : Screen) : (TilingWM.new screen).WF := by
  constructor
  · simp [TilingWM.new]
  · intro i h
    simp [TilingWM.new] at h

theorem cycle_focus_windows (s : TilingWM) (d : PrevOrNext) :
    (s.cycle_focus d).windows = s.windows := rfl

theorem cycle_focus_helper_windows (s : TilingWM) (d : PrevOrNext) :
    (s.cycle_focus_helper d).windows = s.windows := by
  rw [cycle_focus_helper]
  split
  · rfl
  · rfl

theorem cycle_index_lt {s : TilingWM} {i : Nat} (d : PrevOrNext)
    (h : 0 < s.windows.length) : s.cycle_index i d < s.windows.length := by
  cases d <;> simp [cycle_index] <;> exact Nat.mod_lt _ h

theorem cycle_focus_WF_t {s : TilingWM} (h : s.WF) (d : PrevOrNext) :
    (s.cycle_focus d).WF := by
  constructor
  · rw [cycle_focus_windows]; exact h.nodup
  · intro i hi
    rw [cycle_focus_windows]
    rw [cycle_focus.eq_def] at hi
    simp only at hi
    cases hf : s.focused_index with
    | none =>
      rw [hf] at hi
      by_cases hlen : s.windows.length = 0
      · rw [if_pos hlen] at hi; cases hi
      · rw [if_neg hlen] at hi
        cases d with
        | Next => cases hi; omega
        | Prev => cases hi; omega
    | some j =>
      rw [hf] at hi
      cases hi
      have hj := h.fidx j hf
      exact cycle_index_lt d (by omega)

theorem cycle_focus_helper_WF {s : TilingWM} (h : s.WF) (d : PrevOrNext) :
    (s.cycle_focus_helper d).WF := by
  rw [cycle_focus_helper]
  split
  · constructor
    · exact h.nodup
    · intro i hi; cases hi
  · exact cycle_focus_WF_t h d

theorem focus_window_windows (s : TilingWM) (ow : Option Window) :
    (s.focus_window ow).1.windows = s.windows := by
  cases ow with
  | none => rfl
  | some w =>
    rw [focus_window]
    split
    · rfl
    · rfl

theorem focus_window_WF_t {s : TilingWM} (h : s.WF) (ow : Option Window) :
    (s.focus_window ow).1.WF := by
  constructor
  · rw [focus_window_windows]; exact h.nodup
  · intro i hi
    rw [focus_window_windows]
    cases ow with
    | none => cases hi
    | some w =>
      rw [focus_window] at hi
      by_cases hm : ¬ s.is_managed w
      · rw [if_pos hm] at hi
        exact h.fidx i hi
      · rw [if_neg hm] at hi
        simp only at hi
        exact position_lt hi

theorem focus_window_none_focus (s : TilingWM) :
    (s.focus_window none).1.focused_index = none := rfl

theorem focus_window_some_focus {s : TilingWM} {w : Window}
    (hm : s.is_managed w = true) :
    (s.focus_window (some w)).1.focused_index = position s.windows w := by
  rw [focus_window]
  rw [if_neg (by simp [hm])]

theorem get_focused_window_of_position {s : TilingWM} {w : Window}
    (hm : s.is_managed w = true) :
    (s.focus_window (some w)).1.get_focused_window = some w := by
  have hmem : w ∈ s.windows := by
    simpa [TilingWM.is_managed] using hm
  cases hp : position s.windows w with
  | none => exact absurd hmem (position_eq_none_iff.mp hp)
  | some i =>
    rw [get_focused_window, focus_window_some_focus hm, hp, Option.map_some']
    rw [focus_window_windows]
    exact congrArg some (position_getD hp)

theorem add_window_WF_t {s : TilingWM} (h : s.WF) (wi : WindowWithInfo) :
    (s.add_window wi).1.WF := by
  rw [add_window]
  split
  · next hm =>
    constructor
    · simp only
      refine List.Nodup.append h.nodup (by simp) ?_
      intro a ha hb
      simp only [List.mem_singleton] at hb
      subst hb
      exact hm (by simpa [TilingWM.is_managed] using ha)
    · intro i hi
      simp only at hi
      cases hi
      simp
  · exact h

theorem add_window_ok_t (s : TilingWM) (wi : WindowWithInfo) :
    (s.add_window wi).2 = Except.ok () := by
  rw [add_window]
  split
  · rfl
  · rfl

theorem add_window_noop_t {s : TilingWM} {wi : WindowWithInfo}
    (hm : s.is_managed wi.window = true) :
    s.add_window wi = (s, Except.ok ()) := by
  rw [add_window, if_neg (by simp [hm])]

theorem add_window_windows_new {s : TilingWM} {wi : WindowWithInfo}
    (hm : ¬ s.is_managed wi.window = true) :
    (s.add_window wi).1.windows = s.windows ++ [wi.window] ∧
    (s.add_window wi).1.focused_index = some s.windows.length := by
  rw [add_window, if_pos (by simp [hm])]
  exact ⟨rfl, rfl⟩

theorem remove_window_error {s : TilingWM} {w : Window} (h : w ∉ s.windows) :
    s.remove_window w = (s, Except.error (WMError.UnknownWindow w)) := by
  rw [remove_window.eq_def, position_eq_none_iff.mpr h]

theorem remove_window_windows {s : TilingWM} {w : Window} {i : Nat}
    (hp : position s.windows w = some i) :
    (s.remove_window w).1.windows = s.windows.erase w ∧
    (s.remove_window w).2 = Except.ok () := by
  rw [remove_window.eq_def, hp]
  dsimp only
  constructor
  · split
    · exact eraseIdx_position hp
    · split
      · split
        · rw [cycle_focus_windows]
          exact eraseIdx_position hp
        · exact eraseIdx_position hp
      · exact eraseIdx_position hp
  · rfl

theorem remove_window_focus {s : TilingWM} {w : Window} {i : Nat}
    (hp : position s.windows w = some i) :
    (s.remove_window w).1.focused_index =
      if s.windows.length - 1 = 0 then none
      else
        match s.focused_index with
        | some j =>
          if i ≤ j then some ((j + (s.windows.length - 1) - 1) % (s.windows.length - 1))
          else some j
        | none => none := by
  have hlen : (s.windows.eraseIdx i).length = s.windows.length - 1 := by
    rw [List.length_eraseIdx, if_pos (position_lt hp)]
  rw [remove_window.eq_def, hp]
  dsimp only
  rw [hlen]
  split
  · rfl
  · cases hf : s.focused_index with
    | none => rfl
    | some j =>
      dsimp only
      split
      · rw [cycle_focus]
        dsimp only
        simp only [cycle_index, hlen]
      · rfl

theorem remove_window_WF_t {s : TilingWM} (h : s.WF) (w : Window) :
    (s.remove_window w).1.WF := by
  cases hp : position s.windows w with
  | none =>
    rw [remove_window_error (position_eq_none_iff.mp hp)]
    exact h
  | some i =>
    have hlen : (s.windows.erase w).length = s.windows.length - 1 := by
      rw [← eraseIdx_position hp, List.length_eraseIdx, if_pos (position_lt hp)]
    constructor
    · rw [(remove_window_windows hp).1]
      exact h.nodup.erase w
    · intro k hk
      rw [(remove_window_windows hp).1, hlen]
      rw [remove_window_focus hp] at hk
      split at hk
      · cases hk
      · next hne =>
        split at hk
        · next j hf =>
          split at hk
          · cases hk
            exact Nat.mod_lt _ (by omega)
          · next hij =>
            cases hk
            have hj := h.fidx _ hf
            have hi := position_lt hp
            omega
        · cases hk

/-- Setting position i to the old value at j and position j to the old
value at i permutes the list. -/
theorem set_swap_perm (l : List Window) (i j : Nat) (hi : i < l.length) (hj : j < l.length) :
    ((l.set i (l.getD j 0)).set j (l.getD i 0)).Perm l := by
  have hgi : l.getD i 0 = l[i] := by
    rw [List.getD_eq_getElem?_getD, List.getElem?_eq_getElem hi]
    rfl
  have hgj : l.getD j 0 = l[j] := by
    rw [List.getD_eq_getElem?_getD, List.getElem?_eq_getElem hj]
    rfl
  rw [List.perm_iff_count]
  intro a
  have hj2 : j < (l.set i (l.getD j 0)).length := by
    rw [List.length_set]
    exact hj
  rw [List.count_set _ _ _ _ hj2, List.count_set _ _ _ _ hi]
  have hci : (l[i] == a) = true → 1 ≤ List.count a l := by
    intro hb
    have hia : l[i] = a := by simpa using hb
    rw [← hia]
    simpa using List.count_pos_iff_mem.mpr (List.getElem_mem hi)
  have hcj : (l[j] == a) = true → 1 ≤ List.count a l := by
    intro hb
    have hja : l[j] = a := by simpa using hb
    rw [← hja]
    simpa using List.count_pos_iff_mem.mpr (List.getElem_mem hj)
  by_cases hij : i = j
  · subst hij
    have hmid : (l.set i (l.getD i 0))[i] = l[i] := by
      rw [List.getElem_set_self]
      exact hgi
    rw [hmid, hgi]
    cases hb : (l[i] == a) with
    | false => simp [hb]
    | true => have := hci hb; simp [hb] <;> omega
  · have hmid : (l.set i (l.getD j 0))[j] = l[j] := by
      rw [List.getElem_set_ne hij]
    rw [hmid, hgi, hgj]
    cases hb1 : (l[i] == a) with
    | false =>
      cases hb2 : (l[j] == a) with
      | false => simp [hb1, hb2]
      | true => have := hcj hb2; simp [hb1, hb2] <;> omega
    | true =>
      cases hb2 : (l[j] == a) with
      | false => have := hci hb1; simp [hb1, hb2] <;> omega
      | true => have := hci hb1; have := hcj hb2; simp [hb1, hb2] <;> omega

theorem swap_with_master_error {s : TilingWM} {w : Window} (h : w ∉ s.windows) :
    s.swap_with_master w = (s, Except.error (WMError.UnknownWindow w)) := by
  rw [swap_with_master.eq_def, position_eq_none_iff.mpr h]

theorem swap_with_master_spec {s : TilingWM} {w : Window} {pos : Nat}
    (hp : position s.windows w = some pos) :
    (s.swap_with_master w).1.windows.Perm s.windows ∧
    (s.swap_with_master w).1.focused_index = some 0 ∧
    (s.swap_with_master w).2 = Except.ok () := by
  rw [swap_with_master.eq_def, hp]
  dsimp only
  refine ⟨?_, rfl, rfl⟩
  have hw : w = s.windows.getD pos 0 := (position_getD hp).symm
  have hpos := position_lt hp
  rw [hw]
  exact set_swap_perm s.windows pos 0 hpos (by omega)

theorem swap_with_master_WF_t {s : TilingWM} (h : s.WF) (w : Window) :
    (s.swap_with_master w).1.WF := by
  cases hp : position s.windows w with
  | none =>
    rw [swap_with_master_error (position_eq_none_iff.mp hp)]
    exact h
  | some pos =>
    have hs := swap_with_master_spec hp
    constructor
    · exact hs.1.symm.nodup h.nodup
    · intro i hi
      rw [hs.2.1] at hi
      cases hi
      rw [hs.1.length_eq]
      have := position_lt hp
      omega

theorem swap_windows_noop {s : TilingWM} (h : s.focused_index = none) (d : PrevOrNext) :
    s.swap_windows d = s := by
  rw [swap_windows.eq_def, h]

theorem swap_windows_spec {s : TilingWM} {pos : Nat}
    (hp : s.focused_index = some pos) (hlt : pos < s.windows.length) (d : PrevOrNext) :
    (s.swap_windows d).windows.Perm s.windows ∧
    (s.swap_windows d).focused_index = some (s.cycle_index pos d) := by
  rw [swap_windows.eq_def, hp]
  dsimp only
  exact ⟨set_swap_perm s.windows pos (s.cycle_index pos d) hlt
    (cycle_index_lt d (by omega)), rfl⟩

theorem swap_windows_WF_t {s : TilingWM} (h : s.WF) (d : PrevOrNext) :
    (s.swap_windows d).WF := by
  cases hp : s.focused_index with
  | none =>
    rw [swap_windows_noop hp]
    exact h
  | some pos =>
    have hlt := h.fidx pos hp
    have hs := swap_windows_spec hp hlt d
    constructor
    · exact hs.1.symm.nodup h.nodup
    · intro i hi
      rw [hs.2] at hi
      cases hi
      rw [hs.1.length_eq]
      exact cycle_index_lt d (by omega)

end TilingWM

/-! ## Well-formedness of the float layer -/

namespace FloatingWM

/-- No stale tiling focus below a focused floating window.  This is the
state condition the focus ring of cycle_focus relies on; it is restored
by every focus_window call but can be broken by swap_with_master on a
tiled window while a float is focused. -/
def focusExcl (s : FloatingWM) : Prop :=
  s.focused_index.isSome = true → s.tiling_wm.focused_index = none

/-- Well-formed float-layer state: the z-order stack is a permutation
of the floating list, both window collections are duplicate-free and
disjoint, the focused indices are in range, and the infos map stores an
entry (with matching key) for every managed window. -/
structure WF (s : FloatingWM) : Prop where
  perm : s.stack_order_floating_windows.Perm s.floating_windows
  nodupF : s.floating_windows.Nodup
  tiling : s.tiling_wm.WF
  disj : ∀ w, w ∈ s.floating_windows → w ∉ s.tiling_wm.windows
  fidx : ∀ i, s.focused_index = some i → i < s.floating_windows.length
  infos_mem : ∀ w, s.is_managed w = true → (s.infos w).isSome = true
  infos_key : ∀ w wi, s.infos w = some wi → wi.window = w

theorem WF_new_f (screen : Screen) : (FloatingWM.new screen).WF :=
  { perm := List.Perm.refl _
    nodupF := List.nodup_nil
    tiling := TilingWM.WF_new_t screen
    disj := by intro w hw; simp [FloatingWM.new] at hw
    fidx := by intro i hi; simp [FloatingWM.new] at hi
    infos_mem := by
      intro w hw
      simp [FloatingWM.new, is_managed, is_floating, TilingWM.is_managed, TilingWM.new] at hw
    infos_key := by intro w wi hwi; simp [FloatingWM.new] at hwi }

/-- States agreeing on both window collections manage the same
windows. -/
theorem is_managed_congr {s t : FloatingWM}
    (hf : t.floating_windows = s.floating_windows)
    (ht : t.tiling_wm.windows = s.tiling_wm.windows) (w : Window) :
    t.is_managed w = s.is_managed w := by
  rw [is_managed, is_managed, is_floating, is_floating, hf,
    TilingWM.is_managed, TilingWM.is_managed, ht]

theorem is_managed_of_floating {s : FloatingWM} {w : Window}
    (h : w ∈ s.floating_windows) : s.is_managed w = true := by
  simp [is_managed, is_floating]
  exact Or.inl h

theorem is_managed_of_tiled {s : FloatingWM} {w : Window}
    (h : w ∈ s.tiling_wm.windows) : s.is_managed w = true := by
  simp [is_managed, is_floating, TilingWM.is_managed]
  exact Or.inr h

theorem managed_cases {s : FloatingWM} {w : Window} (h : s.is_managed w = true) :
    w ∈ s.floating_windows ∨ w ∈ s.tiling_wm.windows := by
  simpa [is_managed, is_floating, TilingWM.is_managed] using h

theorem not_managed_not_floating {s : FloatingWM} {w : Window}
    (h : ¬ s.is_managed w = true) : w ∉ s.floating_windows := by
  intro hc
  exact h (is_managed_of_floating hc)

theorem not_managed_not_tiled {s : FloatingWM} {w : Window}
    (h : ¬ s.is_managed w = true) : w ∉ s.tiling_wm.windows := by
  intro hc
  exact h (is_managed_of_tiled hc)

end FloatingWM

/-! Branch characterizations of the tiling focus_window. -/

theorem TilingWM.focus_window_none_eq_t (s : TilingWM) :
    s.focus_window none = ({ s with focused_index := none }, Except.ok ()) := rfl

theorem TilingWM.focus_window_some_eq {s : TilingWM} {w : Window}
    (ht : s.is_managed w = true) :
    s.focus_window (some w) =
      ({ s with focused_index := position s.windows w }, Except.ok ()) := by
  rw [TilingWM.focus_window, if_neg (by simp [ht])]

namespace FloatingWM

/-! Branch characterizations of the float-layer focus_window. -/

theorem focus_window_none_eq_f (s : FloatingWM) :
    s.focus_window none =
      ({ s with focused_index := none,
                tiling_wm := { s.tiling_wm with focused_index := none } },
       Except.ok ()) := rfl

theorem focus_window_tiled_eq {s : FloatingWM} {w : Window}
    (ht : s.tiling_wm.is_managed w = true) :
    s.focus_window (some w) =
      ({ s with focused_index := none,
                tiling_wm := { s.tiling_wm with
                  focused_index := position s.tiling_wm.windows w } },
       Except.ok ()) := by
  rw [focus_window, if_pos ht]
  simp only [TilingWM.focus_window_some_eq ht]

theorem focus_window_float_eq {s : FloatingWM} {w : Window}
    (ht : ¬ s.tiling_wm.is_managed w = true) (hf : s.is_floating w = true) :
    s.focus_window (some w) =
      ({ s with stack_order_floating_windows :=
                  (s.stack_order_floating_windows.erase w) ++ [w],
                focused_index := position s.floating_windows w,
                tiling_wm := { s.tiling_wm with focused_index := none } },
       Except.ok ()) := by
  rw [focus_window, if_neg ht, if_pos hf]
  rfl

theorem focus_window_unknown_eq {s : FloatingWM} {w : Window}
    (ht : ¬ s.tiling_wm.is_managed w = true) (hf : ¬ s.is_floating w = true) :
    s.focus_window (some w) = (s, Except.error (WMError.UnknownWindow w)) := by
  rw [focus_window, if_neg ht, if_neg hf]

theorem focus_window_floats (s : FloatingWM) (ow : Option Window) :
    (s.focus_window ow).1.floating_windows = s.floating_windows := by
  cases ow with
  | none => rw [focus_window_none_eq_f]
  | some w =>
    by_cases ht : s.tiling_wm.is_managed w = true
    · rw [focus_window_tiled_eq ht]
    · by_cases hf : s.is_floating w = true
      · rw [focus_window_float_eq ht hf]
      · rw [focus_window_unknown_eq ht hf]

theorem focus_window_tiling_windows (s : FloatingWM) (ow : Option Window) :
    (s.focus_window ow).1.tiling_wm.windows = s.tiling_wm.windows := by
  cases ow with
  | none => rw [focus_window_none_eq_f]
  | some w =>
    by_cases ht : s.tiling_wm.is_managed w = true
    · rw [focus_window_tiled_eq ht]
    · by_cases hf : s.is_floating w = true
      · rw [focus_window_float_eq ht hf]
      · rw [focus_window_unknown_eq ht hf]

theorem focus_window_infos (s : FloatingWM) (ow : Option Window) :
    (s.focus_window ow).1.infos = s.infos := by
  cases ow with
  | none => rw [focus_window_none_eq_f]
  | some w =>
    by_cases ht : s.tiling_wm.is_managed w = true
    · rw [focus_window_tiled_eq ht]
    · by_cases hf : s.is_floating w = true
      · rw [focus_window_float_eq ht hf]
      · rw [focus_window_unknown_eq ht hf]

theorem focus_window_screen (s : FloatingWM) (ow : Option Window) :
    (s.focus_window ow).1.tiling_wm.screen = s.tiling_wm.screen := by
  cases ow with
  | none => rw [focus_window_none_eq_f]
  | some w =>
    by_cases ht : s.tiling_wm.is_managed w = true
    · rw [focus_window_tiled_eq ht]
    · by_cases hf : s.is_floating w = true
      · rw [focus_window_float_eq ht hf]
      · rw [focus_window_unknown_eq ht hf]

theorem focus_window_WF_f {s : FloatingWM} (h : s.WF) (ow : Option Window) :
    (s.focus_window ow).1.WF := by
  cases ow with
  | none =>
    rw [focus_window_none_eq_f]
    exact { perm := h.perm, nodupF := h.nodupF,
            tiling := ⟨h.tiling.nodup, by intro i hi; simp at hi⟩,
            disj := h.disj,
            fidx := by intro i hi; simp at hi,
            infos_mem := h.infos_mem, infos_key := h.infos_key }
  | some w =>
    by_cases ht : s.tiling_wm.is_managed w = true
    · rw [focus_window_tiled_eq ht]
      exact { perm := h.perm, nodupF := h.nodupF,
              tiling := ⟨h.tiling.nodup, by intro i hi; exact position_lt hi⟩,
              disj := h.disj,
              fidx := by intro i hi; simp at hi,
              infos_mem := h.infos_mem, infos_key := h.infos_key }
    · by_cases hf : s.is_floating w = true
      · rw [focus_window_float_eq ht hf]
        have hmem : w ∈ s.floating_windows := by simpa [is_floating] using hf
        have hstack : w ∈ s.stack_order_floating_windows := h.perm.mem_iff.mpr hmem
        exact { perm := (erase_append_singleton_perm hstack).trans h.perm,
                nodupF := h.nodupF,
                tiling := ⟨h.tiling.nodup, by intro i hi; simp at hi⟩,
                disj := h.disj,
                fidx := by intro i hi; exact position_lt hi,
                infos_mem := h.infos_mem, infos_key := h.infos_key }
      · rw [focus_window_unknown_eq ht hf]
        exact h

theorem focus_window_excl_none (s : FloatingWM) :
    (s.focus_window none).1.focusExcl := by
  rw [focus_window_none_eq_f]
  intro hc
  rfl

theorem focus_window_excl_some {s : FloatingWM} {w : Window}
    (hm : s.is_managed w = true) :
    (s.focus_window (some w)).1.focusExcl := by
  by_cases ht : s.tiling_wm.is_managed w = true
  · rw [focus_window_tiled_eq ht]
    intro hc
    simp at hc
  · have hf : s.is_floating w = true := by
      rcases managed_cases hm with hc | hc
      · simpa [is_floating] using hc
      · exact absurd (by simpa [TilingWM.is_managed] using hc : s.tiling_wm.is_managed w = true) ht
    rw [focus_window_float_eq ht hf]
    intro hc
    rfl

theorem focus_window_get_focused {s : FloatingWM} {w : Window}
    (hm : s.is_managed w = true) :
    (s.focus_window (some w)).1.get_focused_window = some w := by
  by_cases ht : s.tiling_wm.is_managed w = true
  · have hmem : w ∈ s.tiling_wm.windows := by simpa [TilingWM.is_managed] using ht
    cases hp : position s.tiling_wm.windows w with
    | none => exact absurd hmem (position_eq_none_iff.mp hp)
    | some i =>
      rw [focus_window_tiled_eq ht, get_focused_window.eq_def]
      dsimp only
      rw [TilingWM.get_focused_window]
      dsimp only
      rw [hp, Option.map_some']
      exact congrArg some (position_getD hp)
  · have hf : s.is_floating w = true := by
      rcases managed_cases hm with hc | hc
      · simpa [is_floating] using hc
      · exact absurd (by simpa [TilingWM.is_managed] using hc : s.tiling_wm.is_managed w = true) ht
    have hmem : w ∈ s.floating_windows := by simpa [is_floating] using hf
    cases hp : position s.floating_windows w with
    | none => exact absurd hmem (position_eq_none_iff.mp hp)
    | some i =>
      rw [focus_window_float_eq ht hf, get_focused_window.eq_def]
      dsimp only
      rw [hp]
      exact congrArg some (position_getD hp)

theorem focus_window_some_ok {s : FloatingWM} {w : Window}
    (hm : s.is_managed w = true) :
    (s.focus_window (some w)).2 = Except.ok () := by
  by_cases ht : s.tiling_wm.is_managed w = true
  · rw [focus_window_tiled_eq ht]
  · have hf : s.is_floating w = true := by
      rcases managed_cases hm with hc | hc
      · simpa [is_floating] using hc
      · exact absurd (by simpa [TilingWM.is_managed] using hc : s.tiling_wm.is_managed w = true) ht
    rw [focus_window_float_eq ht hf]

theorem focus_window_none_ok (s : FloatingWM) :
    (s.focus_window none).2 = Except.ok () := by
  rw [focus_window_none_eq_f]

/-! Branch characterizations of add_window. -/

theorem add_window_noop_f {s : FloatingWM} {wi : WindowWithInfo}
    (hm : s.is_managed wi.window = true) :
    s.add_window wi = (s, Except.ok ()) := by
  rw [add_window, if_neg (by simp [hm])]

theorem add_window_float_eq {s : FloatingWM} {wi : WindowWithInfo}
    (hm : ¬ s.is_managed wi.window = true)
    (hfl : wi.float_or_tile = FloatOrTile.Float) :
    s.add_window wi =
      ({ s with floating_windows := s.floating_windows ++ [wi.window],
                stack_order_floating_windows :=
                  s.stack_order_floating_windows ++ [wi.window],
                infos := fun w => if w = wi.window then some wi
                                  else s.infos w }).focus_window (some wi.window) := by
  rw [add_window, if_pos hm, hfl]

theorem add_window_tile_eq {s : FloatingWM} {wi : WindowWithInfo}
    (hm : ¬ s.is_managed wi.window = true)
    (hfl : wi.float_or_tile = FloatOrTile.Tile) :
    s.add_window wi =
      ({ s with tiling_wm := (s.tiling_wm.add_window wi).1,
                infos := fun w => if w = wi.window then some wi
                                  else s.infos w }).focus_window (some wi.window) := by
  rw [add_window, if_pos hm, hfl]
  simp only [TilingWM.add_window_ok_t]

theorem add_window_ok_f (s : FloatingWM) (wi : WindowWithInfo) :
    (s.add_window wi).2 = Except.ok () := by
  by_cases hm : s.is_managed wi.window = true
  · rw [add_window_noop_f hm]
  · cases hfl : wi.float_or_tile with
    | Float =>
      rw [add_window_float_eq hm hfl]
      exact focus_window_some_ok (by
        apply is_managed_of_floating
        simp)
    | Tile =>
      rw [add_window_tile_eq hm hfl]
      apply focus_window_some_ok
      apply is_managed_of_tiled
      have := (@TilingWM.add_window_windows_new s.tiling_wm wi
        (by intro hc; exact hm (is_managed_of_tiled (by simpa [TilingWM.is_managed] using hc)))).1
      rw [this]
      simp

theorem add_window_WF_f {s : FloatingWM} (h : s.WF) (wi : WindowWithInfo) :
    (s.add_window wi).1.WF := by
  by_cases hm : s.is_managed wi.window = true
  · rw [add_window_noop_f hm]
    exact h
  · have hnf : wi.window ∉ s.floating_windows := not_managed_not_floating hm
    have hnt : wi.window ∉ s.tiling_wm.windows := not_managed_not_tiled hm
    cases hfl : wi.float_or_tile with
    | Float =>
      rw [add_window_float_eq hm hfl]
      apply focus_window_WF_f
      exact { perm := h.perm.append_right [wi.window]
              nodupF := by
                refine List.Nodup.append h.nodupF (by simp) ?_
                intro a ha hb
                simp only [List.mem_singleton] at hb
                subst hb
                exact hnf ha
              tiling := h.tiling
              disj := by
                intro w2 hw2
                simp only [List.mem_append, List.mem_singleton] at hw2
                rcases hw2 with hw2 | hw2
                · exact h.disj w2 hw2
                · subst hw2; exact hnt
              fidx := by
                intro i hi
                simp only [List.length_append, List.length_singleton]
                have := h.fidx i hi
                omega
              infos_mem := by
                intro w2 hw2
                by_cases he : w2 = wi.window
                · simp [he]
                · simp only [he, if_neg he]
                  apply h.infos_mem
                  rcases managed_cases hw2 with hc | hc
                  · simp only [List.mem_append, List.mem_singleton] at hc
                    rcases hc with hc | hc
                    · exact is_managed_of_floating hc
                    · exact absurd hc he
                  · exact is_managed_of_tiled hc
              infos_key := by
                intro w2 wi2 hwi
                dsimp only at hwi
                by_cases he : w2 = wi.window
                · rw [if_pos he] at hwi
                  cases hwi
                  exact he.symm
                · rw [if_neg he] at hwi
                  exact h.infos_key w2 wi2 hwi }
    | Tile =>
      rw [add_window_tile_eq hm hfl]
      apply focus_window_WF_f
      have htw := (@TilingWM.add_window_windows_new s.tiling_wm wi
        (by intro hc; exact hm (is_managed_of_tiled (by simpa [TilingWM.is_managed] using hc)))).1
      exact { perm := h.perm
              nodupF := h.nodupF
              tiling := TilingWM.add_window_WF_t h.tiling wi
              disj := by
                intro w2 hw2
                rw [htw]
                simp only [List.mem_append, List.mem_singleton]
                push_neg
                exact ⟨h.disj w2 hw2, fun hc => hnf (hc ▸ hw2)⟩
              fidx := h.fidx
              infos_mem := by
                intro w2 hw2
                by_cases he : w2 = wi.window
                · simp [he]
                · simp only [if_neg he]
                  apply h.infos_mem
                  rcases managed_cases hw2 with hc | hc
                  · exact is_managed_of_floating hc
                  · rw [htw] at hc
                    simp only [List.mem_append, List.mem_singleton] at hc
                    rcases hc with hc | hc
                    · exact is_managed_of_tiled hc
                    · exact absurd hc he
              infos_key := by
                intro w2 wi2 hwi
                dsimp only at hwi
                by_cases he : w2 = wi.window
                · rw [if_pos he] at hwi
                  cases hwi
                  exact he.symm
                · rw [if_neg he] at hwi
                  exact h.infos_key w2 wi2 hwi }

/-! Branch characterizations of remove_window. -/

theorem remove_window_tiled_eq {s : FloatingWM} {w : Window}
    (ht : s.tiling_wm.is_managed w = true) :
    s.remove_window w =
      ({ s with infos := fun w2 => if w2 = w then none else s.infos w2,
                tiling_wm := (s.tiling_wm.remove_window w).1 },
       (s.tiling_wm.remove_window w).2) := by
  rw [remove_window]
  dsimp only
  rw [if_pos ht]

theorem remove_window_unknown_eq {s : FloatingWM} {w : Window}
    (hnt : ¬ s.tiling_wm.is_managed w = true)
    (hnf : w ∉ s.floating_windows) :
    s.remove_window w =
      ({ s with infos := fun w2 => if w2 = w then none else s.infos w2,
                stack_order_floating_windows := s.stack_order_floating_windows.erase w },
       Except.error (WMError.UnknownWindow w)) := by
  rw [remove_window]
  dsimp only
  rw [if_neg hnt]
  cases hq : position s.stack_order_floating_windows w with
  | none =>
    rw [List.erase_of_not_mem (position_eq_none_iff.mp hq)]
    rw [position_eq_none_iff.mpr hnf]
  | some k =>
    rw [← eraseIdx_position hq]
    rw [position_eq_none_iff.mpr hnf]

theorem remove_window_float_eq {s : FloatingWM} {w : Window} {i : Nat}
    (hnt : ¬ s.tiling_wm.is_managed w = true)
    (hp : position s.floating_windows w = some i) :
    s.remove_window w =
      (let s2 : FloatingWM :=
        { s with infos := fun w2 => if w2 = w then none else s.infos w2,
                 stack_order_floating_windows := s.stack_order_floating_windows.erase w,
                 floating_windows := s.floating_windows.eraseIdx i };
       if s2.get_windows.length = 0 then s2.focus_window none
       else
         match s2.focused_index with
         | some j =>
           if i ≤ j then
             let s3 := { s2 with focused_index := s2.cycle_index_helper i PrevOrNext.Prev }
             s3.focus_window s3.get_focused_window
           else (s2, Except.ok ())
         | none => (s2, Except.ok ())) := by
  rw [remove_window]
  dsimp only
  rw [if_neg hnt]
  cases hq : position s.stack_order_floating_windows w with
  | none =>
    rw [List.erase_of_not_mem (position_eq_none_iff.mp hq), hp]
  | some k =>
    rw [← eraseIdx_position hq, hp]

theorem getD_eraseIdx_of_lt (l : List Window) (i j : Nat) (h : j < i) :
    (l.eraseIdx i).getD j 0 = l.getD j 0 := by
  induction l generalizing i j with
  | nil => simp [List.eraseIdx]
  | cons x xs ih =>
    cases i with
    | zero => omega
    | succ i2 =>
      cases j with
      | zero => simp [List.eraseIdx]
      | succ j2 =>
        simp only [List.eraseIdx, List.getD_cons_succ]
        exact ih i2 j2 (by omega)

theorem TilingWM.remove_window_windows_subset (s : TilingWM) (w w2 : Window)
    (h : w2 ∈ (s.remove_window w).1.windows) : w2 ∈ s.windows := by
  cases hp : position s.windows w with
  | none =>
    rw [TilingWM.remove_window_error (position_eq_none_iff.mp hp)] at h
    exact h
  | some i =>
    rw [(TilingWM.remove_window_windows hp).1] at h
    exact List.mem_of_mem_erase h


theorem remove_window_unknown_spec {s : FloatingWM} {w : Window} (h : s.WF)
    (hm : ¬ s.is_managed w = true) :
    (s.remove_window w).1 =
      { s with infos := fun w2 => if w2 = w then none else s.infos w2 } ∧
    (s.remove_window w).2 = Except.error (WMError.UnknownWindow w) := by
  have hnt : ¬ s.tiling_wm.is_managed w = true := by
    intro hc
    exact hm (is_managed_of_tiled (by simpa [TilingWM.is_managed] using hc))
  have hnf : w ∉ s.floating_windows := not_managed_not_floating hm
  have hns : w ∉ s.stack_order_floating_windows := fun hc => hnf (h.perm.mem_iff.mp hc)
  rw [remove_window_unknown_eq hnt hnf]
  rw [List.erase_of_not_mem hns]
  exact ⟨rfl, rfl⟩

theorem remove_window_WF_f {s : FloatingWM} (h : s.WF) (w : Window) :
    (s.remove_window w).1.WF := by
  by_cases ht : s.tiling_wm.is_managed w = true
  · -- tiled branch
    have hwT : w ∈ s.tiling_wm.windows := by simpa [TilingWM.is_managed] using ht
    have hwF : w ∉ s.floating_windows := fun hc => h.disj w hc hwT
    cases hp : position s.tiling_wm.windows w with
    | none => exact absurd hwT (position_eq_none_iff.mp hp)
    | some i =>
      rw [remove_window_tiled_eq ht]
      have hT := (TilingWM.remove_window_windows hp).1
      exact {
        perm := h.perm
        nodupF := h.nodupF
        tiling := TilingWM.remove_window_WF_t h.tiling w
        disj := by
          intro w2 hw2 hc
          exact h.disj w2 hw2 (TilingWM.remove_window_windows_subset _ _ _ hc)
        fidx := h.fidx
        infos_mem := by
          intro w2 hw2
          rcases managed_cases hw2 with hc | hc
          · have hne : w2 ≠ w := fun he => hwF (he ▸ hc)
            dsimp only
            rw [if_neg hne]
            exact h.infos_mem w2 (is_managed_of_floating hc)
          · rw [hT] at hc
            have hne : w2 ≠ w := ((h.tiling.nodup.mem_erase_iff).mp hc).1
            dsimp only
            rw [if_neg hne]
            exact h.infos_mem w2 (is_managed_of_tiled (List.mem_of_mem_erase hc))
        infos_key := by
          intro w2 wi hwi
          dsimp only at hwi
          by_cases he : w2 = w
          · rw [if_pos he] at hwi; cases hwi
          · rw [if_neg he] at hwi
            exact h.infos_key w2 wi hwi }
  · by_cases hfm : w ∈ s.floating_windows
    · -- floating branch
      cases hp : position s.floating_windows w with
      | none => exact absurd hfm (position_eq_none_iff.mp hp)
      | some i =>
        rw [remove_window_float_eq ht hp]
        dsimp only
        rw [eraseIdx_position hp]
        have hi := position_lt hp
        -- the intermediate state after the erasures, minus the focus repair
        have hperm2 : (s.stack_order_floating_windows.erase w).Perm
            (s.floating_windows.erase w) := h.perm.erase w
        have hnodup2 : (s.floating_windows.erase w).Nodup := h.nodupF.erase w
        have hdisj2 : ∀ w2, w2 ∈ s.floating_windows.erase w →
            w2 ∉ s.tiling_wm.windows := fun w2 hw2 =>
          h.disj w2 (List.mem_of_mem_erase hw2)
        have hmem2 : ∀ w2, (s.is_floating w2 || s.tiling_wm.is_managed w2) = true →
            w2 ∈ s.floating_windows.erase w ∨ w2 ∈ s.tiling_wm.windows →
            True := fun _ _ _ => trivial
        have hinfos2 : ∀ w2, w2 ∈ s.floating_windows.erase w ∨ w2 ∈ s.tiling_wm.windows →
            ((fun w2 => if w2 = w then none else s.infos w2) w2).isSome = true := by
          intro w2 hw2
          rcases hw2 with hc | hc
          · have hne := ((h.nodupF.mem_erase_iff).mp hc).1
            dsimp only
            rw [if_neg hne]
            exact h.infos_mem w2 (is_managed_of_floating (List.mem_of_mem_erase hc))
          · have hne : w2 ≠ w := fun he => ht (by
              subst he
              simpa [TilingWM.is_managed] using hc)
            dsimp only
            rw [if_neg hne]
            exact h.infos_mem w2 (is_managed_of_tiled hc)
        have hkey2 : ∀ w2 wi, (if w2 = w then none else s.infos w2) = some wi →
            wi.window = w2 := by
          intro w2 wi hwi
          by_cases he : w2 = w
          · rw [if_pos he] at hwi; cases hwi
          · rw [if_neg he] at hwi
            exact h.infos_key w2 wi hwi
        have hlen : (s.floating_windows.erase w).length = s.floating_windows.length - 1 := by
          rw [← eraseIdx_position hp, List.length_eraseIdx, if_pos hi]
        split
    -- empty: focus_window none keeps the erased collections and drops focus
        · rw [focus_window_none_eq_f]
          exact {
            perm := hperm2
            nodupF := hnodup2
            tiling := ⟨h.tiling.nodup, by intro k hk; simp at hk⟩
            disj := hdisj2
            fidx := by intro k hk; simp at hk
            infos_mem := by
              intro w2 hw2
              exact hinfos2 w2 (managed_cases hw2)
            infos_key := fun w2 wi hwi => hkey2 w2 wi hwi }
        · split
          · -- a floating window was focused
            next j hj =>
            split
            · -- the removal was at or before the focused index
              apply focus_window_WF_f
              refine {
                perm := hperm2
                nodupF := hnodup2
                tiling := h.tiling
                disj := hdisj2
                fidx := ?_
                infos_mem := by
                  intro w2 hw2
                  exact hinfos2 w2 (managed_cases hw2)
                infos_key := fun w2 wi hwi => hkey2 w2 wi hwi }
              intro k hk
              dsimp only at hk
              rw [cycle_index_helper] at hk
              dsimp only at hk
              split at hk
              · cases hk
              · next hwrap =>
                cases hk
                simp only [List.length_append] at hwrap ⊢
                have hne0 : i ≠ 0 := by simpa using hwrap
                rw [hlen] at *
                exact Nat.mod_lt _ (by omega)
            · -- the removal was after the focused index
              have hjlt : j < s.floating_windows.length := by
                have := h.fidx j (by simpa using hj)
                exact this
              next hij =>
              exact {
                perm := hperm2
                nodupF := hnodup2
                tiling := h.tiling
                disj := hdisj2
                fidx := by
                  intro k hk
                  simp only at hk
                  rw [hj] at hk
                  cases hk
                  rw [hlen]
                  omega
                infos_mem := by
                  intro w2 hw2
                  exact hinfos2 w2 (managed_cases hw2)
                infos_key := fun w2 wi hwi => hkey2 w2 wi hwi }
          · -- the tiling focus (or nothing) was focused
            exact {
              perm := hperm2
              nodupF := hnodup2
              tiling := h.tiling
              disj := hdisj2
              fidx := by
                intro k hk
                simp only at hk
                next hnone =>
                rw [hnone] at hk
                cases hk
              infos_mem := by
                intro w2 hw2
                exact hinfos2 w2 (managed_cases hw2)
              infos_key := fun w2 wi hwi => hkey2 w2 wi hwi }
    · -- unknown window
      have hm : ¬ s.is_managed w = true := by
        intro hc
        rcases managed_cases hc with hc2 | hc2
        · exact hfm hc2
        · exact ht (by simpa [TilingWM.is_managed] using hc2)
      rw [(remove_window_unknown_spec h hm).1]
      exact {
        perm := h.perm
        nodupF := h.nodupF
        tiling := h.tiling
        disj := h.disj
        fidx := h.fidx
        infos_mem := by
          intro w2 hw2
          have hne : w2 ≠ w := by
            intro he
            subst he
            exact hm (by
              rw [is_managed_congr rfl rfl w2] at hw2
              exact hw2)
          dsimp only
          rw [if_neg hne]
          exact h.infos_mem w2 hw2
        infos_key := by
          intro w2 wi hwi
          dsimp only at hwi
          by_cases he : w2 = w
          · rw [if_pos he] at hwi; cases hwi
          · rw [if_neg he] at hwi
            exact h.infos_key w2 wi hwi }
theorem remove_window_tiled_spec {s : FloatingWM} {w : Window} {i : Nat}
    (ht : s.tiling_wm.is_managed w = true)
    (hp : position s.tiling_wm.windows w = some i) :
    (s.remove_window w).1.floating_windows = s.floating_windows ∧
    (s.remove_window w).1.stack_order_floating_windows = s.stack_order_floating_windows ∧
    (s.remove_window w).1.tiling_wm.windows = s.tiling_wm.windows.erase w ∧
    (s.remove_window w).1.infos = (fun w2 => if w2 = w then none else s.infos w2) ∧
    (s.remove_window w).1.focused_index = s.focused_index ∧
    (s.remove_window w).2 = Except.ok () := by
  rw [remove_window_tiled_eq ht]
  exact ⟨rfl, rfl, (TilingWM.remove_window_windows hp).1, rfl, rfl,
    (TilingWM.remove_window_windows hp).2⟩

theorem focus_refocus_ok {t : FloatingWM}
    (hfi : ∀ k, t.focused_index = some k → k < t.floating_windows.length)
    (hti : ∀ jt, t.tiling_wm.focused_index = some jt → jt < t.tiling_wm.windows.length) :
    (t.focus_window t.get_focused_window).2 = Except.ok () := by
  cases hf : t.get_focused_window with
  | none => exact focus_window_none_ok t
  | some v =>
    apply focus_window_some_ok
    rw [get_focused_window.eq_def] at hf
    cases hk : t.focused_index with
    | some k =>
      rw [hk] at hf
      dsimp only at hf
      cases hf
      exact is_managed_of_floating (getD_mem_of_lt _ _ _ (hfi k hk))
    | none =>
      rw [hk] at hf
      dsimp only at hf
      rw [TilingWM.get_focused_window] at hf
      cases hjt : t.tiling_wm.focused_index with
      | none => rw [hjt] at hf; cases hf
      | some jt =>
        rw [hjt, Option.map_some'] at hf
        cases hf
        exact is_managed_of_tiled (getD_mem_of_lt _ _ _ (hti jt hjt))

theorem remove_window_float_spec {s : FloatingWM} (h : s.WF) {w : Window} {i : Nat}
    (hnt : ¬ s.tiling_wm.is_managed w = true)
    (hp : position s.floating_windows w = some i) :
    (s.remove_window w).1.floating_windows = s.floating_windows.erase w ∧
    (s.remove_window w).1.tiling_wm.windows = s.tiling_wm.windows ∧
    (s.remove_window w).1.infos = (fun w2 => if w2 = w then none else s.infos w2) ∧
    (s.remove_window w).2 = Except.ok () := by
  rw [remove_window_float_eq hnt hp]
  dsimp only
  rw [eraseIdx_position hp]
  refine ⟨?_, ?_, ?_, ?_⟩
  · split
    · rw [focus_window_floats]
    · split
      · split
        · rw [focus_window_floats]
        · rfl
      · rfl
  · split
    · rw [focus_window_tiling_windows]
    · split
      · split
        · rw [focus_window_tiling_windows]
        · rfl
      · rfl
  · split
    · rw [focus_window_infos]
    · split
      · split
        · rw [focus_window_infos]
        · rfl
      · rfl
  · split
    · exact focus_window_none_ok _
    · split
      · split
        · apply focus_refocus_ok
          · intro k hk
            dsimp only at hk ⊢
            rw [cycle_index_helper] at hk
            dsimp only at hk
            split at hk
            · cases hk
            · next hwrap =>
              cases hk
              apply Nat.mod_lt
              have hi := position_lt hp
              have hlen : (s.floating_windows.erase w).length =
                  s.floating_windows.length - 1 := by
                rw [← eraseIdx_position hp, List.length_eraseIdx, if_pos hi]
              have hne0 : i ≠ 0 := by simpa using hwrap
              rw [hlen]
              omega
          · intro jt hjt
            exact h.tiling.fidx jt hjt
        · rfl
      · rfl

end FloatingWM

theorem position_append_of_not_mem_left {l r : List Window} {w : Window} (h : w ∉ l) :
    position (l ++ r) w = (position r w).map (· + l.length) := by
  induction l with
  | nil => simp
  | cons x xs ih =>
    simp only [List.mem_cons, not_or] at h
    rw [List.cons_append, position, if_neg (fun hc => h.1 hc.symm), ih h.2]
    cases position r w with
    | none => rfl
    | some i => simp only [Option.map_some', List.length_cons]; rw [Nat.add_assoc]

/-- The logical focus ring of the float layer: floating windows in
insertion order followed by the tiled windows. -/
def focusRing (s : FloatingWM) : List Window :=
  s.floating_windows ++ s.tiling_wm.windows

/-- The successor of w on the ring R in direction d (w itself when w is
not on the ring). -/
def ringStep (R : List Window) (d : PrevOrNext) (w : Window) : Window :=
  match position R w with
  | none => w
  | some i =>
    match d with
    | PrevOrNext.Next => R.getD ((i + 1) % R.length) 0
    | PrevOrNext.Prev => R.getD ((i + R.length - 1) % R.length) 0

/-- Stepping backwards undoes stepping forwards on a duplicate-free
ring, and conversely. -/
theorem ringStep_inverse {R : List Window} (hn : R.Nodup) {w : Window} (hw : w ∈ R) :
    ringStep R PrevOrNext.Prev (ringStep R PrevOrNext.Next w) = w ∧
    ringStep R PrevOrNext.Next (ringStep R PrevOrNext.Prev w) = w := by
  cases hp : position R w with
  | none => exact absurd hw (position_eq_none_iff.mp hp)
  | some i =>
    have hi : i < R.length := position_lt hp
    have hn0 : 0 < R.length := by omega
    have hnext : (i + 1) % R.length = if i + 1 = R.length then 0 else i + 1 := by
      by_cases hc : i + 1 = R.length
      · simp [hc]
      · rw [if_neg hc]
        exact Nat.mod_eq_of_lt (by omega)
    have hprev : (i + R.length - 1) % R.length =
        if i = 0 then R.length - 1 else i - 1 := by
      by_cases hc : i = 0
      · subst hc
        rw [Nat.zero_add, if_pos rfl]
        exact Nat.mod_eq_of_lt (by omega)
      · rw [if_neg hc]
        have h2 : i + R.length - 1 = (i - 1) + R.length := by omega
        rw [h2, Nat.add_mod_right]
        exact Nat.mod_eq_of_lt (by omega)
    constructor
    · have hinner : ringStep R PrevOrNext.Next w = R.getD ((i + 1) % R.length) 0 := by
        rw [ringStep, hp]
      rw [hinner, hnext]
      by_cases hc : i + 1 = R.length
      · rw [if_pos hc, ringStep, position_of_getD hn hn0]
        dsimp only
        have h1 : (0 + R.length - 1) % R.length = R.length - 1 := by
          rw [Nat.zero_add]
          exact Nat.mod_eq_of_lt (by omega)
        rw [h1, ← position_getD hp]
        congr 1
        omega
      · rw [if_neg hc, ringStep, position_of_getD hn (by omega)]
        dsimp only
        have h1 : (i + 1 + R.length - 1) % R.length = i := by
          have h2 : i + 1 + R.length - 1 = i + R.length := by omega
          rw [h2, Nat.add_mod_right]
          exact Nat.mod_eq_of_lt hi
        rw [h1]
        exact position_getD hp
    · have hinner : ringStep R PrevOrNext.Prev w =
          R.getD ((i + R.length - 1) % R.length) 0 := by
        rw [ringStep, hp]
      rw [hinner, hprev]
      by_cases hc : i = 0
      · rw [if_pos hc, ringStep, position_of_getD hn (by omega)]
        dsimp only
        have h1 : (R.length - 1 + 1) % R.length = 0 := by
          have h2 : R.length - 1 + 1 = R.length := by omega
          rw [h2, Nat.mod_self]
        rw [h1, ← position_getD hp, hc]
      · rw [if_neg hc, ringStep, position_of_getD hn (by omega)]
        dsimp only
        have h1 : (i - 1 + 1) % R.length = i := by
          have h2 : i - 1 + 1 = i := by omega
          rw [h2]
          exact Nat.mod_eq_of_lt hi
        rw [h1]
        exact position_getD hp

/-! Branch characterizations of the tiling cycle_focus and helper. -/

theorem TilingWM.cycle_focus_none_eq {s : TilingWM} (hn : s.focused_index = none)
    (d : PrevOrNext) :
    s.cycle_focus d =
      { s with focused_index :=
          if s.windows.length = 0 then none
          else match d with
               | PrevOrNext.Next => some 0
               | PrevOrNext.Prev => some (s.windows.length - 1) } := by
  rw [TilingWM.cycle_focus.eq_def, hn]

theorem TilingWM.cycle_focus_some_eq {s : TilingWM} {i : Nat}
    (hf : s.focused_index = some i) (d : PrevOrNext) :
    s.cycle_focus d = { s with focused_index := some (s.cycle_index i d) } := by
  rw [TilingWM.cycle_focus.eq_def, hf]

/-! Characterizations of the focus accessors. -/

theorem TilingWM.get_focused_window_none {s : TilingWM} (h : s.focused_index = none) :
    s.get_focused_window = none := by
  rw [TilingWM.get_focused_window, h]
  rfl

theorem TilingWM.get_focused_window_some {s : TilingWM} {i : Nat}
    (h : s.focused_index = some i) :
    s.get_focused_window = some (s.windows.getD i 0) := by
  rw [TilingWM.get_focused_window, h]
  rfl

namespace FloatingWM

theorem get_focused_window_float {s : FloatingWM} {i : Nat}
    (h : s.focused_index = some i) :
    s.get_focused_window = some (s.floating_windows.getD i 0) := by
  rw [get_focused_window.eq_def, h]

theorem get_focused_window_unfloat {s : FloatingWM} (h : s.focused_index = none) :
    s.get_focused_window = s.tiling_wm.get_focused_window := by
  rw [get_focused_window.eq_def, h]

/-! Branch characterizations of cycle_index_helper. -/

theorem cycle_index_helper_next_wrap {s : FloatingWM} {i : Nat}
    (hw : i = s.floating_windows.length - 1) :
    s.cycle_index_helper i PrevOrNext.Next = none := by
  simp [cycle_index_helper, hw]

theorem cycle_index_helper_prev_wrap (s : FloatingWM) :
    s.cycle_index_helper 0 PrevOrNext.Prev = none := by
  simp [cycle_index_helper]

theorem cycle_index_helper_next_interior {s : FloatingWM} {i : Nat}
    (hi : i + 1 < s.floating_windows.length) :
    s.cycle_index_helper i PrevOrNext.Next = some (i + 1) := by
  have hne : i ≠ s.floating_windows.length - 1 := by omega
  rw [cycle_index_helper]
  rw [if_neg (by simpa using hne), Nat.mod_eq_of_lt hi]

theorem cycle_index_helper_prev_interior {s : FloatingWM} {i : Nat}
    (h0 : i ≠ 0) (hi : i < s.floating_windows.length) :
    s.cycle_index_helper i PrevOrNext.Prev = some (i - 1) := by
  rw [cycle_index_helper]
  rw [if_neg (by simpa using h0)]
  have h2 : i + s.floating_windows.length - 1 = (i - 1) + s.floating_windows.length := by
    omega
  rw [h2, Nat.add_mod_right, Nat.mod_eq_of_lt (by omega)]

end FloatingWM

/-! Branch characterizations of the tiling cycle_focus_helper. -/

theorem TilingWM.cycle_focus_helper_none_eq {s : TilingWM}
    (hn : s.focused_index = none) (d : PrevOrNext) :
    s.cycle_focus_helper d = s.cycle_focus d := by
  rw [TilingWM.cycle_focus_helper]
  simp [hn]

theorem TilingWM.cycle_focus_helper_next_wrap {s : TilingWM} {j : Nat}
    (hf : s.focused_index = some j) (hw : j = s.windows.length - 1) :
    s.cycle_focus_helper PrevOrNext.Next = { s with focused_index := none } := by
  rw [TilingWM.cycle_focus_helper]
  simp [hf, hw]

theorem TilingWM.cycle_focus_helper_prev_wrap {s : TilingWM}
    (hf : s.focused_index = some 0) :
    s.cycle_focus_helper PrevOrNext.Prev = { s with focused_index := none } := by
  rw [TilingWM.cycle_focus_helper]
  simp [hf]

theorem TilingWM.cycle_focus_helper_next_interior {s : TilingWM} {j : Nat}
    (hf : s.focused_index = some j) (hw : j ≠ s.windows.length - 1) :
    s.cycle_focus_helper PrevOrNext.Next = s.cycle_focus PrevOrNext.Next := by
  rw [TilingWM.cycle_focus_helper]
  simp [hf, hw]

theorem TilingWM.cycle_focus_helper_prev_interior {s : TilingWM} {j : Nat}
    (hf : s.focused_index = some j) (h0 : j ≠ 0) :
    s.cycle_focus_helper PrevOrNext.Prev = s.cycle_focus PrevOrNext.Prev := by
  rw [TilingWM.cycle_focus_helper]
  simp [hf, h0]

theorem TilingWM.cycle_focus_helper_screen (s : TilingWM) (d : PrevOrNext) :
    (s.cycle_focus_helper d).screen = s.screen := by
  rw [TilingWM.cycle_focus_helper]
  split
  · rfl
  · rfl

namespace FloatingWM

/-- The trailing self-refocus performed at the end of every cycle_focus
unfolding. -/
def refocus (t : FloatingWM) : FloatingWM :=
  (t.focus_window t.get_focused_window).1

/-- The trailing refocus keeps the collections, the descriptors, the
screen, well-formedness and the focused window, and restores the
focus-exclusion condition. -/
theorem refocus_step {t : FloatingWM} (h : t.WF) {w : Window}
    (hm : t.is_managed w = true) (hg : t.get_focused_window = some w) :
    (refocus t).floating_windows = t.floating_windows ∧
    (refocus t).tiling_wm.windows = t.tiling_wm.windows ∧
    (refocus t).infos = t.infos ∧
    (refocus t).tiling_wm.screen = t.tiling_wm.screen ∧
    (refocus t).WF ∧ (refocus t).focusExcl ∧
    (refocus t).get_focused_window = some w := by
  rw [refocus, hg]
  exact ⟨focus_window_floats t (some w), focus_window_tiling_windows t (some w),
    focus_window_infos t (some w), focus_window_screen t (some w),
    focus_window_WF_f h (some w), focus_window_excl_some hm, focus_window_get_focused hm⟩

/-! Branch characterizations of one cycle_focus unfolding. -/

theorem cycle_fuel_unfocused_next_eq {s : FloatingWM}
    (hg : s.get_focused_window = none)
    (hl : s.floating_windows.length ≥ 1) (fuel : Nat) :
    cycle_focus_fuel (fuel + 1) s PrevOrNext.Next =
      refocus { s with focused_index := some 0 } := by
  rw [cycle_focus_fuel.eq_def]
  dsimp only
  rw [if_pos hg, if_pos hl]
  rfl

theorem cycle_fuel_unfocused_prev_eq {s : FloatingWM}
    (hg : s.get_focused_window = none)
    (hl : s.floating_windows.length ≥ 1) (fuel : Nat) :
    cycle_focus_fuel (fuel + 1) s PrevOrNext.Prev =
      refocus { s with focused_index := some (s.floating_windows.length - 1) } := by
  rw [cycle_focus_fuel.eq_def]
  dsimp only
  rw [if_pos hg, if_pos hl]
  rfl

theorem cycle_fuel_unfocused_notile_eq {s : FloatingWM}
    (hg : s.get_focused_window = none) (hl : ¬ s.floating_windows.length ≥ 1)
    (fuel : Nat) (d : PrevOrNext) :
    cycle_focus_fuel (fuel + 1) s d =
      refocus { s with tiling_wm := s.tiling_wm.cycle_focus d } := by
  rw [cycle_focus_fuel.eq_def]
  dsimp only
  rw [if_pos hg, if_neg hl]
  rfl

theorem cycle_fuel_float_interior_eq {s : FloatingWM} {i m : Nat}
    (hg : ¬ s.get_focused_window = none) (hidx : s.focused_index = some i)
    {d : PrevOrNext} (hch : s.cycle_index_helper i d = some m) (fuel : Nat) :
    cycle_focus_fuel (fuel + 1) s d =
      refocus { s with focused_index := some m } := by
  rw [cycle_focus_fuel.eq_def]
  dsimp only
  rw [if_neg hg, hidx]
  dsimp only
  rw [hch]
  rfl

theorem cycle_fuel_float_wrap_stay_eq {s : FloatingWM} {i : Nat}
    (hg : ¬ s.get_focused_window = none) (hidx : s.focused_index = some i)
    {d : PrevOrNext} (hch : s.cycle_index_helper i d = none)
    (hb : ¬ (s.tiling_wm.cycle_focus d).get_focused_window = none) (fuel : Nat) :
    cycle_focus_fuel (fuel + 1) s d =
      refocus { s with focused_index := none,
                       tiling_wm := s.tiling_wm.cycle_focus d } := by
  rw [cycle_focus_fuel.eq_def]
  dsimp only
  rw [if_neg hg, hidx]
  dsimp only
  rw [hch]
  dsimp only
  rw [if_neg hb]
  rfl

theorem cycle_fuel_float_wrap_rec_eq {s : FloatingWM} {i : Nat}
    (hg : ¬ s.get_focused_window = none) (hidx : s.focused_index = some i)
    {d : PrevOrNext} (hch : s.cycle_index_helper i d = none)
    (hb : (s.tiling_wm.cycle_focus d).get_focused_window = none) (fuel : Nat) :
    cycle_focus_fuel (fuel + 1) s d =
      refocus (cycle_focus_fuel fuel
        { s with focused_index := none,
                 tiling_wm := s.tiling_wm.cycle_focus d } d) := by
  rw [cycle_focus_fuel.eq_def]
  dsimp only
  rw [if_neg hg, hidx]
  dsimp only
  rw [hch]
  dsimp only
  rw [if_pos hb]
  rfl

theorem cycle_fuel_tiled_stay_eq {s : FloatingWM}
    (hg : ¬ s.get_focused_window = none) (hidx : s.focused_index = none)
    {d : PrevOrNext}
    (hb : ¬ (s.tiling_wm.cycle_focus_helper d).get_focused_window = none)
    (fuel : Nat) :
    cycle_focus_fuel (fuel + 1) s d =
      refocus { s with tiling_wm := s.tiling_wm.cycle_focus_helper d } := by
  rw [cycle_focus_fuel.eq_def]
  dsimp only
  rw [if_neg hg, hidx]
  dsimp only
  rw [if_neg hb]
  rfl

theorem cycle_fuel_tiled_rec_eq {s : FloatingWM}
    (hg : ¬ s.get_focused_window = none) (hidx : s.focused_index = none)
    {d : PrevOrNext}
    (hb : (s.tiling_wm.cycle_focus_helper d).get_focused_window = none)
    (fuel : Nat) :
    cycle_focus_fuel (fuel + 1) s d =
      refocus (cycle_focus_fuel fuel
        { s with tiling_wm := s.tiling_wm.cycle_focus_helper d } d) := by
  rw [cycle_focus_fuel.eq_def]
  dsimp only
  rw [if_neg hg, hidx]
  dsimp only
  rw [if_pos hb]
  rfl

end FloatingWM

namespace FloatingWM

theorem focusRing_length (s : FloatingWM) :
    (focusRing s).length = s.floating_windows.length + s.tiling_wm.windows.length := by
  rw [focusRing, List.length_append]

/-- Closing step for the single-refocus branches of cycle_focus. -/
theorem cycle_conclude {s t : FloatingWM} {d : PrevOrNext} {w w' : Window}
    (heq : s.cycle_focus d = refocus t) (ht : t.WF)
    (hF : t.floating_windows = s.floating_windows)
    (hT : t.tiling_wm.windows = s.tiling_wm.windows)
    (hI : t.infos = s.infos) (hS : t.tiling_wm.screen = s.tiling_wm.screen)
    (hm : t.is_managed w' = true) (hg : t.get_focused_window = some w')
    (hr : ringStep (focusRing s) d w = w') :
    (s.cycle_focus d).floating_windows = s.floating_windows ∧
    (s.cycle_focus d).tiling_wm.windows = s.tiling_wm.windows ∧
    (s.cycle_focus d).infos = s.infos ∧
    (s.cycle_focus d).tiling_wm.screen = s.tiling_wm.screen ∧
    (s.cycle_focus d).WF ∧ (s.cycle_focus d).focusExcl ∧
    (s.cycle_focus d).get_focused_window = some (ringStep (focusRing s) d w) := by
  obtain ⟨f1, t1, i1, s1, wf1, x1, g1⟩ := refocus_step ht hm hg
  rw [heq, hr]
  exact ⟨f1.trans hF, t1.trans hT, i1.trans hI, s1.trans hS, wf1, x1, g1⟩

/-- Closing step for the recursive (double-refocus) branches of
cycle_focus. -/
theorem cycle_conclude2 {s t : FloatingWM} {d : PrevOrNext} {w w' : Window}
    (heq : s.cycle_focus d = refocus (refocus t)) (ht : t.WF)
    (hF : t.floating_windows = s.floating_windows)
    (hT : t.tiling_wm.windows = s.tiling_wm.windows)
    (hI : t.infos = s.infos) (hS : t.tiling_wm.screen = s.tiling_wm.screen)
    (hm : t.is_managed w' = true) (hg : t.get_focused_window = some w')
    (hr : ringStep (focusRing s) d w = w') :
    (s.cycle_focus d).floating_windows = s.floating_windows ∧
    (s.cycle_focus d).tiling_wm.windows = s.tiling_wm.windows ∧
    (s.cycle_focus d).infos = s.infos ∧
    (s.cycle_focus d).tiling_wm.screen = s.tiling_wm.screen ∧
    (s.cycle_focus d).WF ∧ (s.cycle_focus d).focusExcl ∧
    (s.cycle_focus d).get_focused_window = some (ringStep (focusRing s) d w) := by
  obtain ⟨f1, t1, i1, s1, wf1, x1, g1⟩ := refocus_step ht hm hg
  have hm1 : (refocus t).is_managed w' = true := by
    rw [is_managed_congr f1 t1]
    exact hm
  obtain ⟨f2, t2, i2, s2, wf2, x2, g2⟩ := refocus_step wf1 hm1 g1
  rw [heq, hr]
  exact ⟨f2.trans (f1.trans hF), t2.trans (t1.trans hT), i2.trans (i1.trans hI),
    s2.trans (s1.trans hS), wf2, x2, g2⟩

end FloatingWM

namespace FloatingWM

/-- cycle_focus from a state with a focused floating window: the
collections are unchanged and the focus moves one step along the ring
of floating then tiled windows. -/
theorem cycle_focus_step_float {s : FloatingWM} (h : s.WF) (hx : s.focusExcl)
    {i : Nat} (hidx : s.focused_index = some i) {w : Window}
    (hf : s.get_focused_window = some w) (d : PrevOrNext) :
    (s.cycle_focus d).floating_windows = s.floating_windows ∧
    (s.cycle_focus d).tiling_wm.windows = s.tiling_wm.windows ∧
    (s.cycle_focus d).infos = s.infos ∧
    (s.cycle_focus d).tiling_wm.screen = s.tiling_wm.screen ∧
    (s.cycle_focus d).WF ∧ (s.cycle_focus d).focusExcl ∧
    (s.cycle_focus d).get_focused_window = some (ringStep (focusRing s) d w) := by
  have hi : i < s.floating_windows.length := h.fidx i hidx
  have hg : ¬ s.get_focused_window = none := by rw [hf]; simp
  have hw : s.floating_windows.getD i 0 = w := by
    have h1 := get_focused_window_float hidx
    rw [hf] at h1
    exact (Option.some.inj h1).symm
  have htn : s.tiling_wm.focused_index = none := hx (by rw [hidx]; rfl)
  have hpF : position s.floating_windows w = some i := by
    rw [← hw]
    exact position_of_getD h.nodupF hi
  have hpR : position (focusRing s) w = some i := by
    rw [focusRing]
    exact position_append_left hpF
  have hRlen : (focusRing s).length
      = s.floating_windows.length + s.tiling_wm.windows.length := focusRing_length s
  have hcf2 : ∀ d2, s.cycle_focus d2 = cycle_focus_fuel (1 + 1) s d2 := fun _ => rfl
  cases d with
  | Next =>
    by_cases hlast : i + 1 < s.floating_windows.length
    · -- interior step to the next floating window
      have hch := cycle_index_helper_next_interior hlast
      have heq : s.cycle_focus PrevOrNext.Next =
          refocus { s with focused_index := some (i + 1) } := by
        rw [hcf2]
        exact cycle_fuel_float_interior_eq hg hidx hch 1
      have htWF : ({ s with focused_index := some (i + 1) } : FloatingWM).WF :=
        { perm := h.perm, nodupF := h.nodupF, tiling := h.tiling, disj := h.disj,
          fidx := by
            intro k hk
            have hk2 : i + 1 = k := Option.some.inj hk
            show k < s.floating_windows.length
            omega
          infos_mem := h.infos_mem, infos_key := h.infos_key }
      have hm : ({ s with focused_index := some (i + 1) } : FloatingWM).is_managed
          (s.floating_windows.getD (i + 1) 0) = true :=
        is_managed_of_floating (getD_mem_of_lt _ _ _ hlast)
      have hg2 : ({ s with focused_index := some (i + 1) } : FloatingWM).get_focused_window
          = some (s.floating_windows.getD (i + 1) 0) := get_focused_window_float rfl
      have hr : ringStep (focusRing s) PrevOrNext.Next w
          = s.floating_windows.getD (i + 1) 0 := by
        rw [ringStep, hpR]
        dsimp only
        have hmod : (i + 1) % (focusRing s).length = i + 1 := by
          rw [hRlen]
          exact Nat.mod_eq_of_lt (by omega)
        rw [hmod, focusRing, List.getD_append _ _ _ _ hlast]
      exact cycle_conclude heq htWF rfl rfl rfl rfl hm hg2 hr
    · -- wrap off the end of the floating list
      have hilast : i = s.floating_windows.length - 1 := by omega
      have hch := cycle_index_helper_next_wrap hilast
      by_cases hT0 : s.tiling_wm.windows.length = 0
      · -- no tiled windows: recurse and land on the first float
        have htf : (s.tiling_wm.cycle_focus PrevOrNext.Next).focused_index = none := by
          rw [TilingWM.cycle_focus_none_eq htn]
          dsimp only
          rw [if_pos hT0]
        have hb : (s.tiling_wm.cycle_focus PrevOrNext.Next).get_focused_window = none :=
          TilingWM.get_focused_window_none htf
        have heq1 : s.cycle_focus PrevOrNext.Next =
            refocus (cycle_focus_fuel 1
              { s with focused_index := none,
                       tiling_wm := s.tiling_wm.cycle_focus PrevOrNext.Next }
              PrevOrNext.Next) := by
          rw [hcf2]
          exact cycle_fuel_float_wrap_rec_eq hg hidx hch hb 1
        have hgsb : ({ s with focused_index := none,
                              tiling_wm := s.tiling_wm.cycle_focus PrevOrNext.Next } : FloatingWM).get_focused_window
            = none := by
          rw [get_focused_window_unfloat rfl]
          exact hb
        have hlF : ({ s with focused_index := none,
                              tiling_wm := s.tiling_wm.cycle_focus PrevOrNext.Next } : FloatingWM).floating_windows.length ≥ 1 := by
          dsimp only
          omega
        have heq : s.cycle_focus PrevOrNext.Next = refocus (refocus
            { s with focused_index := some 0,
                     tiling_wm := s.tiling_wm.cycle_focus PrevOrNext.Next }) := by
          rw [heq1]
          exact congrArg refocus (cycle_fuel_unfocused_next_eq hgsb hlF 0)
        have htWF : ({ s with focused_index := some 0,
                              tiling_wm := s.tiling_wm.cycle_focus PrevOrNext.Next } : FloatingWM).WF :=
          { perm := h.perm, nodupF := h.nodupF,
            tiling := TilingWM.cycle_focus_WF_t h.tiling PrevOrNext.Next,
            disj := by
              intro w2 hw2 hc
              rw [TilingWM.cycle_focus_windows] at hc
              exact h.disj w2 hw2 hc
            fidx := by
              intro k hk
              have hk2 : 0 = k := Option.some.inj hk
              show k < s.floating_windows.length
              omega
            infos_mem := by
              intro w2 hw2
              apply h.infos_mem
              rcases managed_cases hw2 with hc | hc
              · exact is_managed_of_floating hc
              · dsimp only at hc
                rw [TilingWM.cycle_focus_windows] at hc
                exact is_managed_of_tiled hc
            infos_key := h.infos_key }
        have hm : ({ s with focused_index := some 0,
                              tiling_wm := s.tiling_wm.cycle_focus PrevOrNext.Next } : FloatingWM).is_managed
            (s.floating_windows.getD 0 0) = true :=
          is_managed_of_floating (getD_mem_of_lt s.floating_windows _ _ (by omega))
        have hg2 : ({ s with focused_index := some 0,
                              tiling_wm := s.tiling_wm.cycle_focus PrevOrNext.Next } : FloatingWM).get_focused_window
            = some (s.floating_windows.getD 0 0) := get_focused_window_float rfl
        have hr : ringStep (focusRing s) PrevOrNext.Next w
            = s.floating_windows.getD 0 0 := by
          rw [ringStep, hpR]
          dsimp only
          have hmod : (i + 1) % (focusRing s).length = 0 := by
            rw [hRlen]
            have h1 : i + 1 = s.floating_windows.length + s.tiling_wm.windows.length := by
              omega
            rw [h1, Nat.mod_self]
          rw [hmod, focusRing, List.getD_append _ _ _ _ (by omega)]
        exact cycle_conclude2 heq htWF rfl rfl rfl rfl hm hg2 hr
      · -- tiled windows exist: wrap onto the first tiled window
        have hT1 : 0 < s.tiling_wm.windows.length := Nat.pos_of_ne_zero hT0
        have htf : (s.tiling_wm.cycle_focus PrevOrNext.Next).focused_index = some 0 := by
          rw [TilingWM.cycle_focus_none_eq htn]
          dsimp only
          rw [if_neg hT0]
        have hb : ¬ (s.tiling_wm.cycle_focus PrevOrNext.Next).get_focused_window = none := by
          rw [TilingWM.get_focused_window_some htf]
          simp
        have heq : s.cycle_focus PrevOrNext.Next = refocus
            { s with focused_index := none,
                     tiling_wm := s.tiling_wm.cycle_focus PrevOrNext.Next } := by
          rw [hcf2]
          exact cycle_fuel_float_wrap_stay_eq hg hidx hch hb 1
        have htWF : ({ s with focused_index := none,
                              tiling_wm := s.tiling_wm.cycle_focus PrevOrNext.Next } : FloatingWM).WF :=
          { perm := h.perm, nodupF := h.nodupF,
            tiling := TilingWM.cycle_focus_WF_t h.tiling PrevOrNext.Next,
            disj := by
              intro w2 hw2 hc
              rw [TilingWM.cycle_focus_windows] at hc
              exact h.disj w2 hw2 hc
            fidx := by
              intro k hk
              exact Option.noConfusion hk
            infos_mem := by
              intro w2 hw2
              apply h.infos_mem
              rcases managed_cases hw2 with hc | hc
              · exact is_managed_of_floating hc
              · dsimp only at hc
                rw [TilingWM.cycle_focus_windows] at hc
                exact is_managed_of_tiled hc
            infos_key := h.infos_key }
        have hmem : s.tiling_wm.windows.getD 0 0
            ∈ (s.tiling_wm.cycle_focus PrevOrNext.Next).windows := by
          rw [TilingWM.cycle_focus_windows]
          exact getD_mem_of_lt _ _ _ hT1
        have hm : ({ s with focused_index := none,
                              tiling_wm := s.tiling_wm.cycle_focus PrevOrNext.Next } : FloatingWM).is_managed
            (s.tiling_wm.windows.getD 0 0) = true :=
          is_managed_of_tiled hmem
        have hg2 : ({ s with focused_index := none,
                              tiling_wm := s.tiling_wm.cycle_focus PrevOrNext.Next } : FloatingWM).get_focused_window
            = some (s.tiling_wm.windows.getD 0 0) := by
          rw [get_focused_window_unfloat rfl]
          rw [TilingWM.get_focused_window_some htf, TilingWM.cycle_focus_windows]
        have hr : ringStep (focusRing s) PrevOrNext.Next w
            = s.tiling_wm.windows.getD 0 0 := by
          rw [ringStep, hpR]
          dsimp only
          have hmod : (i + 1) % (focusRing s).length = s.floating_windows.length := by
            rw [hRlen]
            have h1 : i + 1 = s.floating_windows.length := by omega
            rw [h1]
            exact Nat.mod_eq_of_lt (by omega)
          rw [hmod, focusRing,
            List.getD_append_right _ _ _ _ (Nat.le_refl _), Nat.sub_self]
        exact cycle_conclude heq htWF rfl rfl rfl rfl hm hg2 hr
  | Prev =>
    by_cases h0 : i = 0
    · -- wrap off the front of the floating list
      subst h0
      have hch := cycle_index_helper_prev_wrap s
      by_cases hT0 : s.tiling_wm.windows.length = 0
      · -- no tiled windows: recurse and land on the last float
        have htf : (s.tiling_wm.cycle_focus PrevOrNext.Prev).focused_index = none := by
          rw [TilingWM.cycle_focus_none_eq htn]
          dsimp only
          rw [if_pos hT0]
        have hb : (s.tiling_wm.cycle_focus PrevOrNext.Prev).get_focused_window = none :=
          TilingWM.get_focused_window_none htf
        have heq1 : s.cycle_focus PrevOrNext.Prev =
            refocus (cycle_focus_fuel 1
              { s with focused_index := none,
                       tiling_wm := s.tiling_wm.cycle_focus PrevOrNext.Prev }
              PrevOrNext.Prev) := by
          rw [hcf2]
          exact cycle_fuel_float_wrap_rec_eq hg hidx hch hb 1
        have hgsb : ({ s with focused_index := none,
                              tiling_wm := s.tiling_wm.cycle_focus PrevOrNext.Prev } : FloatingWM).get_focused_window
            = none := by
          rw [get_focused_window_unfloat rfl]
          exact hb
        have hlF : ({ s with focused_index := none,
                              tiling_wm := s.tiling_wm.cycle_focus PrevOrNext.Prev } : FloatingWM).floating_windows.length ≥ 1 := by
          dsimp only
          omega
        have heq : s.cycle_focus PrevOrNext.Prev = refocus (refocus
            { s with focused_index := some (s.floating_windows.length - 1),
                     tiling_wm := s.tiling_wm.cycle_focus PrevOrNext.Prev }) := by
          rw [heq1]
          exact congrArg refocus (cycle_fuel_unfocused_prev_eq hgsb hlF 0)
        have htWF : ({ s with focused_index := some (s.floating_windows.length - 1),
                              tiling_wm := s.tiling_wm.cycle_focus PrevOrNext.Prev } : FloatingWM).WF :=
          { perm := h.perm, nodupF := h.nodupF,
            tiling := TilingWM.cycle_focus_WF_t h.tiling PrevOrNext.Prev,
            disj := by
              intro w2 hw2 hc
              rw [TilingWM.cycle_focus_windows] at hc
              exact h.disj w2 hw2 hc
            fidx := by
              intro k hk
              have hk2 : s.floating_windows.length - 1 = k := Option.some.inj hk
              show k < s.floating_windows.length
              omega
            infos_mem := by
              intro w2 hw2
              apply h.infos_mem
              rcases managed_cases hw2 with hc | hc
              · exact is_managed_of_floating hc
              · dsimp only at hc
                rw [TilingWM.cycle_focus_windows] at hc
                exact is_managed_of_tiled hc
            infos_key := h.infos_key }
        have hm : ({ s with focused_index := some (s.floating_windows.length - 1),
                              tiling_wm := s.tiling_wm.cycle_focus PrevOrNext.Prev } : FloatingWM).is_managed
            (s.floating_windows.getD (s.floating_windows.length - 1) 0) = true :=
          is_managed_of_floating (getD_mem_of_lt s.floating_windows _ _ (by omega))
        have hg2 : ({ s with focused_index := some (s.floating_windows.length - 1),
                              tiling_wm := s.tiling_wm.cycle_focus PrevOrNext.Prev } : FloatingWM).get_focused_window
            = some (s.floating_windows.getD (s.floating_windows.length - 1) 0) :=
          get_focused_window_float rfl
        have hr : ringStep (focusRing s) PrevOrNext.Prev w
            = s.floating_windows.getD (s.floating_windows.length - 1) 0 := by
          rw [ringStep, hpR]
          dsimp only
          have hmod : (0 + (focusRing s).length - 1) % (focusRing s).length
              = s.floating_windows.length - 1 := by
            rw [hRlen, Nat.zero_add]
            have h1 : s.floating_windows.length + s.tiling_wm.windows.length - 1
                = s.floating_windows.length - 1 := by omega
            rw [h1]
            exact Nat.mod_eq_of_lt (by omega)
          rw [hmod, focusRing, List.getD_append _ _ _ _ (by omega)]
        exact cycle_conclude2 heq htWF rfl rfl rfl rfl hm hg2 hr
      · -- tiled windows exist: wrap onto the last tiled window
        have hT1 : 0 < s.tiling_wm.windows.length := Nat.pos_of_ne_zero hT0
        have htf : (s.tiling_wm.cycle_focus PrevOrNext.Prev).focused_index
            = some (s.tiling_wm.windows.length - 1) := by
          rw [TilingWM.cycle_focus_none_eq htn]
          dsimp only
          rw [if_neg hT0]
        have hb : ¬ (s.tiling_wm.cycle_focus PrevOrNext.Prev).get_focused_window = none := by
          rw [TilingWM.get_focused_window_some htf]
          simp
        have heq : s.cycle_focus PrevOrNext.Prev = refocus
            { s with focused_index := none,
                     tiling_wm := s.tiling_wm.cycle_focus PrevOrNext.Prev } := by
          rw [hcf2]
          exact cycle_fuel_float_wrap_stay_eq hg hidx hch hb 1
        have htWF : ({ s with focused_index := none,
                              tiling_wm := s.tiling_wm.cycle_focus PrevOrNext.Prev } : FloatingWM).WF :=
          { perm := h.perm, nodupF := h.nodupF,
            tiling := TilingWM.cycle_focus_WF_t h.tiling PrevOrNext.Prev,
            disj := by
              intro w2 hw2 hc
              rw [TilingWM.cycle_focus_windows] at hc
              exact h.disj w2 hw2 hc
            fidx := by
              intro k hk
              exact Option.noConfusion hk
            infos_mem := by
              intro w2 hw2
              apply h.infos_mem
              rcases managed_cases hw2 with hc | hc
              · exact is_managed_of_floating hc
              · dsimp only at hc
                rw [TilingWM.cycle_focus_windows] at hc
                exact is_managed_of_tiled hc
            infos_key := h.infos_key }
        have hmem : s.tiling_wm.windows.getD (s.tiling_wm.windows.length - 1) 0
            ∈ (s.tiling_wm.cycle_focus PrevOrNext.Prev).windows := by
          rw [TilingWM.cycle_focus_windows]
          exact getD_mem_of_lt _ _ _ (by omega)
        have hm : ({ s with focused_index := none,
                              tiling_wm := s.tiling_wm.cycle_focus PrevOrNext.Prev } : FloatingWM).is_managed
            (s.tiling_wm.windows.getD (s.tiling_wm.windows.length - 1) 0) = true :=
          is_managed_of_tiled hmem
        have hg2 : ({ s with focused_index := none,
                              tiling_wm := s.tiling_wm.cycle_focus PrevOrNext.Prev } : FloatingWM).get_focused_window
            = some (s.tiling_wm.windows.getD (s.tiling_wm.windows.length - 1) 0) := by
          rw [get_focused_window_unfloat rfl]
          rw [TilingWM.get_focused_window_some htf, TilingWM.cycle_focus_windows]
        have hr : ringStep (focusRing s) PrevOrNext.Prev w
            = s.tiling_wm.windows.getD (s.tiling_wm.windows.length - 1) 0 := by
          rw [ringStep, hpR]
          dsimp only
          have hmod : (0 + (focusRing s).length - 1) % (focusRing s).length
              = s.floating_windows.length + (s.tiling_wm.windows.length - 1) := by
            rw [hRlen, Nat.zero_add]
            have h1 : s.floating_windows.length + s.tiling_wm.windows.length - 1
                = s.floating_windows.length + (s.tiling_wm.windows.length - 1) := by omega
            rw [h1]
            exact Nat.mod_eq_of_lt (by omega)
          rw [hmod, focusRing,
            List.getD_append_right _ _ _ _ (Nat.le_add_right _ _),
            Nat.add_sub_cancel_left]
        exact cycle_conclude heq htWF rfl rfl rfl rfl hm hg2 hr
    · -- interior step to the previous floating window
      have hch := cycle_index_helper_prev_interior h0 hi
      have heq : s.cycle_focus PrevOrNext.Prev =
          refocus { s with focused_index := some (i - 1) } := by
        rw [hcf2]
        exact cycle_fuel_float_interior_eq hg hidx hch 1
      have htWF : ({ s with focused_index := some (i - 1) } : FloatingWM).WF :=
        { perm := h.perm, nodupF := h.nodupF, tiling := h.tiling, disj := h.disj,
          fidx := by
            intro k hk
            have hk2 : i - 1 = k := Option.some.inj hk
            show k < s.floating_windows.length
            omega
          infos_mem := h.infos_mem, infos_key := h.infos_key }
      have hm : ({ s with focused_index := some (i - 1) } : FloatingWM).is_managed
          (s.floating_windows.getD (i - 1) 0) = true :=
        is_managed_of_floating (getD_mem_of_lt s.floating_windows _ _ (by omega))
      have hg2 : ({ s with focused_index := some (i - 1) } : FloatingWM).get_focused_window
          = some (s.floating_windows.getD (i - 1) 0) := get_focused_window_float rfl
      have hr : ringStep (focusRing s) PrevOrNext.Prev w
          = s.floating_windows.getD (i - 1) 0 := by
        rw [ringStep, hpR]
        dsimp only
        have hmod : (i + (focusRing s).length - 1) % (focusRing s).length = i - 1 := by
          have h1 : i + (focusRing s).length - 1 = (i - 1) + (focusRing s).length := by
            rw [hRlen]
            omega
          rw [h1, Nat.add_mod_right]
          exact Nat.mod_eq_of_lt (by rw [hRlen]; omega)
        rw [hmod, focusRing, List.getD_append _ _ _ _ (by omega)]
      exact cycle_conclude heq htWF rfl rfl rfl rfl hm hg2 hr

end FloatingWM

namespace FloatingWM

/-- cycle_focus from a state whose focus sits in the tiling core: the
collections are unchanged and the focus moves one step along the ring
of floating then tiled windows. -/
theorem cycle_focus_step_tiled {s : FloatingWM} (h : s.WF)
    (hidx : s.focused_index = none) {w : Window}
    (hf : s.get_focused_window = some w) (d : PrevOrNext) :
    (s.cycle_focus d).floating_windows = s.floating_windows ∧
    (s.cycle_focus d).tiling_wm.windows = s.tiling_wm.windows ∧
    (s.cycle_focus d).infos = s.infos ∧
    (s.cycle_focus d).tiling_wm.screen = s.tiling_wm.screen ∧
    (s.cycle_focus d).WF ∧ (s.cycle_focus d).focusExcl ∧
    (s.cycle_focus d).get_focused_window = some (ringStep (focusRing s) d w) := by
  have hgt : s.tiling_wm.get_focused_window = some w := by
    rw [← get_focused_window_unfloat hidx]
    exact hf
  have hg : ¬ s.get_focused_window = none := by rw [hf]; simp
  have hRlen := focusRing_length s
  have hcf2 : ∀ d2, s.cycle_focus d2 = cycle_focus_fuel (1 + 1) s d2 := fun _ => rfl
  rcases hjt : s.tiling_wm.focused_index with _ | j
  · rw [TilingWM.get_focused_window_none hjt] at hgt
    exact Option.noConfusion hgt
  · have hj : j < s.tiling_wm.windows.length := h.tiling.fidx j hjt
    have hT1 : 0 < s.tiling_wm.windows.length := by omega
    have hw : s.tiling_wm.windows.getD j 0 = w := by
      rw [TilingWM.get_focused_window_some hjt] at hgt
      exact Option.some.inj hgt
    have hwT : w ∈ s.tiling_wm.windows := by
      rw [← hw]
      exact getD_mem_of_lt _ _ _ hj
    have hwnF : w ∉ s.floating_windows := fun hc => h.disj w hc hwT
    have hpT : position s.tiling_wm.windows w = some j := by
      rw [← hw]
      exact position_of_getD h.tiling.nodup hj
    have hpR : position (focusRing s) w = some (j + s.floating_windows.length) := by
      rw [focusRing, position_append_of_not_mem_left hwnF, hpT, Option.map_some']
    cases d with
    | Next =>
      by_cases hlast : j = s.tiling_wm.windows.length - 1
      · -- wrap off the end of the tiled ring
        have hch := TilingWM.cycle_focus_helper_next_wrap hjt hlast
        have htf : (s.tiling_wm.cycle_focus_helper PrevOrNext.Next).focused_index = none := by
          rw [hch]
        have hb : (s.tiling_wm.cycle_focus_helper PrevOrNext.Next).get_focused_window = none :=
          TilingWM.get_focused_window_none htf
        have heq1 : s.cycle_focus PrevOrNext.Next =
            refocus (cycle_focus_fuel 1
              { s with tiling_wm := s.tiling_wm.cycle_focus_helper PrevOrNext.Next }
              PrevOrNext.Next) := by
          rw [hcf2]
          exact cycle_fuel_tiled_rec_eq hg hidx hb 1
        have hgsa : ({ s with
            tiling_wm := s.tiling_wm.cycle_focus_helper PrevOrNext.Next } : FloatingWM).get_focused_window
            = none := by
          rw [get_focused_window.eq_def]
          dsimp only
          rw [hidx]
          dsimp only
          exact hb
        by_cases hF1 : s.floating_windows.length ≥ 1
        · -- floats exist: land on the first float
          have hlF : ({ s with
                                tiling_wm := s.tiling_wm.cycle_focus_helper PrevOrNext.Next } : FloatingWM).floating_windows.length ≥ 1 := hF1
          have heq : s.cycle_focus PrevOrNext.Next = refocus (refocus
              { s with focused_index := some 0,
                       tiling_wm := s.tiling_wm.cycle_focus_helper PrevOrNext.Next }) := by
            rw [heq1]
            exact congrArg refocus (cycle_fuel_unfocused_next_eq hgsa hlF 0)
          have htWF : ({ s with focused_index := some 0,
                                tiling_wm := s.tiling_wm.cycle_focus_helper PrevOrNext.Next } : FloatingWM).WF :=
            { perm := h.perm, nodupF := h.nodupF,
              tiling := TilingWM.cycle_focus_helper_WF h.tiling PrevOrNext.Next,
              disj := by
                intro w2 hw2 hc
                dsimp only at hc
                rw [TilingWM.cycle_focus_helper_windows] at hc
                exact h.disj w2 hw2 hc
              fidx := by
                intro k hk
                have hk2 : 0 = k := Option.some.inj hk
                show k < s.floating_windows.length
                omega
              infos_mem := by
                intro w2 hw2
                apply h.infos_mem
                rcases managed_cases hw2 with hc | hc
                · exact is_managed_of_floating hc
                · dsimp only at hc
                  rw [TilingWM.cycle_focus_helper_windows] at hc
                  exact is_managed_of_tiled hc
              infos_key := h.infos_key }
          have hm : ({ s with focused_index := some 0,
                                tiling_wm := s.tiling_wm.cycle_focus_helper PrevOrNext.Next } : FloatingWM).is_managed
              (s.floating_windows.getD 0 0) = true :=
            is_managed_of_floating (getD_mem_of_lt s.floating_windows _ _ (by omega))
          have hg2 : ({ s with focused_index := some 0,
                                tiling_wm := s.tiling_wm.cycle_focus_helper PrevOrNext.Next } : FloatingWM).get_focused_window
              = some (s.floating_windows.getD 0 0) := get_focused_window_float rfl
          have hr : ringStep (focusRing s) PrevOrNext.Next w
              = s.floating_windows.getD 0 0 := by
            rw [ringStep, hpR]
            dsimp only
            have hmod : (j + s.floating_windows.length + 1) % (focusRing s).length = 0 := by
              rw [hRlen]
              have h1 : j + s.floating_windows.length + 1
                  = s.floating_windows.length + s.tiling_wm.windows.length := by omega
              rw [h1, Nat.mod_self]
            rw [hmod, focusRing, List.getD_append _ _ _ _ (by omega)]
          exact cycle_conclude2 heq htWF rfl (TilingWM.cycle_focus_helper_windows s.tiling_wm PrevOrNext.Next) rfl
                (TilingWM.cycle_focus_helper_screen s.tiling_wm PrevOrNext.Next) hm hg2 hr
        · -- no floats: wrap inside the tiled ring to index 0
          have hT0 : ¬ (s.tiling_wm.cycle_focus_helper PrevOrNext.Next).windows.length = 0 := by
            rw [TilingWM.cycle_focus_helper_windows]
            omega
          have huf : ((s.tiling_wm.cycle_focus_helper PrevOrNext.Next).cycle_focus
              PrevOrNext.Next).focused_index = some 0 := by
            rw [TilingWM.cycle_focus_none_eq htf]
            dsimp only
            rw [if_neg hT0]
          have heq : s.cycle_focus PrevOrNext.Next = refocus (refocus
              { s with tiling_wm := (s.tiling_wm.cycle_focus_helper PrevOrNext.Next).cycle_focus
                                      PrevOrNext.Next }) := by
            rw [heq1]
            exact congrArg refocus (cycle_fuel_unfocused_notile_eq hgsa hF1 0 PrevOrNext.Next)
          have htWF : ({ s with tiling_wm := (s.tiling_wm.cycle_focus_helper
                                            PrevOrNext.Next).cycle_focus PrevOrNext.Next } : FloatingWM).WF :=
            { perm := h.perm, nodupF := h.nodupF,
              tiling := TilingWM.cycle_focus_WF_t
                (TilingWM.cycle_focus_helper_WF h.tiling PrevOrNext.Next) PrevOrNext.Next,
              disj := by
                intro w2 hw2 hc
                dsimp only at hc
                rw [TilingWM.cycle_focus_windows,
                  TilingWM.cycle_focus_helper_windows] at hc
                exact h.disj w2 hw2 hc
              fidx := by
                intro k hk
                have hk2 : s.focused_index = some k := hk
                rw [hidx] at hk2
                exact Option.noConfusion hk2
              infos_mem := by
                intro w2 hw2
                apply h.infos_mem
                rcases managed_cases hw2 with hc | hc
                · exact is_managed_of_floating hc
                · dsimp only at hc
                  rw [TilingWM.cycle_focus_windows,
                    TilingWM.cycle_focus_helper_windows] at hc
                  exact is_managed_of_tiled hc
              infos_key := h.infos_key }
          have hmem : s.tiling_wm.windows.getD 0 0
              ∈ ((s.tiling_wm.cycle_focus_helper PrevOrNext.Next).cycle_focus
                PrevOrNext.Next).windows := by
            rw [TilingWM.cycle_focus_windows, TilingWM.cycle_focus_helper_windows]
            exact getD_mem_of_lt _ _ _ hT1
          have hm : ({ s with tiling_wm := (s.tiling_wm.cycle_focus_helper
                                            PrevOrNext.Next).cycle_focus PrevOrNext.Next } : FloatingWM).is_managed
              (s.tiling_wm.windows.getD 0 0) = true :=
            is_managed_of_tiled hmem
          have hg2 : ({ s with tiling_wm := (s.tiling_wm.cycle_focus_helper
                                            PrevOrNext.Next).cycle_focus PrevOrNext.Next } : FloatingWM).get_focused_window
              = some (s.tiling_wm.windows.getD 0 0) := by
            rw [get_focused_window.eq_def]
            dsimp only
            rw [hidx]
            dsimp only
            rw [TilingWM.get_focused_window_some huf, TilingWM.cycle_focus_windows,
              TilingWM.cycle_focus_helper_windows]
          have hr : ringStep (focusRing s) PrevOrNext.Next w
              = s.tiling_wm.windows.getD 0 0 := by
            rw [ringStep, hpR]
            dsimp only
            have hmod : (j + s.floating_windows.length + 1) % (focusRing s).length
                = s.floating_windows.length := by
              rw [hRlen]
              have h1 : j + s.floating_windows.length + 1
                  = s.floating_windows.length + s.tiling_wm.windows.length := by omega
              rw [h1, Nat.mod_self]
              omega
            rw [hmod, focusRing,
              List.getD_append_right _ _ _ _ (Nat.le_refl _), Nat.sub_self]
          exact cycle_conclude2 heq htWF rfl (TilingWM.cycle_focus_helper_windows s.tiling_wm PrevOrNext.Next) rfl
                (TilingWM.cycle_focus_helper_screen s.tiling_wm PrevOrNext.Next) hm hg2 hr
      · -- interior step inside the tiled ring
        have hj1 : j + 1 < s.tiling_wm.windows.length := by omega
        have hch := TilingWM.cycle_focus_helper_next_interior hjt hlast
        have hhf : (s.tiling_wm.cycle_focus_helper PrevOrNext.Next).focused_index
            = some (j + 1) := by
          rw [hch, TilingWM.cycle_focus_some_eq hjt]
          dsimp only
          rw [TilingWM.cycle_index]
          rw [Nat.mod_eq_of_lt hj1]
        have hb : ¬ (s.tiling_wm.cycle_focus_helper PrevOrNext.Next).get_focused_window
            = none := by
          rw [TilingWM.get_focused_window_some hhf]
          simp
        have heq : s.cycle_focus PrevOrNext.Next = refocus
            { s with tiling_wm := s.tiling_wm.cycle_focus_helper PrevOrNext.Next } := by
          rw [hcf2]
          exact cycle_fuel_tiled_stay_eq hg hidx hb 1
        have htWF : ({ s with
            tiling_wm := s.tiling_wm.cycle_focus_helper PrevOrNext.Next } : FloatingWM).WF :=
          { perm := h.perm, nodupF := h.nodupF,
            tiling := TilingWM.cycle_focus_helper_WF h.tiling PrevOrNext.Next,
            disj := by
              intro w2 hw2 hc
              dsimp only at hc
              rw [TilingWM.cycle_focus_helper_windows] at hc
              exact h.disj w2 hw2 hc
            fidx := by
              intro k hk
              have hk2 : s.focused_index = some k := hk
              rw [hidx] at hk2
              exact Option.noConfusion hk2
            infos_mem := by
              intro w2 hw2
              apply h.infos_mem
              rcases managed_cases hw2 with hc | hc
              · exact is_managed_of_floating hc
              · dsimp only at hc
                rw [TilingWM.cycle_focus_helper_windows] at hc
                exact is_managed_of_tiled hc
            infos_key := h.infos_key }
        have hmem : s.tiling_wm.windows.getD (j + 1) 0
            ∈ (s.tiling_wm.cycle_focus_helper PrevOrNext.Next).windows := by
          rw [TilingWM.cycle_focus_helper_windows]
          exact getD_mem_of_lt _ _ _ hj1
        have hm : ({ s with
            tiling_wm := s.tiling_wm.cycle_focus_helper PrevOrNext.Next } : FloatingWM).is_managed
            (s.tiling_wm.windows.getD (j + 1) 0) = true :=
          is_managed_of_tiled hmem
        have hg2 : ({ s with
            tiling_wm := s.tiling_wm.cycle_focus_helper PrevOrNext.Next } : FloatingWM).get_focused_window
            = some (s.tiling_wm.windows.getD (j + 1) 0) := by
          rw [get_focused_window.eq_def]
          dsimp only
          rw [hidx]
          dsimp only
          rw [TilingWM.get_focused_window_some hhf,
            TilingWM.cycle_focus_helper_windows]
        have hr : ringStep (focusRing s) PrevOrNext.Next w
            = s.tiling_wm.windows.getD (j + 1) 0 := by
          rw [ringStep, hpR]
          dsimp only
          have hmod : (j + s.floating_windows.length + 1) % (focusRing s).length
              = s.floating_windows.length + (j + 1) := by
            rw [hRlen]
            have h1 : j + s.floating_windows.length + 1
                = s.floating_windows.length + (j + 1) := by omega
            rw [h1]
            exact Nat.mod_eq_of_lt (by omega)
          rw [hmod, focusRing,
            List.getD_append_right _ _ _ _ (Nat.le_add_right _ _),
            Nat.add_sub_cancel_left]
        exact cycle_conclude heq htWF rfl (TilingWM.cycle_focus_helper_windows s.tiling_wm PrevOrNext.Next) rfl
                (TilingWM.cycle_focus_helper_screen s.tiling_wm PrevOrNext.Next) hm hg2 hr
    | Prev =>
      by_cases h0 : j = 0
      · -- wrap off the front of the tiled ring
        subst h0
        have hch := TilingWM.cycle_focus_helper_prev_wrap hjt
        have htf : (s.tiling_wm.cycle_focus_helper PrevOrNext.Prev).focused_index = none := by
          rw [hch]
        have hb : (s.tiling_wm.cycle_focus_helper PrevOrNext.Prev).get_focused_window = none :=
          TilingWM.get_focused_window_none htf
        have heq1 : s.cycle_focus PrevOrNext.Prev =
            refocus (cycle_focus_fuel 1
              { s with tiling_wm := s.tiling_wm.cycle_focus_helper PrevOrNext.Prev }
              PrevOrNext.Prev) := by
          rw [hcf2]
          exact cycle_fuel_tiled_rec_eq hg hidx hb 1
        have hgsa : ({ s with
            tiling_wm := s.tiling_wm.cycle_focus_helper PrevOrNext.Prev } : FloatingWM).get_focused_window
            = none := by
          rw [get_focused_window.eq_def]
          dsimp only
          rw [hidx]
          dsimp only
          exact hb
        by_cases hF1 : s.floating_windows.length ≥ 1
        · -- floats exist: land on the last float
          have hlF : ({ s with
                                tiling_wm := s.tiling_wm.cycle_focus_helper PrevOrNext.Prev } : FloatingWM).floating_windows.length ≥ 1 := hF1
          have heq : s.cycle_focus PrevOrNext.Prev = refocus (refocus
              { s with focused_index := some (s.floating_windows.length - 1),
                       tiling_wm := s.tiling_wm.cycle_focus_helper PrevOrNext.Prev }) := by
            rw [heq1]
            exact congrArg refocus (cycle_fuel_unfocused_prev_eq hgsa hlF 0)
          have htWF : ({ s with focused_index := some (s.floating_windows.length - 1),
                                tiling_wm := s.tiling_wm.cycle_focus_helper PrevOrNext.Prev } : FloatingWM).WF :=
            { perm := h.perm, nodupF := h.nodupF,
              tiling := TilingWM.cycle_focus_helper_WF h.tiling PrevOrNext.Prev,
              disj := by
                intro w2 hw2 hc
                dsimp only at hc
                rw [TilingWM.cycle_focus_helper_windows] at hc
                exact h.disj w2 hw2 hc
              fidx := by
                intro k hk
                have hk2 : s.floating_windows.length - 1 = k := Option.some.inj hk
                show k < s.floating_windows.length
                omega
              infos_mem := by
                intro w2 hw2
                apply h.infos_mem
                rcases managed_cases hw2 with hc | hc
                · exact is_managed_of_floating hc
                · dsimp only at hc
                  rw [TilingWM.cycle_focus_helper_windows] at hc
                  exact is_managed_of_tiled hc
              infos_key := h.infos_key }
          have hm : ({ s with focused_index := some (s.floating_windows.length - 1),
                                tiling_wm := s.tiling_wm.cycle_focus_helper PrevOrNext.Prev } : FloatingWM).is_managed
              (s.floating_windows.getD (s.floating_windows.length - 1) 0) = true :=
            is_managed_of_floating (getD_mem_of_lt s.floating_windows _ _ (by omega))
          have hg2 : ({ s with focused_index := some (s.floating_windows.length - 1),
                                tiling_wm := s.tiling_wm.cycle_focus_helper PrevOrNext.Prev } : FloatingWM).get_focused_window
              = some (s.floating_windows.getD (s.floating_windows.length - 1) 0) :=
            get_focused_window_float rfl
          have hr : ringStep (focusRing s) PrevOrNext.Prev w
              = s.floating_windows.getD (s.floating_windows.length - 1) 0 := by
            rw [ringStep, hpR]
            dsimp only
            have hmod : (0 + s.floating_windows.length + (focusRing s).length - 1)
                % (focusRing s).length = s.floating_windows.length - 1 := by
              have h1 : 0 + s.floating_windows.length + (focusRing s).length - 1
                  = (s.floating_windows.length - 1) + (focusRing s).length := by
                rw [hRlen]
                omega
              rw [h1, Nat.add_mod_right]
              exact Nat.mod_eq_of_lt (by rw [hRlen]; omega)
            rw [hmod, focusRing, List.getD_append _ _ _ _ (by omega)]
          exact cycle_conclude2 heq htWF rfl (TilingWM.cycle_focus_helper_windows s.tiling_wm PrevOrNext.Prev) rfl
                (TilingWM.cycle_focus_helper_screen s.tiling_wm PrevOrNext.Prev) hm hg2 hr
        · -- no floats: wrap inside the tiled ring to the last index
          have hT0 : ¬ (s.tiling_wm.cycle_focus_helper PrevOrNext.Prev).windows.length = 0 := by
            rw [TilingWM.cycle_focus_helper_windows]
            omega
          have huf : ((s.tiling_wm.cycle_focus_helper PrevOrNext.Prev).cycle_focus
              PrevOrNext.Prev).focused_index
              = some ((s.tiling_wm.cycle_focus_helper PrevOrNext.Prev).windows.length - 1) := by
            rw [TilingWM.cycle_focus_none_eq htf]
            dsimp only
            rw [if_neg hT0]
          have heq : s.cycle_focus PrevOrNext.Prev = refocus (refocus
              { s with tiling_wm := (s.tiling_wm.cycle_focus_helper PrevOrNext.Prev).cycle_focus
                                      PrevOrNext.Prev }) := by
            rw [heq1]
            exact congrArg refocus (cycle_fuel_unfocused_notile_eq hgsa hF1 0 PrevOrNext.Prev)
          have htWF : ({ s with tiling_wm := (s.tiling_wm.cycle_focus_helper
                                            PrevOrNext.Prev).cycle_focus PrevOrNext.Prev } : FloatingWM).WF :=
            { perm := h.perm, nodupF := h.nodupF,
              tiling := TilingWM.cycle_focus_WF_t
                (TilingWM.cycle_focus_helper_WF h.tiling PrevOrNext.Prev) PrevOrNext.Prev,
              disj := by
                intro w2 hw2 hc
                dsimp only at hc
                rw [TilingWM.cycle_focus_windows,
                  TilingWM.cycle_focus_helper_windows] at hc
                exact h.disj w2 hw2 hc
              fidx := by
                intro k hk
                have hk2 : s.focused_index = some k := hk
                rw [hidx] at hk2
                exact Option.noConfusion hk2
              infos_mem := by
                intro w2 hw2
                apply h.infos_mem
                rcases managed_cases hw2 with hc | hc
                · exact is_managed_of_floating hc
                · dsimp only at hc
                  rw [TilingWM.cycle_focus_windows,
                    TilingWM.cycle_focus_helper_windows] at hc
                  exact is_managed_of_tiled hc
              infos_key := h.infos_key }
          have hmem : s.tiling_wm.windows.getD (s.tiling_wm.windows.length - 1) 0
              ∈ ((s.tiling_wm.cycle_focus_helper PrevOrNext.Prev).cycle_focus
                PrevOrNext.Prev).windows := by
            rw [TilingWM.cycle_focus_windows, TilingWM.cycle_focus_helper_windows]
            exact getD_mem_of_lt _ _ _ (by omega)
          have hm : ({ s with tiling_wm := (s.tiling_wm.cycle_focus_helper
                                            PrevOrNext.Prev).cycle_focus PrevOrNext.Prev } : FloatingWM).is_managed
              (s.tiling_wm.windows.getD (s.tiling_wm.windows.length - 1) 0) = true :=
            is_managed_of_tiled hmem
          have hg2 : ({ s with tiling_wm := (s.tiling_wm.cycle_focus_helper
                                            PrevOrNext.Prev).cycle_focus PrevOrNext.Prev } : FloatingWM).get_focused_window
              = some (s.tiling_wm.windows.getD (s.tiling_wm.windows.length - 1) 0) := by
            rw [get_focused_window.eq_def]
            dsimp only
            rw [hidx]
            dsimp only
            rw [TilingWM.get_focused_window_some huf, TilingWM.cycle_focus_windows,
              TilingWM.cycle_focus_helper_windows]
          have hr : ringStep (focusRing s) PrevOrNext.Prev w
              = s.tiling_wm.windows.getD (s.tiling_wm.windows.length - 1) 0 := by
            rw [ringStep, hpR]
            dsimp only
            have hF0 : s.floating_windows.length = 0 := by omega
            have hmod : (0 + s.floating_windows.length + (focusRing s).length - 1)
                % (focusRing s).length
                = s.floating_windows.length + (s.tiling_wm.windows.length - 1) := by
              have h1 : 0 + s.floating_windows.length + (focusRing s).length - 1
                  = s.floating_windows.length + (s.tiling_wm.windows.length - 1) := by
                rw [hRlen]
                omega
              rw [h1]
              exact Nat.mod_eq_of_lt (by rw [hRlen]; omega)
            rw [hmod, focusRing,
              List.getD_append_right _ _ _ _ (Nat.le_add_right _ _),
              Nat.add_sub_cancel_left]
          exact cycle_conclude2 heq htWF rfl (TilingWM.cycle_focus_helper_windows s.tiling_wm PrevOrNext.Prev) rfl
                (TilingWM.cycle_focus_helper_screen s.tiling_wm PrevOrNext.Prev) hm hg2 hr
      · -- interior step inside the tiled ring
        have hch := TilingWM.cycle_focus_helper_prev_interior hjt h0
        have hhf : (s.tiling_wm.cycle_focus_helper PrevOrNext.Prev).focused_index
            = some (j - 1) := by
          rw [hch, TilingWM.cycle_focus_some_eq hjt]
          dsimp only
          rw [TilingWM.cycle_index]
          have h1 : j + s.tiling_wm.windows.length - 1
              = (j - 1) + s.tiling_wm.windows.length := by omega
          rw [h1, Nat.add_mod_right, Nat.mod_eq_of_lt (by omega)]
        have hb : ¬ (s.tiling_wm.cycle_focus_helper PrevOrNext.Prev).get_focused_window
            = none := by
          rw [TilingWM.get_focused_window_some hhf]
          simp
        have heq : s.cycle_focus PrevOrNext.Prev = refocus
            { s with tiling_wm := s.tiling_wm.cycle_focus_helper PrevOrNext.Prev } := by
          rw [hcf2]
          exact cycle_fuel_tiled_stay_eq hg hidx hb 1
        have htWF : ({ s with
            tiling_wm := s.tiling_wm.cycle_focus_helper PrevOrNext.Prev } : FloatingWM).WF :=
          { perm := h.perm, nodupF := h.nodupF,
            tiling := TilingWM.cycle_focus_helper_WF h.tiling PrevOrNext.Prev,
            disj := by
              intro w2 hw2 hc
              dsimp only at hc
              rw [TilingWM.cycle_focus_helper_windows] at hc
              exact h.disj w2 hw2 hc
            fidx := by
              intro k hk
              have hk2 : s.focused_index = some k := hk
              rw [hidx] at hk2
              exact Option.noConfusion hk2
            infos_mem := by
              intro w2 hw2
              apply h.infos_mem
              rcases managed_cases hw2 with hc | hc
              · exact is_managed_of_floating hc
              · dsimp only at hc
                rw [TilingWM.cycle_focus_helper_windows] at hc
                exact is_managed_of_tiled hc
            infos_key := h.infos_key }
        have hmem : s.tiling_wm.windows.getD (j - 1) 0
            ∈ (s.tiling_wm.cycle_focus_helper PrevOrNext.Prev).windows := by
          rw [TilingWM.cycle_focus_helper_windows]
          exact getD_mem_of_lt _ _ _ (by omega)
        have hm : ({ s with
            tiling_wm := s.tiling_wm.cycle_focus_helper PrevOrNext.Prev } : FloatingWM).is_managed
            (s.tiling_wm.windows.getD (j - 1) 0) = true :=
          is_managed_of_tiled hmem
        have hg2 : ({ s with
            tiling_wm := s.tiling_wm.cycle_focus_helper PrevOrNext.Prev } : FloatingWM).get_focused_window
            = some (s.tiling_wm.windows.getD (j - 1) 0) := by
          rw [get_focused_window.eq_def]
          dsimp only
          rw [hidx]
          dsimp only
          rw [TilingWM.get_focused_window_some hhf,
            TilingWM.cycle_focus_helper_windows]
        have hr : ringStep (focusRing s) PrevOrNext.Prev w
            = s.tiling_wm.windows.getD (j - 1) 0 := by
          rw [ringStep, hpR]
          dsimp only
          have hmod : (j + s.floating_windows.length + (focusRing s).length - 1)
              % (focusRing s).length
              = s.floating_windows.length + (j - 1) := by
            have h1 : j + s.floating_windows.length + (focusRing s).length - 1
                = (s.floating_windows.length + (j - 1)) + (focusRing s).length := by
              rw [hRlen]
              omega
            rw [h1, Nat.add_mod_right]
            exact Nat.mod_eq_of_lt (by rw [hRlen]; omega)
          rw [hmod, focusRing,
            List.getD_append_right _ _ _ _ (Nat.le_add_right _ _),
            Nat.add_sub_cancel_left]
        exact cycle_conclude heq htWF rfl (TilingWM.cycle_focus_helper_windows s.tiling_wm PrevOrNext.Prev) rfl
                (TilingWM.cycle_focus_helper_screen s.tiling_wm PrevOrNext.Prev) hm hg2 hr

end FloatingWM

namespace FloatingWM

theorem WF_update {s : FloatingWM} (h : s.WF) {o : Option Nat} {t2 : TilingWM}
    (h2 : t2.WF) (hw : t2.windows = s.tiling_wm.windows)
    (ho : ∀ k, o = some k → k < s.floating_windows.length) :
    ({ s with focused_index := o, tiling_wm := t2 } : FloatingWM).WF :=
  { perm := h.perm, nodupF := h.nodupF, tiling := h2,
    disj := by
      intro w2 hw2 hc
      dsimp only at hc
      rw [hw] at hc
      exact h.disj w2 hw2 hc
    fidx := ho,
    infos_mem := by
      intro w2 hw2
      apply h.infos_mem
      rcases managed_cases hw2 with hc | hc
      · exact is_managed_of_floating hc
      · dsimp only at hc
        rw [hw] at hc
        exact is_managed_of_tiled hc
    infos_key := h.infos_key }

theorem refocus_WF {t : FloatingWM} (h : t.WF) : (refocus t).WF :=
  focus_window_WF_f h _

theorem cycle_fuel_zero (s : FloatingWM) (d : PrevOrNext) :
    cycle_focus_fuel 0 s d = s := by
  rw [cycle_focus_fuel.eq_def]

theorem cycle_index_helper_lt {s : FloatingWM} {i m : Nat} {d : PrevOrNext}
    (h0 : 0 < s.floating_windows.length) (h : s.cycle_index_helper i d = some m) :
    m < s.floating_windows.length := by
  cases d with
  | Prev =>
    rw [cycle_index_helper] at h
    split at h
    · exact Option.noConfusion h
    · cases Option.some.inj h
      exact Nat.mod_lt _ h0
  | Next =>
    rw [cycle_index_helper] at h
    split at h
    · exact Option.noConfusion h
    · cases Option.some.inj h
      exact Nat.mod_lt _ h0

/-- cycle_focus preserves well-formedness from every state (no focus
hypothesis needed). -/
theorem cycle_focus_fuel_WF : ∀ (fuel : Nat) {s : FloatingWM}, s.WF →
    ∀ d, (cycle_focus_fuel fuel s d).WF := by
  intro fuel
  induction fuel with
  | zero =>
    intro s h d
    rw [cycle_fuel_zero]
    exact h
  | succ n ih =>
    intro s h d
    by_cases hg : s.get_focused_window = none
    · by_cases hl : s.floating_windows.length ≥ 1
      · cases d with
        | Prev =>
          rw [cycle_fuel_unfocused_prev_eq hg hl n]
          refine refocus_WF (WF_update h h.tiling rfl ?_)
          intro k hk
          have hk2 : s.floating_windows.length - 1 = k := Option.some.inj hk
          omega
        | Next =>
          rw [cycle_fuel_unfocused_next_eq hg hl n]
          refine refocus_WF (WF_update h h.tiling rfl ?_)
          intro k hk
          have hk2 : 0 = k := Option.some.inj hk
          omega
      · rw [cycle_fuel_unfocused_notile_eq hg hl n d]
        exact refocus_WF (WF_update h (TilingWM.cycle_focus_WF_t h.tiling d)
          (TilingWM.cycle_focus_windows _ _) h.fidx)
    · cases hio : s.focused_index with
      | some i =>
        have hi := h.fidx i hio
        cases hch : s.cycle_index_helper i d with
        | some m =>
          rw [cycle_fuel_float_interior_eq hg hio hch n]
          refine refocus_WF (WF_update h h.tiling rfl ?_)
          intro k hk
          have hk2 : m = k := Option.some.inj hk
          rw [← hk2]
          exact cycle_index_helper_lt (by omega) hch
        | none =>
          by_cases hb : (s.tiling_wm.cycle_focus d).get_focused_window = none
          · rw [cycle_fuel_float_wrap_rec_eq hg hio hch hb n]
            exact refocus_WF (ih (WF_update h (TilingWM.cycle_focus_WF_t h.tiling d)
              (TilingWM.cycle_focus_windows _ _) (fun k hk => Option.noConfusion hk)) d)
          · rw [cycle_fuel_float_wrap_stay_eq hg hio hch hb n]
            exact refocus_WF (WF_update h (TilingWM.cycle_focus_WF_t h.tiling d)
              (TilingWM.cycle_focus_windows _ _) (fun k hk => Option.noConfusion hk))
      | none =>
        by_cases hb : (s.tiling_wm.cycle_focus_helper d).get_focused_window = none
        · rw [cycle_fuel_tiled_rec_eq hg hio hb n]
          exact refocus_WF (ih (WF_update h (TilingWM.cycle_focus_helper_WF h.tiling d)
            (TilingWM.cycle_focus_helper_windows _ _) h.fidx) d)
        · rw [cycle_fuel_tiled_stay_eq hg hio hb n]
          exact refocus_WF (WF_update h (TilingWM.cycle_focus_helper_WF h.tiling d)
            (TilingWM.cycle_focus_helper_windows _ _) h.fidx)

theorem cycle_focus_WF_f {s : FloatingWM} (h : s.WF) (d : PrevOrNext) :
    (s.cycle_focus d).WF :=
  cycle_focus_fuel_WF 2 h d

theorem focusRing_nodup {s : FloatingWM} (h : s.WF) : (focusRing s).Nodup := by
  rw [focusRing]
  exact List.Nodup.append h.nodupF h.tiling.nodup h.disj

theorem mem_focusRing_of_focused {s : FloatingWM} (h : s.WF) {w : Window}
    (hf : s.get_focused_window = some w) : w ∈ focusRing s := by
  rw [focusRing, List.mem_append]
  cases hidx : s.focused_index with
  | some i =>
    have hi := h.fidx i hidx
    have h1 := get_focused_window_float hidx
    rw [hf] at h1
    have h2 : w = s.floating_windows.getD i 0 := Option.some.inj h1
    left
    rw [h2]
    exact getD_mem_of_lt _ _ _ hi
  | none =>
    have h1 : s.tiling_wm.get_focused_window = some w := by
      rw [← get_focused_window_unfloat hidx]
      exact hf
    cases hjt : s.tiling_wm.focused_index with
    | none =>
      rw [TilingWM.get_focused_window_none hjt] at h1
      exact Option.noConfusion h1
    | some j =>
      have hj := h.tiling.fidx j hjt
      rw [TilingWM.get_focused_window_some hjt] at h1
      have h2 : w = s.tiling_wm.windows.getD j 0 := (Option.some.inj h1).symm
      right
      rw [h2]
      exact getD_mem_of_lt _ _ _ hj

/-- Combined step theorem for cycle_focus from any focused state
satisfying the focus-exclusion condition. -/
theorem cycle_focus_step {s : FloatingWM} (h : s.WF) (hx : s.focusExcl) {w : Window}
    (hf : s.get_focused_window = some w) (d : PrevOrNext) :
    (s.cycle_focus d).floating_windows = s.floating_windows ∧
    (s.cycle_focus d).tiling_wm.windows = s.tiling_wm.windows ∧
    (s.cycle_focus d).infos = s.infos ∧
    (s.cycle_focus d).tiling_wm.screen = s.tiling_wm.screen ∧
    (s.cycle_focus d).WF ∧ (s.cycle_focus d).focusExcl ∧
    (s.cycle_focus d).get_focused_window = some (ringStep (focusRing s) d w) := by
  cases hidx : s.focused_index with
  | some i => exact cycle_focus_step_float h hx hidx hf d
  | none => exact cycle_focus_step_tiled h hidx hf d

end FloatingWM

theorem TilingWM.swap_with_master_mem (s : TilingWM) (w x : Window) :
    x ∈ (s.swap_with_master w).1.windows ↔ x ∈ s.windows := by
  cases hp : position s.windows w with
  | none =>
    rw [TilingWM.swap_with_master_error (position_eq_none_iff.mp hp)]
  | some pos =>
    exact (TilingWM.swap_with_master_spec hp).1.mem_iff

theorem TilingWM.swap_windows_mem {s : TilingWM} (h : s.WF) (d : PrevOrNext)
    (x : Window) : x ∈ (s.swap_windows d).windows ↔ x ∈ s.windows := by
  cases hp : s.focused_index with
  | none => rw [TilingWM.swap_windows_noop hp]
  | some pos =>
    exact (TilingWM.swap_windows_spec hp (h.fidx pos hp) d).1.mem_iff

namespace FloatingWM

/-- Variant of WF_update for a tiling replacement that permutes the
tiled windows instead of keeping the list equal. -/
theorem WF_update_mem {s : FloatingWM} (h : s.WF) {o : Option Nat} {t2 : TilingWM}
    (h2 : t2.WF) (hw : ∀ x, x ∈ t2.windows ↔ x ∈ s.tiling_wm.windows)
    (ho : ∀ k, o = some k → k < s.floating_windows.length) :
    ({ s with focused_index := o, tiling_wm := t2 } : FloatingWM).WF :=
  { perm := h.perm, nodupF := h.nodupF, tiling := h2,
    disj := by
      intro w2 hw2 hc
      dsimp only at hc
      exact h.disj w2 hw2 ((hw w2).mp hc)
    fidx := ho,
    infos_mem := by
      intro w2 hw2
      apply h.infos_mem
      rcases managed_cases hw2 with hc | hc
      · exact is_managed_of_floating hc
      · dsimp only at hc
        exact is_managed_of_tiled ((hw w2).mp hc)
    infos_key := h.infos_key }

theorem float_or_tile_window_WF {s : FloatingWM} (h : s.WF) (w : Window)
    (fot : FloatOrTile) : ((s.float_or_tile_window w fot).1).WF := by
  rw [float_or_tile_window.eq_def]
  cases hi : s.infos w with
  | none => exact h
  | some info =>
    dsimp only
    cases hp : (s.remove_window w).2 with
    | error e =>
      exact remove_window_WF_f h w
    | ok u =>
      exact add_window_WF_f (remove_window_WF_f h w) _

theorem toggle_floating_WF_f {s : FloatingWM} (h : s.WF) (w : Window) :
    ((s.toggle_floating w).1).WF := by
  rw [toggle_floating.eq_def]
  by_cases hm : ¬ s.is_managed w = true
  · rw [if_pos hm]
    exact h
  · rw [if_neg hm]
    dsimp only
    have h1 : ((s.float_or_tile_window w
        (if s.is_floating w = true then FloatOrTile.Tile else FloatOrTile.Float)).1).WF :=
      float_or_tile_window_WF h w _
    cases hp : (s.float_or_tile_window w
        (if s.is_floating w = true then FloatOrTile.Tile else FloatOrTile.Float)).2 with
    | error e =>
      exact h1
    | ok u =>
      dsimp only
      cases hcf : s.get_focused_window with
      | none =>
        exact focus_window_WF_f h1 none
      | some cw =>
        dsimp only
        by_cases hcm : (s.float_or_tile_window w
            (if s.is_floating w = true then FloatOrTile.Tile else FloatOrTile.Float)).1.tiling_wm.is_managed cw = true
        · rw [if_pos hcm]
          exact WF_update h1
            (TilingWM.focus_window_WF_t h1.tiling (some cw))
            (TilingWM.focus_window_windows _ _)
            (fun k hk => Option.noConfusion hk)
        · rw [if_neg hcm]
          exact WF_update h1
            (TilingWM.focus_window_WF_t h1.tiling none)
            (TilingWM.focus_window_windows _ _)
            (fun k hk => position_lt hk)

theorem set_window_geometry_WF_f {s : FloatingWM} (h : s.WF) (w : Window)
    (g : Geometry) : ((s.set_window_geometry w g).1).WF := by
  rw [set_window_geometry.eq_def]
  by_cases hm : ¬ s.is_managed w = true
  · rw [if_pos hm]
    exact h
  · rw [if_neg hm]
    cases hi : s.infos w with
    | none => exact h
    | some info =>
      dsimp only
      exact
        { perm := h.perm, nodupF := h.nodupF, tiling := h.tiling, disj := h.disj,
          fidx := h.fidx,
          infos_mem := by
            intro w2 hw2
            dsimp only
            by_cases he : w2 = w
            · rw [if_pos he]
              rfl
            · rw [if_neg he]
              exact h.infos_mem w2 hw2
          infos_key := by
            intro w2 wi hwi
            dsimp only at hwi
            by_cases he : w2 = w
            · rw [if_pos he] at hwi
              cases hwi
              dsimp only
              rw [h.infos_key w info hi, he]
            · rw [if_neg he] at hwi
              exact h.infos_key w2 wi hwi }

theorem swap_with_master_WF_f {s : FloatingWM} (h : s.WF) (w : Window) :
    ((s.swap_with_master w).1).WF := by
  rw [swap_with_master.eq_def]
  by_cases hm : ¬ s.is_managed w = true
  · rw [if_pos hm]
    exact h
  · rw [if_neg hm]
    dsimp only
    have h1 : ((if s.floating_windows.contains w = true
        then s.float_or_tile_window w FloatOrTile.Tile
        else (s, Except.ok ())).1).WF := by
      by_cases hc : s.floating_windows.contains w = true
      · rw [if_pos hc]
        exact float_or_tile_window_WF h w FloatOrTile.Tile
      · rw [if_neg hc]
        exact h
    cases hp : (if s.floating_windows.contains w = true
        then s.float_or_tile_window w FloatOrTile.Tile
        else (s, Except.ok ())).2 with
    | error e =>
      exact h1
    | ok u =>
      dsimp only
      exact WF_update_mem h1
        (TilingWM.swap_with_master_WF_t h1.tiling w)
        (fun x => TilingWM.swap_with_master_mem _ w x)
        h1.fidx

theorem swap_windows_WF_f {s : FloatingWM} (h : s.WF) (d : PrevOrNext) :
    (s.swap_windows d).WF := by
  rw [swap_windows.eq_def]
  dsimp only
  have h1 : ((if s.focused_index.isSome = true then
      match s.get_focused_window with
      | some fw => (s.toggle_floating fw).1
      | none => s
      else s) : FloatingWM).WF := by
    by_cases hc : s.focused_index.isSome = true
    · rw [if_pos hc]
      cases hg : s.get_focused_window with
      | none => exact h
      | some fw => exact toggle_floating_WF_f h fw
    · rw [if_neg hc]
      exact h
  exact WF_update_mem h1
    (TilingWM.swap_windows_WF_t h1.tiling d)
    (fun x => TilingWM.swap_windows_mem h1.tiling d x)
    h1.fidx

theorem resize_screen_WF_f {s : FloatingWM} (h : s.WF) (sc : Screen) :
    (s.resize_screen sc).WF :=
  WF_update h ⟨h.tiling.nodup, h.tiling.fidx⟩ rfl h.fidx

theorem set_gap_WF_f {s : FloatingWM} (h : s.WF) (g : Nat) :
    (s.set_gap g).WF :=
  WF_update h ⟨h.tiling.nodup, h.tiling.fidx⟩ rfl h.fidx

/-- Float-layer states reachable through the public API from a fresh
manager. -/
inductive Reachable : FloatingWM → Prop where
  | new (screen : Screen) : Reachable (FloatingWM.new screen)
  | add_window {s : FloatingWM} (h : Reachable s) (wi : WindowWithInfo) :
      Reachable ((s.add_window wi).1)
  | remove_window {s : FloatingWM} (h : Reachable s) (w : Window) :
      Reachable ((s.remove_window w).1)
  | focus_window {s : FloatingWM} (h : Reachable s) (ow : Option Window) :
      Reachable ((s.focus_window ow).1)
  | cycle_focus {s : FloatingWM} (h : Reachable s) (d : PrevOrNext) :
      Reachable (s.cycle_focus d)
  | resize_screen {s : FloatingWM} (h : Reachable s) (sc : Screen) :
      Reachable (s.resize_screen sc)
  | toggle_floating {s : FloatingWM} (h : Reachable s) (w : Window) :
      Reachable ((s.toggle_floating w).1)
  | set_window_geometry {s : FloatingWM} (h : Reachable s) (w : Window) (g : Geometry) :
      Reachable ((s.set_window_geometry w g).1)
  | swap_with_master {s : FloatingWM} (h : Reachable s) (w : Window) :
      Reachable ((s.swap_with_master w).1)
  | swap_windows {s : FloatingWM} (h : Reachable s) (d : PrevOrNext) :
      Reachable (s.swap_windows d)
  | set_gap {s : FloatingWM} (h : Reachable s) (g : Nat) :
      Reachable (s.set_gap g)

/-- Every reachable float-layer state is well-formed. -/
theorem reachable_WF_f {s : FloatingWM} (h : Reachable s) : s.WF := by
  induction h with
  | new screen => exact WF_new_f screen
  | add_window _ wi ih => exact add_window_WF_f ih wi
  | remove_window _ w ih => exact remove_window_WF_f ih w
  | focus_window _ ow ih => exact focus_window_WF_f ih ow
  | cycle_focus _ d ih => exact cycle_focus_WF_f ih d
  | resize_screen _ sc ih => exact resize_screen_WF_f ih sc
  | toggle_floating _ w ih => exact toggle_floating_WF_f ih w
  | set_window_geometry _ w g ih => exact set_window_geometry_WF_f ih w g
  | swap_with_master _ w ih => exact swap_with_master_WF_f ih w
  | swap_windows _ d ih => exact swap_windows_WF_f ih d
  | set_gap _ g ih => exact set_gap_WF_f ih g

/-- A forward cycle followed by a backward cycle (in the sense of the
given inverse ring steps) restores the focused window and the window
collections. -/
theorem cycle_focus_roundtrip_aux {s : FloatingWM} (h : s.WF) (hx : s.focusExcl)
    {w : Window} (hf : s.get_focused_window = some w) {d d2 : PrevOrNext}
    (hinv : ringStep (focusRing s) d2 (ringStep (focusRing s) d w) = w) :
    ((s.cycle_focus d).cycle_focus d2).get_focused_window = some w ∧
    ((s.cycle_focus d).cycle_focus d2).floating_windows = s.floating_windows ∧
    ((s.cycle_focus d).cycle_focus d2).tiling_wm.windows = s.tiling_wm.windows ∧
    ((s.cycle_focus d).cycle_focus d2).infos = s.infos ∧
    ((s.cycle_focus d).cycle_focus d2).tiling_wm.screen = s.tiling_wm.screen := by
  obtain ⟨f1, t1, i1, sc1, wf1, x1, g1⟩ := cycle_focus_step h hx hf d
  have hring : focusRing (s.cycle_focus d) = focusRing s := by
    rw [focusRing, focusRing, f1, t1]
  obtain ⟨f2, t2, i2, sc2, wf2, x2, g2⟩ := cycle_focus_step wf1 x1 g1 d2
  rw [hring, hinv] at g2
  exact ⟨g2, f2.trans f1, t2.trans t1, i2.trans i1, sc2.trans sc1⟩

end FloatingWM

/-! ## Claim C2 -/

/-- Three floating windows 1, 2, 3 with window 1 focused. -/
def c2state1 : FloatingWM :=
  (((((FloatingWM.new { width := 100, height := 100 }).add_window
    { window := 1, geometry := { x := 0, y := 0, width := 10, height := 10 },
      float_or_tile := FloatOrTile.Float, fullscreen := false }).1.add_window
    { window := 2, geometry := { x := 0, y := 0, width := 10, height := 10 },
      float_or_tile := FloatOrTile.Float, fullscreen := false }).1.add_window
    { window := 3, geometry := { x := 0, y := 0, width := 10, height := 10 },
      float_or_tile := FloatOrTile.Float, fullscreen := false }).1.focus_window
    (some 1)).1

/-- One floating window and no focus. -/
def c2state2 : FloatingWM :=
  (((FloatingWM.new { width := 100, height := 100 }).add_window
    { window := 1, geometry := { x := 0, y := 0, width := 10, height := 10 },
      float_or_tile := FloatOrTile.Float, fullscreen := false }).1.focus_window
    none).1

/-- Tiled windows with a focused float, then swap_with_master on a tiled
window: leaves a stale tiling focus below the focused float. -/
def c2state3 : FloatingWM :=
  (((((FloatingWM.new { width := 100, height := 100 }).add_window
    { window := 1, geometry := { x := 0, y := 0, width := 10, height := 10 },
      float_or_tile := FloatOrTile.Tile, fullscreen := false }).1.add_window
    { window := 3, geometry := { x := 0, y := 0, width := 10, height := 10 },
      float_or_tile := FloatOrTile.Tile, fullscreen := false }).1.add_window
    { window := 2, geometry := { x := 0, y := 0, width := 10, height := 10 },
      float_or_tile := FloatOrTile.Float, fullscreen := false }).1.swap_with_master
    3).1

/-- claim C2 counterexample: the round trip does not restore the render
order (three floats, z-order rotates), does not restore an absent focus
(an unfocused state gains a focused window), and does not restore the
focused window when a stale tiling focus sits below the focused float
(reachable via swap_with_master). -/
theorem claim_C2_counterexample :
    (FloatingWM.Reachable c2state1 ∧ c2state1.is_managed 1 = true ∧
     ((c2state1.cycle_focus PrevOrNext.Next).cycle_focus
        PrevOrNext.Prev).get_focused_window = c2state1.get_focused_window ∧
     ¬ ((c2state1.cycle_focus PrevOrNext.Next).cycle_focus
        PrevOrNext.Prev).get_window_layout = c2state1.get_window_layout) ∧
    (FloatingWM.Reachable c2state2 ∧ c2state2.is_managed 1 = true ∧
     ¬ ((c2state2.cycle_focus PrevOrNext.Next).cycle_focus
        PrevOrNext.Prev).get_focused_window = c2state2.get_focused_window) ∧
    (FloatingWM.Reachable c2state3 ∧ c2state3.is_managed 2 = true ∧
     ¬ c2state3.focusExcl ∧
     ¬ ((c2state3.cycle_focus PrevOrNext.Next).cycle_focus
        PrevOrNext.Prev).get_focused_window = c2state3.get_focused_window) := by
  refine ⟨⟨?_, by decide, by decide, by decide⟩,
    ⟨?_, by decide, by decide⟩, ⟨?_, by decide, ?_, by decide⟩⟩
  · exact FloatingWM.Reachable.focus_window
      (FloatingWM.Reachable.add_window
        (FloatingWM.Reachable.add_window
          (FloatingWM.Reachable.add_window (FloatingWM.Reachable.new _) _) _) _) _
  · exact FloatingWM.Reachable.focus_window
      (FloatingWM.Reachable.add_window (FloatingWM.Reachable.new _) _) _
  · exact FloatingWM.Reachable.swap_with_master
      (FloatingWM.Reachable.add_window
        (FloatingWM.Reachable.add_window
          (FloatingWM.Reachable.add_window (FloatingWM.Reachable.new _) _) _) _) _
  · intro hc
    have h1 : c2state3.tiling_wm.focused_index = none := hc (by decide)
    exact absurd h1 (by decide)

/-- claim C2 (amended): for every reachable float-layer state that has
a focused window and no stale tiling focus below a focused float,
cycle_focus(Next) then cycle_focus(Prev), and likewise Prev then Next,
restore the focused window, both window collections and the stored
descriptors; the z-order render order is not restored in general, and
without the two extra conditions the focused window is not restored
either (see the counterexample). -/
theorem claim_C2 {s : FloatingWM} (hr : FloatingWM.Reachable s)
    (hx : s.focusExcl) {w : Window} (hf : s.get_focused_window = some w) :
    (((s.cycle_focus PrevOrNext.Next).cycle_focus PrevOrNext.Prev).get_focused_window
       = some w ∧
     ((s.cycle_focus PrevOrNext.Next).cycle_focus PrevOrNext.Prev).floating_windows
       = s.floating_windows ∧
     ((s.cycle_focus PrevOrNext.Next).cycle_focus PrevOrNext.Prev).tiling_wm.windows
       = s.tiling_wm.windows ∧
     ((s.cycle_focus PrevOrNext.Next).cycle_focus PrevOrNext.Prev).infos = s.infos) ∧
    (((s.cycle_focus PrevOrNext.Prev).cycle_focus PrevOrNext.Next).get_focused_window
       = some w ∧
     ((s.cycle_focus PrevOrNext.Prev).cycle_focus PrevOrNext.Next).floating_windows
       = s.floating_windows ∧
     ((s.cycle_focus PrevOrNext.Prev).cycle_focus PrevOrNext.Next).tiling_wm.windows
       = s.tiling_wm.windows ∧
     ((s.cycle_focus PrevOrNext.Prev).cycle_focus PrevOrNext.Next).infos = s.infos) := by
  have h := FloatingWM.reachable_WF_f hr
  have hn := FloatingWM.focusRing_nodup h
  have hmem := FloatingWM.mem_focusRing_of_focused h hf
  obtain ⟨hinv1, hinv2⟩ := ringStep_inverse hn hmem
  obtain ⟨a1, b1, c1, d1, e1⟩ := FloatingWM.cycle_focus_roundtrip_aux h hx hf hinv1
  obtain ⟨a2, b2, c2, d2, e2⟩ := FloatingWM.cycle_focus_roundtrip_aux h hx hf hinv2
  exact ⟨⟨a1, b1, c1, d1⟩, ⟨a2, b2, c2, d2⟩⟩

/-- Witness for claim C2 at the three-float state. -/
theorem claim_C2_witness :
    ((c2state1.cycle_focus PrevOrNext.Next).cycle_focus PrevOrNext.Prev).get_focused_window
      = some 1 ∧
    ((c2state1.cycle_focus PrevOrNext.Prev).cycle_focus PrevOrNext.Next).get_focused_window
      = some 1 := by
  have hr : FloatingWM.Reachable c2state1 :=
    FloatingWM.Reachable.focus_window
      (FloatingWM.Reachable.add_window
        (FloatingWM.Reachable.add_window
          (FloatingWM.Reachable.add_window (FloatingWM.Reachable.new _) _) _) _) _
  have hx : c2state1.focusExcl := by
    intro h1
    decide
  have hf : c2state1.get_focused_window = some 1 := by decide
  exact ⟨(claim_C2 hr hx hf).1.1, (claim_C2 hr hx hf).2.1⟩

/-! ## Claim C10 -/

/-- claim C10: in every reachable float-layer state the z-order stack
is a permutation of the floating list and every managed window has a
stored descriptor, so the stored-geometry lookup never fails. -/
theorem claim_C10 {s : FloatingWM} (hr : FloatingWM.Reachable s) :
    s.stack_order_floating_windows.Perm s.floating_windows ∧
    (∀ w, s.is_managed w = true → (s.infos w).isSome = true) := by
  have h := FloatingWM.reachable_WF_f hr
  exact ⟨h.perm, h.infos_mem⟩

/-- Witness for claim C10 at the three-float state. -/
theorem claim_C10_witness :
    c2state1.stack_order_floating_windows.Perm c2state1.floating_windows ∧
    (∀ w, c2state1.is_managed w = true → (c2state1.infos w).isSome = true) :=
  claim_C10
    (FloatingWM.Reachable.focus_window
      (FloatingWM.Reachable.add_window
        (FloatingWM.Reachable.add_window
          (FloatingWM.Reachable.add_window (FloatingWM.Reachable.new _) _) _) _) _)

namespace FloatingWM

/-- toggle_floating on an unmanaged window is an error no-op. -/
theorem toggle_floating_unknown {s : FloatingWM} {w : Window}
    (hm : ¬ s.is_managed w = true) :
    s.toggle_floating w = (s, Except.error (WMError.UnknownWindow w)) := by
  rw [toggle_floating.eq_def, if_pos hm]

/-- float_or_tile_window on a tiled window with stored descriptor info:
the window moves to the end of the floating list, leaves the tiled
list, and keeps its stored geometry with the mode flipped to Float. -/
theorem float_or_tile_tiled_spec {s : FloatingWM} (h : s.WF) {w : Window}
    {info : WindowWithInfo} (ht : s.tiling_wm.is_managed w = true)
    (hinfo : s.infos w = some info) :
    (s.float_or_tile_window w FloatOrTile.Float).1.floating_windows
      = s.floating_windows ++ [w] ∧
    (s.float_or_tile_window w FloatOrTile.Float).1.tiling_wm.windows
      = s.tiling_wm.windows.erase w ∧
    (s.float_or_tile_window w FloatOrTile.Float).1.infos w
      = some { info with float_or_tile := FloatOrTile.Float } ∧
    (s.float_or_tile_window w FloatOrTile.Float).2 = Except.ok () := by
  have hkey : info.window = w := h.infos_key w info hinfo
  have hwT : w ∈ s.tiling_wm.windows := by simpa [TilingWM.is_managed] using ht
  have hwF : w ∉ s.floating_windows := fun hc => h.disj w hc hwT
  obtain ⟨i, hpT⟩ : ∃ i, position s.tiling_wm.windows w = some i := by
    cases hp : position s.tiling_wm.windows w with
    | none => exact absurd hwT (position_eq_none_iff.mp hp)
    | some i => exact ⟨i, rfl⟩
  obtain ⟨hF, hS, hT, hI, hfi, hok⟩ := remove_window_tiled_spec ht hpT
  have hm2 : ¬ (s.remove_window w).1.is_managed w = true := by
    intro hc
    rcases managed_cases hc with hc2 | hc2
    · rw [hF] at hc2
      exact hwF hc2
    · rw [hT] at hc2
      exact h.tiling.nodup.not_mem_erase hc2
  have hm2' : ¬ (s.remove_window w).1.is_managed
      ({ info with float_or_tile := FloatOrTile.Float } : WindowWithInfo).window = true := by
    dsimp only
    rw [hkey]
    exact hm2
  rw [float_or_tile_window.eq_def, hinfo]
  dsimp only
  rw [hok]
  dsimp only
  rw [add_window_float_eq hm2' rfl]
  refine ⟨?_, ?_, ?_, ?_⟩
  · rw [focus_window_floats]
    dsimp only
    rw [hF, hkey]
  · rw [focus_window_tiling_windows]
    dsimp only
    exact hT
  · rw [focus_window_infos]
    dsimp only
    rw [if_pos hkey.symm]
  · apply focus_window_some_ok
    apply is_managed_of_floating
    dsimp only
    simp

/-- float_or_tile_window on a floating window with stored descriptor
info: the window leaves the floating list, joins the end of the tiled
list, and keeps its stored geometry with the mode flipped to Tile. -/
theorem float_or_tile_float_spec {s : FloatingWM} (h : s.WF) {w : Window}
    {info : WindowWithInfo} (hf : s.is_floating w = true)
    (hinfo : s.infos w = some info) :
    (s.float_or_tile_window w FloatOrTile.Tile).1.floating_windows
      = s.floating_windows.erase w ∧
    (s.float_or_tile_window w FloatOrTile.Tile).1.tiling_wm.windows
      = s.tiling_wm.windows ++ [w] ∧
    (s.float_or_tile_window w FloatOrTile.Tile).1.infos w
      = some { info with float_or_tile := FloatOrTile.Tile } ∧
    (s.float_or_tile_window w FloatOrTile.Tile).2 = Except.ok () := by
  have hkey : info.window = w := h.infos_key w info hinfo
  have hwF : w ∈ s.floating_windows := by simpa [is_floating] using hf
  have hwT : w ∉ s.tiling_wm.windows := h.disj w hwF
  have hnt : ¬ s.tiling_wm.is_managed w = true := by
    intro hc
    exact hwT (by simpa [TilingWM.is_managed] using hc)
  obtain ⟨i, hpF⟩ : ∃ i, position s.floating_windows w = some i := by
    cases hp : position s.floating_windows w with
    | none => exact absurd hwF (position_eq_none_iff.mp hp)
    | some i => exact ⟨i, rfl⟩
  obtain ⟨hFl, hT, hI, hok⟩ := remove_window_float_spec h hnt hpF
  have hm2 : ¬ (s.remove_window w).1.is_managed w = true := by
    intro hc
    rcases managed_cases hc with hc2 | hc2
    · rw [hFl] at hc2
      exact h.nodupF.not_mem_erase hc2
    · rw [hT] at hc2
      exact hwT hc2
  have hm2' : ¬ (s.remove_window w).1.is_managed
      ({ info with float_or_tile := FloatOrTile.Tile } : WindowWithInfo).window = true := by
    dsimp only
    rw [hkey]
    exact hm2
  have hmt2 : ¬ (s.remove_window w).1.tiling_wm.is_managed
      ({ info with float_or_tile := FloatOrTile.Tile } : WindowWithInfo).window = true := by
    intro hc
    exact hm2' (is_managed_of_tiled (by simpa [TilingWM.is_managed] using hc))
  have hadd := @TilingWM.add_window_windows_new
    (s.remove_window w).1.tiling_wm
    { info with float_or_tile := FloatOrTile.Tile } hmt2
  rw [float_or_tile_window.eq_def, hinfo]
  dsimp only
  rw [hok]
  dsimp only
  rw [add_window_tile_eq hm2' rfl]
  refine ⟨?_, ?_, ?_, ?_⟩
  · rw [focus_window_floats]
    dsimp only
    exact hFl
  · rw [focus_window_tiling_windows]
    dsimp only
    rw [hadd.1, hT]
    dsimp only
    rw [hkey]
  · rw [focus_window_infos]
    dsimp only
    rw [if_pos hkey.symm]
  · apply focus_window_some_ok
    apply is_managed_of_tiled
    dsimp only
    rw [hadd.1]
    simp

/-- The focus-repair tail of toggle_floating does not change the
collections or the stored descriptors, and succeeds. -/
theorem toggle_floating_spec {s : FloatingWM} {w : Window}
    (hm : s.is_managed w = true)
    (hok : (s.float_or_tile_window w
      (if s.is_floating w = true then FloatOrTile.Tile
       else FloatOrTile.Float)).2 = Except.ok ()) :
    (s.toggle_floating w).1.floating_windows
      = (s.float_or_tile_window w
          (if s.is_floating w = true then FloatOrTile.Tile
           else FloatOrTile.Float)).1.floating_windows ∧
    (s.toggle_floating w).1.tiling_wm.windows
      = (s.float_or_tile_window w
          (if s.is_floating w = true then FloatOrTile.Tile
           else FloatOrTile.Float)).1.tiling_wm.windows ∧
    (s.toggle_floating w).1.infos
      = (s.float_or_tile_window w
          (if s.is_floating w = true then FloatOrTile.Tile
           else FloatOrTile.Float)).1.infos ∧
    (s.toggle_floating w).2 = Except.ok () := by
  rw [toggle_floating.eq_def, if_neg (by simpa using hm)]
  dsimp only
  rw [hok]
  dsimp only
  cases hcf : s.get_focused_window with
  | none =>
    exact ⟨focus_window_floats _ _, focus_window_tiling_windows _ _,
      focus_window_infos _ _, focus_window_none_ok _⟩
  | some cw =>
    dsimp only
    by_cases hcm : (s.float_or_tile_window w
        (if s.is_floating w = true then FloatOrTile.Tile
         else FloatOrTile.Float)).1.tiling_wm.is_managed cw = true
    · rw [if_pos hcm]
      refine ⟨rfl, TilingWM.focus_window_windows _ _, rfl, ?_⟩
      rw [TilingWM.focus_window_some_eq hcm]
    · rw [if_neg hcm]
      exact ⟨rfl, TilingWM.focus_window_windows _ _, rfl, rfl⟩

end FloatingWM

/-! ## Toggle result lemmas -/

namespace FloatingWM

/-- toggle_floating on a managed tiled window: it floats afterwards,
leaves the tiled list, and its stored descriptor keeps its geometry
with the mode flipped to Float. -/
theorem toggle_floating_tiled_result {s : FloatingWM} (h : s.WF) {w : Window}
    {info : WindowWithInfo} (ht : s.tiling_wm.is_managed w = true)
    (hinfo : s.infos w = some info) :
    (s.toggle_floating w).1.is_floating w = true ∧
    w ∉ (s.toggle_floating w).1.tiling_wm.windows ∧
    (s.toggle_floating w).1.infos w
      = some { info with float_or_tile := FloatOrTile.Float } ∧
    (s.toggle_floating w).2 = Except.ok () := by
  have hm : s.is_managed w = true :=
    is_managed_of_tiled (by simpa [TilingWM.is_managed] using ht)
  have hwT : w ∈ s.tiling_wm.windows := by simpa [TilingWM.is_managed] using ht
  have hfl : ¬ s.is_floating w = true := by
    intro hc
    exact h.disj w (by simpa [is_floating] using hc) hwT
  have hif : (if s.is_floating w = true then FloatOrTile.Tile
      else FloatOrTile.Float) = FloatOrTile.Float := if_neg hfl
  obtain ⟨hF, hT, hI, hok⟩ := float_or_tile_tiled_spec h ht hinfo
  obtain ⟨fEq, tEq, iEq, tok⟩ := toggle_floating_spec hm (by rw [hif]; exact hok)
  rw [hif] at fEq tEq iEq
  refine ⟨?_, ?_, ?_, tok⟩
  · rw [is_floating, fEq, hF]
    simp
  · rw [tEq, hT]
    exact h.tiling.nodup.not_mem_erase
  · rw [iEq]
    exact hI

/-- toggle_floating on a floating window: it is tiled afterwards (at
the end of the tiled list), leaves the floating list, and its stored
descriptor keeps its geometry with the mode flipped to Tile. -/
theorem toggle_floating_float_result {s : FloatingWM} (h : s.WF) {w : Window}
    {info : WindowWithInfo} (hf : s.is_floating w = true)
    (hinfo : s.infos w = some info) :
    ¬ (s.toggle_floating w).1.is_floating w = true ∧
    w ∈ (s.toggle_floating w).1.tiling_wm.windows ∧
    (s.toggle_floating w).1.infos w
      = some { info with float_or_tile := FloatOrTile.Tile } ∧
    (s.toggle_floating w).2 = Except.ok () := by
  have hm : s.is_managed w = true :=
    is_managed_of_floating (by simpa [is_floating] using hf)
  have hif : (if s.is_floating w = true then FloatOrTile.Tile
      else FloatOrTile.Float) = FloatOrTile.Tile := if_pos hf
  obtain ⟨hF, hT, hI, hok⟩ := float_or_tile_float_spec h hf hinfo
  obtain ⟨fEq, tEq, iEq, tok⟩ := toggle_floating_spec hm (by rw [hif]; exact hok)
  rw [hif] at fEq tEq iEq
  refine ⟨?_, ?_, ?_, tok⟩
  · rw [is_floating, fEq, hF]
    intro hc
    exact h.nodupF.not_mem_erase (by simpa using hc)
  · rw [tEq, hT]
    simp
  · rw [iEq]
    exact hI

end FloatingWM

/-! ## Claim C3 -/

/-- claim C3 (amended): toggle_floating on a managed tiled window
removes it from the tiled collection and re-adds it as floating with
its STORED descriptor geometry (the geometry it was added with or last
explicitly set), not the geometry the tiling strategy computed for it;
on a floating window it re-adds it as tiled; on an unmanaged id it
fails with UnknownWindow. -/
theorem claim_C3 {s : FloatingWM} (h : s.WF) (w : Window) :
    (¬ s.is_managed w = true →
      s.toggle_floating w = (s, Except.error (WMError.UnknownWindow w))) ∧
    (∀ info, s.tiling_wm.is_managed w = true → s.infos w = some info →
      (s.toggle_floating w).1.is_floating w = true ∧
      w ∉ (s.toggle_floating w).1.tiling_wm.windows ∧
      (s.toggle_floating w).1.infos w
        = some { info with float_or_tile := FloatOrTile.Float } ∧
      (s.toggle_floating w).2 = Except.ok ()) ∧
    (∀ info, s.is_floating w = true → s.infos w = some info →
      ¬ (s.toggle_floating w).1.is_floating w = true ∧
      w ∈ (s.toggle_floating w).1.tiling_wm.windows ∧
      (s.toggle_floating w).1.infos w
        = some { info with float_or_tile := FloatOrTile.Tile } ∧
      (s.toggle_floating w).2 = Except.ok ()) := by
  refine ⟨fun hm => FloatingWM.toggle_floating_unknown hm, ?_, ?_⟩
  · intro info ht hinfo
    exact FloatingWM.toggle_floating_tiled_result h ht hinfo
  · intro info hf hinfo
    exact FloatingWM.toggle_floating_float_result h hf hinfo

instance {α β : Type} [DecidableEq α] [DecidableEq β] : DecidableEq (Except α β) :=
  fun a b =>
    match a, b with
    | Except.ok x, Except.ok y =>
      if h : x = y then isTrue (congrArg Except.ok h)
      else isFalse (fun hc => h (Except.ok.inj hc))
    | Except.error x, Except.error y =>
      if h : x = y then isTrue (congrArg Except.error h)
      else isFalse (fun hc => h (Except.error.inj hc))
    | Except.ok _, Except.error _ => isFalse (fun hc => Except.noConfusion hc)
    | Except.error _, Except.ok _ => isFalse (fun hc => Except.noConfusion hc)

/-- Two tiled windows 1, 2 added with explicit geometry 10 by 10 on a
100 by 100 screen. -/
def c3state : FloatingWM :=
  (((FloatingWM.new { width := 100, height := 100 }).add_window
    { window := 1, geometry := { x := 0, y := 0, width := 10, height := 10 },
      float_or_tile := FloatOrTile.Tile, fullscreen := false }).1.add_window
    { window := 2, geometry := { x := 0, y := 0, width := 10, height := 10 },
      float_or_tile := FloatOrTile.Tile, fullscreen := false }).1

/-- claim C3 counterexample: the tiling strategy computes the left half
of the screen for tiled window 1 at the moment of the toggle, but after
toggle_floating(1) the window floats at its stored 10 by 10 add-time
geometry, not at the computed left half. -/
theorem claim_C3_counterexample :
    FloatingWM.Reachable c3state ∧
    c3state.tiling_wm.is_managed 1 = true ∧
    c3state.get_window_info 1 = Except.ok
      { window := 1, geometry := { x := 0, y := 0, width := 50, height := 100 },
        float_or_tile := FloatOrTile.Tile, fullscreen := false } ∧
    (c3state.toggle_floating 1).1.is_floating 1 = true ∧
    ¬ ((c3state.toggle_floating 1).1.get_window_info 1 = Except.ok
      { window := 1, geometry := { x := 0, y := 0, width := 50, height := 100 },
        float_or_tile := FloatOrTile.Float, fullscreen := false }) ∧
    (c3state.toggle_floating 1).1.get_window_info 1 = Except.ok
      { window := 1, geometry := { x := 0, y := 0, width := 10, height := 10 },
        float_or_tile := FloatOrTile.Float, fullscreen := false } := by
  refine ⟨?_, by decide, by decide, by decide, by decide, by decide⟩
  exact FloatingWM.Reachable.add_window
    (FloatingWM.Reachable.add_window (FloatingWM.Reachable.new _) _) _

/-- Witness for claim C3 at the two-tiled-window state. -/
theorem claim_C3_witness :
    (c3state.toggle_floating 1).1.is_floating 1 = true ∧
    1 ∉ (c3state.toggle_floating 1).1.tiling_wm.windows ∧
    (c3state.toggle_floating 1).1.infos 1
      = some { window := 1, geometry := { x := 0, y := 0, width := 10, height := 10 },
               float_or_tile := FloatOrTile.Float, fullscreen := false } ∧
    (c3state.toggle_floating 1).2 = Except.ok () := by
  have h : c3state.WF :=
    FloatingWM.reachable_WF_f (FloatingWM.Reachable.add_window
      (FloatingWM.Reachable.add_window (FloatingWM.Reachable.new _) _) _)
  exact (claim_C3 h 1).2.1
    { window := 1, geometry := { x := 0, y := 0, width := 10, height := 10 },
      float_or_tile := FloatOrTile.Tile, fullscreen := false }
    (by decide) (by decide)

namespace FloatingWM

theorem focus_none_spec (t : FloatingWM) :
    (t.focus_window none).1.get_focused_window = none ∧
    (t.focus_window none).2 = Except.ok () := by
  rw [focus_window_none_eq_f]
  refine ⟨?_, rfl⟩
  rw [get_focused_window.eq_def]
  dsimp only
  exact TilingWM.get_focused_window_none rfl

theorem focus_self_none {t : FloatingWM} (h1 : t.get_focused_window = none) :
    (t.focus_window t.get_focused_window).1.get_focused_window = none ∧
    (t.focus_window t.get_focused_window).2 = Except.ok () := by
  rw [h1]
  exact focus_none_spec t

/-- Removing a floating window strictly after the focused one leaves
the focus untouched. -/
theorem remove_float_untouched {s : FloatingWM} (h : s.WF) {w : Window} {i j : Nat}
    (hnt : ¬ s.tiling_wm.is_managed w = true)
    (hp : position s.floating_windows w = some i)
    (hj : s.focused_index = some j) (hij : ¬ i ≤ j) :
    (s.remove_window w).1.focused_index = some j ∧
    (s.remove_window w).1.floating_windows = s.floating_windows.eraseIdx i ∧
    (s.remove_window w).1.tiling_wm = s.tiling_wm ∧
    (s.remove_window w).2 = Except.ok () := by
  have hi := position_lt hp
  have hjlen := h.fidx j hj
  have hne2 : ¬ ({ s with
      infos := fun w2 => if w2 = w then none else s.infos w2,
      stack_order_floating_windows := s.stack_order_floating_windows.erase w,
      floating_windows := s.floating_windows.eraseIdx i } : FloatingWM).get_windows.length
      = 0 := by
    rw [get_windows, TilingWM.get_windows, get_floating_windows]
    rw [List.length_append, List.length_eraseIdx, if_pos hi]
    omega
  have heq : s.remove_window w =
      ({ s with infos := fun w2 => if w2 = w then none else s.infos w2,
                stack_order_floating_windows := s.stack_order_floating_windows.erase w,
                floating_windows := s.floating_windows.eraseIdx i }, Except.ok ()) := by
    rw [remove_window_float_eq hnt hp]
    dsimp only
    rw [if_neg hne2]
    rw [hj]
    dsimp only
    rw [if_neg hij]
  rw [heq]
  exact ⟨hj, rfl, rfl, rfl⟩

/-- Removing a floating window at or before the focused index, not at
index 0: the float at the previous insertion index becomes focused. -/
theorem remove_float_pred {s : FloatingWM} (h : s.WF) {w : Window} {i j : Nat}
    (hnt : ¬ s.tiling_wm.is_managed w = true)
    (hp : position s.floating_windows w = some i)
    (hj : s.focused_index = some j) (hij : i ≤ j) (hi0 : i ≠ 0) :
    (s.remove_window w).1.get_focused_window
      = some (s.floating_windows.getD (i - 1) 0) ∧
    (s.remove_window w).1.floating_windows = s.floating_windows.eraseIdx i ∧
    (s.remove_window w).2 = Except.ok () := by
  have hi := position_lt hp
  have hjlen := h.fidx j hj
  have hne2 : ¬ ({ s with
      infos := fun w2 => if w2 = w then none else s.infos w2,
      stack_order_floating_windows := s.stack_order_floating_windows.erase w,
      floating_windows := s.floating_windows.eraseIdx i } : FloatingWM).get_windows.length
      = 0 := by
    rw [get_windows, TilingWM.get_windows, get_floating_windows]
    rw [List.length_append, List.length_eraseIdx, if_pos hi]
    omega
  have hch2 : ({ s with
      infos := fun w2 => if w2 = w then none else s.infos w2,
      stack_order_floating_windows := s.stack_order_floating_windows.erase w,
      floating_windows := s.floating_windows.eraseIdx i,
      focused_index := some j } : FloatingWM).cycle_index_helper
      i PrevOrNext.Prev = some (i - 1) := by
    rw [cycle_index_helper]
    rw [if_neg (by simpa using hi0)]
    rw [List.length_eraseIdx, if_pos hi]
    have h2 : i + (s.floating_windows.length - 1) - 1
        = (i - 1) + (s.floating_windows.length - 1) := by omega
    rw [h2, Nat.add_mod_right]
    congr 1
    exact Nat.mod_eq_of_lt (by omega)
  have hgd : (s.floating_windows.eraseIdx i).getD (i - 1) 0
      = s.floating_windows.getD (i - 1) 0 := getD_eraseIdx_of_lt _ _ _ (by omega)
  have hmem : s.floating_windows.getD (i - 1) 0 ∈ s.floating_windows.eraseIdx i := by
    rw [← hgd]
    exact getD_mem_of_lt _ _ _ (by rw [List.length_eraseIdx, if_pos hi]; omega)
  have heq : s.remove_window w =
      (({ s with infos := fun w2 => if w2 = w then none else s.infos w2,
                 stack_order_floating_windows := s.stack_order_floating_windows.erase w,
                 floating_windows := s.floating_windows.eraseIdx i,
                 focused_index := some (i - 1) } : FloatingWM).focus_window
        ({ s with infos := fun w2 => if w2 = w then none else s.infos w2,
                  stack_order_floating_windows := s.stack_order_floating_windows.erase w,
                  floating_windows := s.floating_windows.eraseIdx i,
                  focused_index := some (i - 1) } : FloatingWM).get_focused_window) := by
    rw [remove_window_float_eq hnt hp]
    dsimp only
    rw [if_neg hne2]
    rw [hj]
    dsimp only
    rw [if_pos hij]
    rw [hch2]
  have hgf : ({ s with
      infos := fun w2 => if w2 = w then none else s.infos w2,
      stack_order_floating_windows := s.stack_order_floating_windows.erase w,
      floating_windows := s.floating_windows.eraseIdx i,
      focused_index := some (i - 1) } : FloatingWM).get_focused_window
      = some (s.floating_windows.getD (i - 1) 0) := by
    rw [get_focused_window_float rfl]
    rw [hgd]
  have hm : ({ s with
      infos := fun w2 => if w2 = w then none else s.infos w2,
      stack_order_floating_windows := s.stack_order_floating_windows.erase w,
      floating_windows := s.floating_windows.eraseIdx i,
      focused_index := some (i - 1) } : FloatingWM).is_managed
      (s.floating_windows.getD (i - 1) 0) = true :=
    is_managed_of_floating hmem
  rw [heq, hgf]
  exact ⟨focus_window_get_focused hm, by rw [focus_window_floats],
    focus_window_some_ok hm⟩

/-- Removing the first floating window while a float is focused: the
focus falls back to the tiling focus, which is none under the
focus-exclusion condition, so all focus is lost. -/
theorem remove_float_first {s : FloatingWM} {w : Window} {j : Nat}
    (hnt : ¬ s.tiling_wm.is_managed w = true)
    (hp : position s.floating_windows w = some 0)
    (hj : s.focused_index = some j)
    (htn : s.tiling_wm.focused_index = none) :
    (s.remove_window w).1.get_focused_window = none ∧
    (s.remove_window w).2 = Except.ok () := by
  rw [remove_window_float_eq hnt hp]
  dsimp only
  split
  · exact focus_none_spec _
  · rw [hj]
    dsimp only
    rw [if_pos (Nat.zero_le j)]
    rw [cycle_index_helper_prev_wrap]
    refine focus_self_none ?_
    rw [get_focused_window_unfloat rfl]
    exact TilingWM.get_focused_window_none htn

/-- Removing a floating window while the focus sits in the tiling core
leaves the tiling state and the (absent) floating focus untouched. -/
theorem remove_float_tiled_focus {s : FloatingWM} (h : s.WF) {w : Window} {i jt : Nat}
    (hnt : ¬ s.tiling_wm.is_managed w = true)
    (hp : position s.floating_windows w = some i)
    (hidx : s.focused_index = none)
    (hjt : s.tiling_wm.focused_index = some jt) :
    (s.remove_window w).1.tiling_wm = s.tiling_wm ∧
    (s.remove_window w).1.focused_index = none ∧
    (s.remove_window w).2 = Except.ok () := by
  have hi := position_lt hp
  have hjlen := h.tiling.fidx jt hjt
  have hne2 : ¬ ({ s with
      infos := fun w2 => if w2 = w then none else s.infos w2,
      stack_order_floating_windows := s.stack_order_floating_windows.erase w,
      floating_windows := s.floating_windows.eraseIdx i } : FloatingWM).get_windows.length
      = 0 := by
    rw [get_windows, TilingWM.get_windows, get_floating_windows]
    rw [List.length_append, List.length_eraseIdx, if_pos hi]
    show ¬ (s.tiling_wm.windows.length + (s.floating_windows.length - 1) = 0)
    omega
  have heq : s.remove_window w =
      ({ s with infos := fun w2 => if w2 = w then none else s.infos w2,
                stack_order_floating_windows := s.stack_order_floating_windows.erase w,
                floating_windows := s.floating_windows.eraseIdx i }, Except.ok ()) := by
    rw [remove_window_float_eq hnt hp]
    dsimp only
    rw [if_neg hne2]
    rw [hidx]
  rw [heq]
  exact ⟨rfl, hidx, rfl⟩

end FloatingWM

/-! ## Claim C7 -/

/-- claim C7 (amended): remove_window on an unmanaged id fails with
UnknownWindow.  In the tiling core the focus is repaired exactly as
claimed: none when no window remains, shifted one position back
(wrapping cyclically) when the removal was at or before the focused
position, untouched otherwise.  In the float layer the focus is
repaired ONLY when the removed floating window sits at or before the
focused floating index: then the float at the previous insertion index
becomes focused, except that removing the first float drops the focus
to the tiling focus (none under focus exclusion); removing a float
strictly after the focused one leaves the focus untouched (its
predecessor does NOT become focused), and a tiled focus is left
untouched. -/
theorem claim_C7 {s : FloatingWM} (h : s.WF) (hx : s.focusExcl) :
    (∀ w, ¬ s.is_managed w = true →
      (s.remove_window w).2 = Except.error (WMError.UnknownWindow w)) ∧
    (∀ (t : TilingWM) (w : Window) (i : Nat), position t.windows w = some i →
      (t.remove_window w).1.focused_index =
        if t.windows.length - 1 = 0 then none
        else
          match t.focused_index with
          | some j =>
            if i ≤ j then
              some ((j + (t.windows.length - 1) - 1) % (t.windows.length - 1))
            else some j
          | none => none) ∧
    (∀ w i j, ¬ s.tiling_wm.is_managed w = true →
      position s.floating_windows w = some i → s.focused_index = some j →
      ¬ i ≤ j →
      (s.remove_window w).1.focused_index = some j ∧
      (s.remove_window w).2 = Except.ok ()) ∧
    (∀ w i j, ¬ s.tiling_wm.is_managed w = true →
      position s.floating_windows w = some i → s.focused_index = some j →
      i ≤ j → i ≠ 0 →
      (s.remove_window w).1.get_focused_window
        = some (s.floating_windows.getD (i - 1) 0) ∧
      (s.remove_window w).2 = Except.ok ()) ∧
    (∀ w j, ¬ s.tiling_wm.is_managed w = true →
      position s.floating_windows w = some 0 → s.focused_index = some j →
      (s.remove_window w).1.get_focused_window = none ∧
      (s.remove_window w).2 = Except.ok ()) ∧
    (∀ w i jt, ¬ s.tiling_wm.is_managed w = true →
      position s.floating_windows w = some i → s.focused_index = none →
      s.tiling_wm.focused_index = some jt →
      (s.remove_window w).1.tiling_wm = s.tiling_wm ∧
      (s.remove_window w).2 = Except.ok ()) := by
  refine ⟨?_, ?_, ?_, ?_, ?_, ?_⟩
  · intro w hm
    exact (FloatingWM.remove_window_unknown_spec h hm).2
  · intro t w i hp
    exact TilingWM.remove_window_focus hp
  · intro w i j hnt hp hj hij
    obtain ⟨a, b, c, d⟩ := FloatingWM.remove_float_untouched h hnt hp hj hij
    exact ⟨a, d⟩
  · intro w i j hnt hp hj hij hi0
    obtain ⟨a, b, c⟩ := FloatingWM.remove_float_pred h hnt hp hj hij hi0
    exact ⟨a, c⟩
  · intro w j hnt hp hj
    have htn : s.tiling_wm.focused_index = none := hx (by rw [hj]; rfl)
    exact FloatingWM.remove_float_first hnt hp hj htn
  · intro w i jt hnt hp hidx hjt
    obtain ⟨a, b, c⟩ := FloatingWM.remove_float_tiled_focus h hnt hp hidx hjt
    exact ⟨a, c⟩

/-- Two floating windows 1, 2 with window 1 focused. -/
def c7state2 : FloatingWM :=
  ((((FloatingWM.new { width := 100, height := 100 }).add_window
    { window := 1, geometry := { x := 0, y := 0, width := 10, height := 10 },
      float_or_tile := FloatOrTile.Float, fullscreen := false }).1.add_window
    { window := 2, geometry := { x := 0, y := 0, width := 10, height := 10 },
      float_or_tile := FloatOrTile.Float, fullscreen := false }).1.focus_window
    (some 1)).1

/-- claim C7 counterexample: removing floating window 3 while float 1
is focused leaves 1 focused instead of focusing 3's insertion-order
predecessor 2; and removing the focused first float 1 while float 2
remains drops the focus to none instead of keeping a neighbor
focused. -/
theorem claim_C7_counterexample :
    (FloatingWM.Reachable c2state1 ∧
     c2state1.get_focused_window = some 1 ∧
     position c2state1.floating_windows 3 = some 2 ∧
     (c2state1.remove_window 3).2 = Except.ok () ∧
     ¬ (c2state1.remove_window 3).1.get_focused_window = some 2 ∧
     (c2state1.remove_window 3).1.get_focused_window = some 1) ∧
    (FloatingWM.Reachable c7state2 ∧
     c7state2.get_focused_window = some 1 ∧
     (c7state2.remove_window 1).1.get_windows.length = 1 ∧
     (c7state2.remove_window 1).1.get_focused_window = none) := by
  refine ⟨⟨?_, by decide, by decide, by decide, by decide, by decide⟩,
    ⟨?_, by decide, by decide, by decide⟩⟩
  · exact FloatingWM.Reachable.focus_window
      (FloatingWM.Reachable.add_window
        (FloatingWM.Reachable.add_window
          (FloatingWM.Reachable.add_window (FloatingWM.Reachable.new _) _) _) _) _
  · exact FloatingWM.Reachable.focus_window
      (FloatingWM.Reachable.add_window
        (FloatingWM.Reachable.add_window (FloatingWM.Reachable.new _) _) _) _

/-- Witness for claim C7: removing float 3 behind focused float 1. -/
theorem claim_C7_witness :
    (c2state1.remove_window 3).1.focused_index = some 0 ∧
    (c2state1.remove_window 3).2 = Except.ok () := by
  have hr : FloatingWM.Reachable c2state1 :=
    FloatingWM.Reachable.focus_window
      (FloatingWM.Reachable.add_window
        (FloatingWM.Reachable.add_window
          (FloatingWM.Reachable.add_window (FloatingWM.Reachable.new _) _) _) _) _
  have h := FloatingWM.reachable_WF_f hr
  have hx : c2state1.focusExcl := by
    intro h1
    decide
  exact (claim_C7 h hx).2.2.1 3 2 0 (by decide) (by decide) (by decide) (by decide)

/-! ## Claim C9 -/

theorem MinimisingWM.add_window_ok_m (s : MinimisingWM) (wi : WindowWithInfo) :
    (s.add_window wi).2 = Except.ok () := by
  by_cases hmin : s.is_minimised wi.window = true
  · rw [MinimisingWM.add_window, if_neg (by simpa using hmin)]
  · rw [MinimisingWM.add_window, if_pos (by simpa using hmin)]
    exact FloatingWM.add_window_ok_f _ _

theorem MinimisingWM.add_window_noop_m {s : MinimisingWM} {wi : WindowWithInfo}
    (hm : s.is_managed wi.window = true) :
    s.add_window wi = (s, Except.ok ()) := by
  by_cases hmin : s.is_minimised wi.window = true
  · rw [MinimisingWM.add_window, if_neg (by simpa using hmin)]
  · have hwm : s.wrapped_wm.is_managed wi.window = true := by
      rcases Bool.or_eq_true_iff.mp (by simpa [MinimisingWM.is_managed] using hm)
        with hc | hc
      · exact absurd hc hmin
      · exact hc
    rw [MinimisingWM.add_window, if_pos (by simpa using hmin)]
    dsimp only
    rw [FloatingWM.add_window_noop_f hwm]

theorem FullscreenWM.add_window_noop_u {s : FullscreenWM} {wi : WindowWithInfo}
    (hm : s.is_managed wi.window = true) :
    s.add_window wi = (s, Except.ok ()) := by
  rw [FullscreenWM.add_window, if_pos hm]

theorem FullscreenWM.add_window_ok_u (s : FullscreenWM) (wi : WindowWithInfo) :
    (s.add_window wi).2 = Except.ok () := by
  by_cases hm : s.is_managed wi.window = true
  · rw [FullscreenWM.add_window_noop_u hm]
  · rw [FullscreenWM.add_window, if_neg hm]
    dsimp only
    by_cases hfs : wi.fullscreen = true
    · rw [if_pos hfs]
    · rw [if_neg hfs]
      exact MinimisingWM.add_window_ok_m _ _

theorem WorkspaceWM.add_window_ok_w (s : WorkspaceWM) (wi : WindowWithInfo) :
    (s.add_window wi).2 = Except.ok () := by
  rw [WorkspaceWM.add_window]
  dsimp only
  rw [FullscreenWM.add_window_ok_u]
  rfl

theorem set_get?_eq {α : Type} (l : List α) (i : Nat) (x : α)
    (h : l.get? i = some x) : l.set i x = l := by
  induction l generalizing i with
  | nil => simp at h
  | cons y ys ih =>
    cases i with
    | zero =>
      simp only [List.get?_cons_zero] at h
      cases h
      rfl
    | succ i2 =>
      simp only [List.get?_cons_succ] at h
      rw [List.set_cons_succ, ih i2 h]

theorem FullscreenWM.new_not_managed (sc : Screen) (w : Window) :
    (FullscreenWM.new sc).is_managed w = false := by
  simp [FullscreenWM.new, FullscreenWM.is_managed, FullscreenWM.is_fullscreen,
    FullscreenWM.get_fullscreen_window, MinimisingWM.new, MinimisingWM.is_managed,
    MinimisingWM.is_minimised, FloatingWM.new, FloatingWM.is_managed,
    FloatingWM.is_floating, TilingWM.new, TilingWM.is_managed]

/-- The router's duplicate check only consults the current workspace:
when the current workspace already manages the window the add is a
no-op. -/
theorem WorkspaceWM.add_window_current_noop {s : WorkspaceWM} {wi : WindowWithInfo}
    (hm : s.get_current_wm.is_managed wi.window = true) :
    s.add_window wi = (s, Except.ok ()) := by
  rw [WorkspaceWM.add_window]
  rw [FullscreenWM.add_window_noop_u hm]
  cases hq : s.wrapped_wms.get? s.current_workspace with
  | none =>
    exfalso
    rw [WorkspaceWM.get_current_wm, hq] at hm
    rw [Option.getD_none, FullscreenWM.new_not_managed] at hm
    exact Bool.noConfusion hm
  | some cur =>
    have hcur : s.get_current_wm = cur := by
      rw [WorkspaceWM.get_current_wm, hq]
      rfl
    rw [updateAt, hcur]
    dsimp only
    rw [set_get?_eq _ _ _ hq]
    rfl

/-- claim C9 (amended): add_window returns Ok at every layer for every
state and descriptor.  A duplicate add is a no-op at the tiling, float,
minimise and fullscreen layers, and at the workspace router when the
CURRENT workspace manages the window; the router's duplicate check only
consults the current workspace, so adding a window that another
workspace manages inserts a second copy (see the counterexample). -/
theorem claim_C9 :
    (∀ (t : TilingWM) (wi : WindowWithInfo), (t.add_window wi).2 = Except.ok () ∧
      (t.is_managed wi.window = true → t.add_window wi = (t, Except.ok ()))) ∧
    (∀ (f : FloatingWM) (wi : WindowWithInfo), (f.add_window wi).2 = Except.ok () ∧
      (f.is_managed wi.window = true → f.add_window wi = (f, Except.ok ()))) ∧
    (∀ (m : MinimisingWM) (wi : WindowWithInfo), (m.add_window wi).2 = Except.ok () ∧
      (m.is_managed wi.window = true → m.add_window wi = (m, Except.ok ()))) ∧
    (∀ (fs : FullscreenWM) (wi : WindowWithInfo), (fs.add_window wi).2 = Except.ok () ∧
      (fs.is_managed wi.window = true → fs.add_window wi = (fs, Except.ok ()))) ∧
    (∀ (ws : WorkspaceWM) (wi : WindowWithInfo), (ws.add_window wi).2 = Except.ok ()) ∧
    (∀ (ws : WorkspaceWM) (wi : WindowWithInfo),
      ws.get_current_wm.is_managed wi.window = true →
      ws.add_window wi = (ws, Except.ok ())) := by
  refine ⟨?_, ?_, ?_, ?_, ?_, ?_⟩
  · intro t wi
    exact ⟨TilingWM.add_window_ok_t t wi, fun hm => TilingWM.add_window_noop_t hm⟩
  · intro f wi
    exact ⟨FloatingWM.add_window_ok_f f wi, fun hm => FloatingWM.add_window_noop_f hm⟩
  · intro m wi
    exact ⟨MinimisingWM.add_window_ok_m m wi, fun hm => MinimisingWM.add_window_noop_m hm⟩
  · intro fs wi
    exact ⟨FullscreenWM.add_window_ok_u fs wi, fun hm => FullscreenWM.add_window_noop_u hm⟩
  · intro ws wi
    exact WorkspaceWM.add_window_ok_w ws wi
  · intro ws wi hm
    exact WorkspaceWM.add_window_current_noop hm

/-- Window 1 added on workspace 0, then the current workspace switched
to workspace 1. -/
def c9state : WorkspaceWM :=
  (((WorkspaceWM.new { width := 100, height := 100 }).add_window
    { window := 1, geometry := { x := 0, y := 0, width := 10, height := 10 },
      float_or_tile := FloatOrTile.Tile, fullscreen := false }).1.switch_workspace 1).1

/-- claim C9 counterexample: window 1 is already managed (on workspace
0), yet adding it again on workspace 1 succeeds AND changes the state,
inserting a second copy of the window. -/
theorem claim_C9_counterexample :
    c9state.is_managed 1 = true ∧
    (c9state.add_window
      { window := 1, geometry := { x := 0, y := 0, width := 10, height := 10 },
        float_or_tile := FloatOrTile.Tile, fullscreen := false }).2 = Except.ok () ∧
    c9state.get_windows = [1] ∧
    (c9state.add_window
      { window := 1, geometry := { x := 0, y := 0, width := 10, height := 10 },
        float_or_tile := FloatOrTile.Tile, fullscreen := false }).1.get_windows
      = [1, 1] := by
  refine ⟨by decide, by decide, by decide, by decide⟩

/-- Witness for claim C9: the router no-op at a state whose current
workspace manages the window. -/
theorem claim_C9_witness :
    ((WorkspaceWM.new { width := 100, height := 100 }).add_window
      { window := 1, geometry := { x := 0, y := 0, width := 10, height := 10 },
        float_or_tile := FloatOrTile.Tile, fullscreen := false }).1.add_window
      { window := 1, geometry := { x := 0, y := 0, width := 10, height := 10 },
        float_or_tile := FloatOrTile.Tile, fullscreen := false }
    = (((WorkspaceWM.new { width := 100, height := 100 }).add_window
      { window := 1, geometry := { x := 0, y := 0, width := 10, height := 10 },
        float_or_tile := FloatOrTile.Tile, fullscreen := false }).1, Except.ok ()) :=
  claim_C9.2.2.2.2.2 _ _ (by decide)

/-! ## Claim C8 -/

/-- claim C8: switch_workspace rejects every out-of-range index with
UnknownWorkspace and leaves the state unchanged; a valid index updates
the current workspace, repeating the call is idempotent, and switching
away and back restores the exact original state, hence the exact prior
layout (the workspaces are fully independent). -/
theorem claim_C8 (s : WorkspaceWM) (i : Nat) :
    (i > MAX_WORKSPACE_INDEX →
      s.switch_workspace i = (s, Except.error (MultiWMError.UnknownWorkspace i))) ∧
    (¬ i > MAX_WORKSPACE_INDEX →
      (s.switch_workspace i).2 = Except.ok () ∧
      (s.switch_workspace i).1.get_current_workspace_index = i ∧
      ((s.switch_workspace i).1.switch_workspace i).1 = (s.switch_workspace i).1 ∧
      (¬ s.current_workspace > MAX_WORKSPACE_INDEX →
        ((s.switch_workspace i).1.switch_workspace s.current_workspace).1 = s ∧
        ((s.switch_workspace i).1.switch_workspace
          s.current_workspace).1.get_window_layout = s.get_window_layout)) := by
  constructor
  · intro hgt
    rw [WorkspaceWM.switch_workspace, if_pos hgt]
  · intro hle
    rw [WorkspaceWM.switch_workspace, if_neg hle]
    refine ⟨rfl, rfl, ?_, ?_⟩
    · rw [WorkspaceWM.switch_workspace, if_neg hle]
    · intro hc
      have hback : (({ s with current_workspace := i } :
          WorkspaceWM).switch_workspace s.current_workspace).1 = s := by
        rw [WorkspaceWM.switch_workspace, if_neg hc]
      exact ⟨hback, by rw [hback]⟩

/-- Witness for claim C8 on a fresh router: switching to workspace 1
and back to workspace 0 restores the initial state, and workspace 9 is
rejected. -/
theorem claim_C8_witness :
    ((WorkspaceWM.new { width := 800, height := 600 }).switch_workspace
      1).1.get_current_workspace_index = 1 ∧
    (((WorkspaceWM.new { width := 800, height := 600 }).switch_workspace
      1).1.switch_workspace
      (WorkspaceWM.new { width := 800, height := 600 }).current_workspace).1
      = WorkspaceWM.new { width := 800, height := 600 } ∧
    (WorkspaceWM.new { width := 800, height := 600 }).switch_workspace 9
      = (WorkspaceWM.new { width := 800, height := 600 },
         Except.error (MultiWMError.UnknownWorkspace 9)) := by
  refine ⟨((claim_C8 (WorkspaceWM.new { width := 800, height := 600 }) 1).2
    (by decide)).2.1, ?_, ?_⟩
  · exact (((claim_C8 (WorkspaceWM.new { width := 800, height := 600 }) 1).2
      (by decide)).2.2.2 (by decide)).1
  · exact (claim_C8 (WorkspaceWM.new { width := 800, height := 600 }) 9).1 (by decide)

/-! ## Frame lemmas: the float-layer operations and the managed set -/

namespace FloatingWM

theorem refocus_frame (t : FloatingWM) :
    (refocus t).floating_windows = t.floating_windows ∧
    (refocus t).tiling_wm.windows = t.tiling_wm.windows ∧
    (refocus t).infos = t.infos ∧
    (refocus t).tiling_wm.screen = t.tiling_wm.screen :=
  ⟨focus_window_floats t _, focus_window_tiling_windows t _,
   focus_window_infos t _, focus_window_screen t _⟩

/-- cycle_focus never changes the window collections, the stored
descriptors or the screen, from any state. -/
theorem cycle_focus_fuel_frame : ∀ (fuel : Nat) (s : FloatingWM) (d : PrevOrNext),
    (cycle_focus_fuel fuel s d).floating_windows = s.floating_windows ∧
    (cycle_focus_fuel fuel s d).tiling_wm.windows = s.tiling_wm.windows ∧
    (cycle_focus_fuel fuel s d).infos = s.infos ∧
    (cycle_focus_fuel fuel s d).tiling_wm.screen = s.tiling_wm.screen := by
  intro fuel
  induction fuel with
  | zero =>
    intro s d
    rw [cycle_fuel_zero]
    exact ⟨rfl, rfl, rfl, rfl⟩
  | succ n ih =>
    intro s d
    by_cases hg : s.get_focused_window = none
    · by_cases hl : s.floating_windows.length ≥ 1
      · cases d with
        | Prev =>
          rw [cycle_fuel_unfocused_prev_eq hg hl n]
          exact refocus_frame _
        | Next =>
          rw [cycle_fuel_unfocused_next_eq hg hl n]
          exact refocus_frame _
      · rw [cycle_fuel_unfocused_notile_eq hg hl n d]
        obtain ⟨f1, t1, i1, s1⟩ := refocus_frame
          { s with tiling_wm := s.tiling_wm.cycle_focus d }
        exact ⟨f1, t1.trans (TilingWM.cycle_focus_windows _ _), i1, s1⟩
    · cases hio : s.focused_index with
      | some i =>
        cases hch : s.cycle_index_helper i d with
        | some m =>
          rw [cycle_fuel_float_interior_eq hg hio hch n]
          exact refocus_frame _
        | none =>
          by_cases hb : (s.tiling_wm.cycle_focus d).get_focused_window = none
          · rw [cycle_fuel_float_wrap_rec_eq hg hio hch hb n]
            obtain ⟨f2, t2, i2, s2⟩ := ih
              { s with focused_index := none, tiling_wm := s.tiling_wm.cycle_focus d } d
            obtain ⟨f1, t1, i1, s1⟩ := refocus_frame _
            exact ⟨f1.trans f2, t1.trans (t2.trans (TilingWM.cycle_focus_windows _ _)),
              i1.trans i2, s1.trans s2⟩
          · rw [cycle_fuel_float_wrap_stay_eq hg hio hch hb n]
            obtain ⟨f1, t1, i1, s1⟩ := refocus_frame
              { s with focused_index := none, tiling_wm := s.tiling_wm.cycle_focus d }
            exact ⟨f1, t1.trans (TilingWM.cycle_focus_windows _ _), i1, s1⟩
      | none =>
        by_cases hb : (s.tiling_wm.cycle_focus_helper d).get_focused_window = none
        · rw [cycle_fuel_tiled_rec_eq hg hio hb n]
          obtain ⟨f2, t2, i2, s2⟩ := ih
            { s with tiling_wm := s.tiling_wm.cycle_focus_helper d } d
          obtain ⟨f1, t1, i1, s1⟩ := refocus_frame _
          exact ⟨f1.trans f2,
            t1.trans (t2.trans (TilingWM.cycle_focus_helper_windows _ _)),
            i1.trans i2,
            s1.trans (s2.trans (TilingWM.cycle_focus_helper_screen _ _))⟩
        · rw [cycle_fuel_tiled_stay_eq hg hio hb n]
          obtain ⟨f1, t1, i1, s1⟩ := refocus_frame
            { s with tiling_wm := s.tiling_wm.cycle_focus_helper d }
          exact ⟨f1, t1.trans (TilingWM.cycle_focus_helper_windows _ _), i1,
            s1.trans (TilingWM.cycle_focus_helper_screen _ _)⟩

theorem cycle_focus_frame (s : FloatingWM) (d : PrevOrNext) :
    (s.cycle_focus d).floating_windows = s.floating_windows ∧
    (s.cycle_focus d).tiling_wm.windows = s.tiling_wm.windows ∧
    (s.cycle_focus d).infos = s.infos ∧
    (s.cycle_focus d).tiling_wm.screen = s.tiling_wm.screen :=
  cycle_focus_fuel_frame 2 s d

theorem focus_window_managed (s : FloatingWM) (ow : Option Window) (x : Window) :
    (s.focus_window ow).1.is_managed x = s.is_managed x :=
  is_managed_congr (focus_window_floats s ow) (focus_window_tiling_windows s ow) x

theorem cycle_focus_managed (s : FloatingWM) (d : PrevOrNext) (x : Window) :
    (s.cycle_focus d).is_managed x = s.is_managed x :=
  is_managed_congr (cycle_focus_frame s d).1 (cycle_focus_frame s d).2.1 x

theorem resize_screen_managed_f (s : FloatingWM) (sc : Screen) (x : Window) :
    (s.resize_screen sc).is_managed x = s.is_managed x :=
  is_managed_congr rfl rfl x

theorem set_gap_managed (s : FloatingWM) (g : Nat) (x : Window) :
    (s.set_gap g).is_managed x = s.is_managed x :=
  is_managed_congr rfl rfl x

end FloatingWM

namespace FloatingWM

theorem managed_iff (s : FloatingWM) (x : Window) :
    s.is_managed x = true ↔ (x ∈ s.floating_windows ∨ x ∈ s.tiling_wm.windows) := by
  simp [is_managed, is_floating, TilingWM.is_managed]

theorem add_window_managed_f (s : FloatingWM) (wi : WindowWithInfo) (x : Window) :
    (s.add_window wi).1.is_managed x = (s.is_managed x || (x == wi.window)) := by
  by_cases hm : s.is_managed wi.window = true
  · rw [add_window_noop_f hm]
    by_cases hx : x = wi.window
    · subst hx
      simp [hm]
    · simp [hx]
  · cases hfl : wi.float_or_tile with
    | Float =>
      rw [add_window_float_eq hm hfl, focus_window_managed]
      rw [Bool.eq_iff_iff]
      simp only [Bool.or_eq_true, beq_iff_eq]
      rw [managed_iff, managed_iff]
      dsimp only
      simp only [List.mem_append, List.mem_singleton]
      tauto
    | Tile =>
      have hnt : ¬ s.tiling_wm.is_managed wi.window = true := by
        intro hc
        exact hm (is_managed_of_tiled (by simpa [TilingWM.is_managed] using hc))
      have hadd := @TilingWM.add_window_windows_new s.tiling_wm wi hnt
      rw [add_window_tile_eq hm hfl, focus_window_managed]
      rw [Bool.eq_iff_iff]
      simp only [Bool.or_eq_true, beq_iff_eq]
      rw [managed_iff, managed_iff]
      dsimp only
      rw [hadd.1]
      simp only [List.mem_append, List.mem_singleton]
      tauto

theorem remove_window_managed_f {s : FloatingWM} (h : s.WF) (w x : Window) :
    (s.remove_window w).1.is_managed x
      = if x = w then false else s.is_managed x := by
  by_cases hm : s.is_managed w = true
  · rcases managed_cases hm with hc | hc
    · -- floating
      have hnt : ¬ s.tiling_wm.is_managed w = true := by
        intro hc2
        exact h.disj w hc (by simpa [TilingWM.is_managed] using hc2)
      obtain ⟨i, hpF⟩ : ∃ i, position s.floating_windows w = some i := by
        cases hp : position s.floating_windows w with
        | none => exact absurd hc (position_eq_none_iff.mp hp)
        | some i => exact ⟨i, rfl⟩
      obtain ⟨hF, hT, hI, hok⟩ := remove_window_float_spec h hnt hpF
      by_cases hx : x = w
      · subst hx
        rw [if_pos rfl]
        rw [Bool.eq_iff_iff]
        rw [managed_iff, hF, hT]
        simp only [Bool.false_eq_true, iff_false]
        intro hcon
        rcases hcon with hd | hd
        · exact h.nodupF.not_mem_erase hd
        · exact h.disj x hc hd
      · rw [if_neg hx]
        rw [Bool.eq_iff_iff]
        rw [managed_iff, managed_iff, hF, hT, List.mem_erase_of_ne hx]
    · -- tiled
      have ht : s.tiling_wm.is_managed w = true := by
        simpa [TilingWM.is_managed] using hc
      obtain ⟨i, hpT⟩ : ∃ i, position s.tiling_wm.windows w = some i := by
        cases hp : position s.tiling_wm.windows w with
        | none => exact absurd hc (position_eq_none_iff.mp hp)
        | some i => exact ⟨i, rfl⟩
      obtain ⟨hF, hS, hT, hI, hfi, hok⟩ := remove_window_tiled_spec ht hpT
      by_cases hx : x = w
      · subst hx
        rw [if_pos rfl]
        rw [Bool.eq_iff_iff]
        rw [managed_iff, hF, hT]
        simp only [Bool.false_eq_true, iff_false]
        intro hcon
        rcases hcon with hd | hd
        · exact h.disj x hd hc
        · exact h.tiling.nodup.not_mem_erase hd
      · rw [if_neg hx]
        rw [Bool.eq_iff_iff]
        rw [managed_iff, managed_iff, hF, hT, List.mem_erase_of_ne hx]
  · obtain ⟨heq, herr⟩ := remove_window_unknown_spec h hm
    rw [heq]
    have h1 : ({ s with
        infos := fun w2 => if w2 = w then none else s.infos w2 } : FloatingWM).is_managed x
        = s.is_managed x := is_managed_congr rfl rfl x
    rw [h1]
    by_cases hx : x = w
    · subst hx
      rw [if_pos rfl]
      simpa using hm
    · rw [if_neg hx]

theorem toggle_floating_managed {s : FloatingWM} (h : s.WF) (w x : Window) :
    (s.toggle_floating w).1.is_managed x = s.is_managed x := by
  by_cases hm : s.is_managed w = true
  · obtain ⟨info, hinfo⟩ : ∃ info, s.infos w = some info := by
      cases hq : s.infos w with
      | none =>
        have := h.infos_mem w hm
        rw [hq] at this
        simp at this
      | some info => exact ⟨info, rfl⟩
    rcases managed_cases hm with hc | hc
    · -- floating: flips to Tile
      have hf : s.is_floating w = true := by simpa [is_floating] using hc
      have hif : (if s.is_floating w = true then FloatOrTile.Tile
          else FloatOrTile.Float) = FloatOrTile.Tile := if_pos hf
      obtain ⟨hF, hT, hI, hok⟩ := float_or_tile_float_spec h hf hinfo
      obtain ⟨fEq, tEq, iEq, tok⟩ := toggle_floating_spec hm (by rw [hif]; exact hok)
      rw [hif] at fEq tEq
      rw [Bool.eq_iff_iff]
      rw [managed_iff, managed_iff, fEq, tEq, hF, hT]
      simp only [List.mem_append, List.mem_singleton]
      by_cases hx : x = w
      · subst hx
        simp [hc]
      · rw [List.mem_erase_of_ne hx]
        tauto
    · -- tiled: flips to Float
      have ht : s.tiling_wm.is_managed w = true := by
        simpa [TilingWM.is_managed] using hc
      have hfl : ¬ s.is_floating w = true := by
        intro hc2
        exact h.disj w (by simpa [is_floating] using hc2) hc
      have hif : (if s.is_floating w = true then FloatOrTile.Tile
          else FloatOrTile.Float) = FloatOrTile.Float := if_neg hfl
      obtain ⟨hF, hT, hI, hok⟩ := float_or_tile_tiled_spec h ht hinfo
      obtain ⟨fEq, tEq, iEq, tok⟩ := toggle_floating_spec hm (by rw [hif]; exact hok)
      rw [hif] at fEq tEq
      rw [Bool.eq_iff_iff]
      rw [managed_iff, managed_iff, fEq, tEq, hF, hT]
      simp only [List.mem_append, List.mem_singleton]
      by_cases hx : x = w
      · subst hx
        simp [hc]
      · rw [List.mem_erase_of_ne hx]
        tauto
  · rw [toggle_floating_unknown hm]

theorem set_window_geometry_managed_f (s : FloatingWM) (w : Window) (g : Geometry)
    (x : Window) :
    (s.set_window_geometry w g).1.is_managed x = s.is_managed x := by
  rw [set_window_geometry.eq_def]
  by_cases hm : ¬ s.is_managed w = true
  · rw [if_pos hm]
  · rw [if_neg hm]
    cases hi : s.infos w with
    | none => rfl
    | some info =>
      exact is_managed_congr rfl rfl x

theorem swap_with_master_managed {s : FloatingWM} (h : s.WF) (w x : Window) :
    (s.swap_with_master w).1.is_managed x = s.is_managed x := by
  rw [swap_with_master.eq_def]
  by_cases hm : ¬ s.is_managed w = true
  · rw [if_pos hm]
  · rw [if_neg hm]
    dsimp only
    have hm2 : s.is_managed w = true := by simpa using hm
    have hp1 : ∀ x2, ((if s.floating_windows.contains w = true
        then s.float_or_tile_window w FloatOrTile.Tile
        else (s, Except.ok ())).1).is_managed x2 = s.is_managed x2 := by
      intro x2
      by_cases hcw : s.floating_windows.contains w = true
      · rw [if_pos hcw]
        have hf : s.is_floating w = true := hcw
        obtain ⟨info, hinfo⟩ : ∃ info, s.infos w = some info := by
          cases hq : s.infos w with
          | none =>
            have := h.infos_mem w hm2
            rw [hq] at this
            simp at this
          | some info => exact ⟨info, rfl⟩
        obtain ⟨hF, hT, hI, hok⟩ := float_or_tile_float_spec h hf hinfo
        rw [Bool.eq_iff_iff]
        rw [managed_iff, managed_iff, hF, hT]
        simp only [List.mem_append, List.mem_singleton]
        by_cases hx : x2 = w
        · subst hx
          have hcm : x2 ∈ s.floating_windows := by simpa [is_floating] using hf
          simp [hcm]
        · rw [List.mem_erase_of_ne hx]
          tauto
      · rw [if_neg hcw]
    have hwf1 : ((if s.floating_windows.contains w = true
        then s.float_or_tile_window w FloatOrTile.Tile
        else (s, Except.ok ())).1).WF := by
      by_cases hcw : s.floating_windows.contains w = true
      · rw [if_pos hcw]
        exact float_or_tile_window_WF h w FloatOrTile.Tile
      · rw [if_neg hcw]
        exact h
    cases hp : (if s.floating_windows.contains w = true
        then s.float_or_tile_window w FloatOrTile.Tile
        else (s, Except.ok ())).2 with
    | error e =>
      exact hp1 x
    | ok u =>
      dsimp only
      rw [← hp1 x]
      rw [Bool.eq_iff_iff]
      rw [managed_iff, managed_iff]
      dsimp only
      rw [TilingWM.swap_with_master_mem]

theorem swap_windows_managed {s : FloatingWM} (h : s.WF) (d : PrevOrNext)
    (x : Window) : (s.swap_windows d).is_managed x = s.is_managed x := by
  rw [swap_windows.eq_def]
  dsimp only
  have hs1m : ∀ x2, ((if s.focused_index.isSome = true then
      match s.get_focused_window with
      | some fw => (s.toggle_floating fw).1
      | none => s
      else s) : FloatingWM).is_managed x2 = s.is_managed x2 := by
    intro x2
    by_cases hc : s.focused_index.isSome = true
    · rw [if_pos hc]
      cases hg : s.get_focused_window with
      | none => rfl
      | some fw => exact toggle_floating_managed h fw x2
    · rw [if_neg hc]
  have hwf1 : ((if s.focused_index.isSome = true then
      match s.get_focused_window with
      | some fw => (s.toggle_floating fw).1
      | none => s
      else s) : FloatingWM).WF := by
    by_cases hc : s.focused_index.isSome = true
    · rw [if_pos hc]
      cases hg : s.get_focused_window with
      | none => exact h
      | some fw => exact toggle_floating_WF_f h fw
    · rw [if_neg hc]
      exact h
  rw [← hs1m x]
  rw [Bool.eq_iff_iff]
  rw [managed_iff, managed_iff]
  dsimp only
  rw [TilingWM.swap_windows_mem hwf1.tiling]

end FloatingWM

/-! ## Well-formedness of the minimise layer -/

theorem FloatingWM.get_window_info_key_f {s : FloatingWM} (h : s.WF) {w : Window}
    {wi : WindowWithInfo} (hok : s.get_window_info w = Except.ok wi) :
    wi.window = w := by
  rw [FloatingWM.get_window_info] at hok
  cases ht : s.tiling_wm.get_window_info w with
  | ok wi2 =>
    rw [ht] at hok
    cases hok
    rw [TilingWM.get_window_info] at ht
    cases hp : position s.tiling_wm.windows w with
    | none => rw [hp] at ht; exact Except.noConfusion ht
    | some i =>
      rw [hp] at ht
      cases ht
      rfl
  | error e =>
    rw [ht] at hok
    cases hi : s.infos w with
    | none => rw [hi] at hok; exact Except.noConfusion hok
    | some wi2 =>
      rw [hi] at hok
      cases hok
      exact h.infos_key w wi2 hi

namespace MinimisingWM

/-- Well-formed minimise-layer state: the wrapped float layer is
well-formed, no minimised window is still managed below, and the frozen
descriptors carry matching keys. -/
structure WF (m : MinimisingWM) : Prop where
  float : m.wrapped_wm.WF
  disj : ∀ w, m.is_minimised w = true → m.wrapped_wm.is_managed w = false
  key : ∀ w wi, m.infos w = some wi → wi.window = w

theorem WF_new_m (screen : Screen) : (MinimisingWM.new screen).WF :=
  { float := FloatingWM.WF_new_f screen
    disj := by
      intro w hw
      simp [MinimisingWM.new, is_minimised] at hw
    key := by
      intro w wi hwi
      simp [MinimisingWM.new] at hwi }

/-- A delegating operation that preserves the wrapped well-formedness
and the wrapped managed set preserves the minimise-layer
well-formedness. -/
theorem WF_delegate {m : MinimisingWM} (h : m.WF) {f1 : FloatingWM}
    (hWF : f1.WF) (hman : ∀ x, f1.is_managed x = m.wrapped_wm.is_managed x) :
    ({ m with wrapped_wm := f1 } : MinimisingWM).WF :=
  { float := hWF
    disj := by
      intro w hw
      dsimp only
      rw [hman w]
      exact h.disj w hw
    key := h.key }

theorem cycle_focus_WF_m {m : MinimisingWM} (h : m.WF) (d : PrevOrNext) :
    (m.cycle_focus d).WF :=
  WF_delegate h (FloatingWM.cycle_focus_WF_f h.float d)
    (FloatingWM.cycle_focus_managed m.wrapped_wm d)

theorem resize_screen_WF_m {m : MinimisingWM} (h : m.WF) (sc : Screen) :
    (m.resize_screen sc).WF :=
  WF_delegate h (FloatingWM.resize_screen_WF_f h.float sc)
    (FloatingWM.resize_screen_managed_f m.wrapped_wm sc)

theorem set_gap_WF_m {m : MinimisingWM} (h : m.WF) (g : Nat) :
    (m.set_gap g).WF :=
  WF_delegate h (FloatingWM.set_gap_WF_f h.float g)
    (FloatingWM.set_gap_managed m.wrapped_wm g)

theorem swap_windows_WF_m {m : MinimisingWM} (h : m.WF) (d : PrevOrNext) :
    (m.swap_windows d).WF :=
  WF_delegate h (FloatingWM.swap_windows_WF_f h.float d)
    (FloatingWM.swap_windows_managed h.float d)

theorem add_window_WF_m {m : MinimisingWM} (h : m.WF) (wi : WindowWithInfo) :
    (m.add_window wi).1.WF := by
  by_cases hmin : m.is_minimised wi.window = true
  · rw [MinimisingWM.add_window, if_neg (by simpa using hmin)]
    exact h
  · rw [MinimisingWM.add_window, if_pos (by simpa using hmin)]
    dsimp only
    refine
      { float := FloatingWM.add_window_WF_f h.float wi
        disj := ?_
        key := h.key }
    intro w hw
    dsimp only
    rw [FloatingWM.add_window_managed_f]
    have h1 : m.wrapped_wm.is_managed w = false := h.disj w hw
    have h2 : ¬ w = wi.window := by
      intro hc
      rw [hc] at hw
      exact hmin hw
    simp [h1, h2]

theorem remove_window_WF_m {m : MinimisingWM} (h : m.WF) (w : Window) :
    (m.remove_window w).1.WF := by
  by_cases hmin : m.is_minimised w = true
  · rw [MinimisingWM.remove_window, if_neg (by simpa using hmin)]
    dsimp only
    refine
      { float := h.float
        disj := ?_
        key := ?_ }
    · intro w2 hw2
      have hw2' : m.is_minimised w2 = true := by
        rw [is_minimised] at hw2 ⊢
        dsimp only at hw2
        by_cases he : w2 = w
        · rw [if_pos he] at hw2
          simp at hw2
        · rw [if_neg he] at hw2
          exact hw2
      exact h.disj w2 hw2'
    · intro w2 wi hwi
      dsimp only at hwi
      by_cases he : w2 = w
      · rw [if_pos he] at hwi
        exact Option.noConfusion hwi
      · rw [if_neg he] at hwi
        exact h.key w2 wi hwi
  · rw [MinimisingWM.remove_window, if_pos (by simpa using hmin)]
    dsimp only
    refine
      { float := FloatingWM.remove_window_WF_f h.float w
        disj := ?_
        key := h.key }
    intro w2 hw2
    dsimp only
    rw [FloatingWM.remove_window_managed_f h.float]
    by_cases he : w2 = w
    · rw [if_pos he]
    · rw [if_neg he]
      exact h.disj w2 hw2

end MinimisingWM

namespace MinimisingWM

theorem get_window_info_key_m {m : MinimisingWM} (h : m.WF) {w : Window}
    {wi : WindowWithInfo} (hok : m.get_window_info w = Except.ok wi) :
    wi.window = w := by
  rw [MinimisingWM.get_window_info] at hok
  by_cases hmin : m.is_minimised w = true
  · rw [if_pos hmin] at hok
    cases hi : m.infos w with
    | some wi2 =>
      rw [hi] at hok
      cases hok
      exact h.key w _ hi
    | none =>
      rw [hi] at hok
      exact Except.noConfusion hok
  · rw [if_neg hmin] at hok
    exact FloatingWM.get_window_info_key_f h.float hok

theorem toggle_minimised_WF_m {m : MinimisingWM} (h : m.WF) (w : Window) :
    ((m.toggle_minimised w).1).WF := by
  rw [toggle_minimised.eq_def]
  cases hgi : m.get_window_info w with
  | error e => exact h
  | ok wi =>
    dsimp only
    by_cases hmin : m.is_minimised w = true
    · rw [if_pos hmin]
      cases hp2 : (m.remove_window w).2 with
      | error e => exact remove_window_WF_m h w
      | ok u => exact add_window_WF_m (remove_window_WF_m h w) wi
    · rw [if_neg hmin]
      cases hp2 : (m.wrapped_wm.remove_window w).2 with
      | error e =>
        refine
          { float := FloatingWM.remove_window_WF_f h.float w
            disj := ?_
            key := h.key }
        intro w2 hw2
        dsimp only
        rw [FloatingWM.remove_window_managed_f h.float]
        by_cases he : w2 = w
        · rw [if_pos he]
        · rw [if_neg he]
          exact h.disj w2 hw2
      | ok u =>
        dsimp only
        refine
          { float := FloatingWM.remove_window_WF_f h.float w
            disj := ?_
            key := ?_ }
        · intro w2 hw2
          dsimp only
          rw [FloatingWM.remove_window_managed_f h.float]
          by_cases he : w2 = w
          · rw [if_pos he]
          · rw [if_neg he]
            apply h.disj w2
            rw [is_minimised] at hw2 ⊢
            dsimp only at hw2
            rw [if_neg he] at hw2
            exact hw2
        · intro w2 wi2 hwi
          dsimp only at hwi
          by_cases he : w2 = w
          · rw [if_pos he] at hwi
            cases hwi
            rw [he]
            exact get_window_info_key_m h hgi
          · rw [if_neg he] at hwi
            exact h.key w2 wi2 hwi

theorem focus_window_WF_m {m : MinimisingWM} (h : m.WF) (ow : Option Window) :
    ((m.focus_window ow).1).WF := by
  rw [MinimisingWM.focus_window.eq_def]
  dsimp only
  have hstep : ((match ow with
      | some w =>
        if m.is_minimised w = true then m.toggle_minimised w else (m, Except.ok ())
      | none => (m, Except.ok ())).1).WF := by
    cases ow with
    | none => exact h
    | some w =>
      dsimp only
      by_cases hmin : m.is_minimised w = true
      · rw [if_pos hmin]
        exact toggle_minimised_WF_m h w
      · rw [if_neg hmin]
        exact h
  cases hp2 : (match ow with
      | some w =>
        if m.is_minimised w = true then m.toggle_minimised w else (m, Except.ok ())
      | none => (m, Except.ok ())).2 with
  | error e => exact hstep
  | ok u =>
    exact WF_delegate hstep (FloatingWM.focus_window_WF_f hstep.float ow)
      (FloatingWM.focus_window_managed _ ow)

theorem swap_with_master_WF_m {m : MinimisingWM} (h : m.WF) (w : Window) :
    ((m.swap_with_master w).1).WF := by
  rw [MinimisingWM.swap_with_master]
  dsimp only
  have hstep : ((if m.is_minimised w = true then m.toggle_minimised w
      else (m, Except.ok ())).1).WF := by
    by_cases hmin : m.is_minimised w = true
    · rw [if_pos hmin]
      exact toggle_minimised_WF_m h w
    · rw [if_neg hmin]
      exact h
  cases hp2 : (if m.is_minimised w = true then m.toggle_minimised w
      else (m, Except.ok ())).2 with
  | error e => exact hstep
  | ok u =>
    exact WF_delegate hstep (FloatingWM.swap_with_master_WF_f hstep.float w)
      (FloatingWM.swap_with_master_managed hstep.float w)

theorem toggle_floating_WF_m {m : MinimisingWM} (h : m.WF) (w : Window) :
    ((m.toggle_floating w).1).WF := by
  rw [MinimisingWM.toggle_floating]
  dsimp only
  have hstep : ((if m.is_minimised w = true then m.toggle_minimised w
      else (m, Except.ok ())).1).WF := by
    by_cases hmin : m.is_minimised w = true
    · rw [if_pos hmin]
      exact toggle_minimised_WF_m h w
    · rw [if_neg hmin]
      exact h
  cases hp2 : (if m.is_minimised w = true then m.toggle_minimised w
      else (m, Except.ok ())).2 with
  | error e => exact hstep
  | ok u =>
    exact WF_delegate hstep (FloatingWM.toggle_floating_WF_f hstep.float w)
      (FloatingWM.toggle_floating_managed hstep.float w)

theorem set_window_geometry_WF_m {m : MinimisingWM} (h : m.WF) (w : Window)
    (g : Geometry) : ((m.set_window_geometry w g).1).WF := by
  rw [MinimisingWM.set_window_geometry]
  by_cases hmin : m.is_minimised w = true
  · rw [if_pos hmin]
    cases hi : m.infos w with
    | none => exact h
    | some wi =>
      dsimp only
      refine
        { float := h.float
          disj := ?_
          key := ?_ }
      · intro w2 hw2
        dsimp only
        by_cases he : w2 = w
        · rw [he]
          exact h.disj w hmin
        · apply h.disj w2
          rw [is_minimised] at hw2 ⊢
          dsimp only at hw2
          rw [if_neg he] at hw2
          exact hw2
      · intro w2 wi2 hwi
        dsimp only at hwi
        by_cases he : w2 = w
        · rw [if_pos he] at hwi
          cases hwi
          dsimp only
          rw [h.key w wi hi, he]
        · rw [if_neg he] at hwi
          exact h.key w2 wi2 hwi
  · rw [if_neg hmin]
    dsimp only
    exact WF_delegate h (FloatingWM.set_window_geometry_WF_f h.float w g)
      (FloatingWM.set_window_geometry_managed_f m.wrapped_wm w g)

/-- Minimise-layer states reachable through the public API from a fresh
manager. -/
inductive Reachable : MinimisingWM → Prop where
  | new (screen : Screen) : Reachable (MinimisingWM.new screen)
  | add_window {m : MinimisingWM} (h : Reachable m) (wi : WindowWithInfo) :
      Reachable ((m.add_window wi).1)
  | remove_window {m : MinimisingWM} (h : Reachable m) (w : Window) :
      Reachable ((m.remove_window w).1)
  | focus_window {m : MinimisingWM} (h : Reachable m) (ow : Option Window) :
      Reachable ((m.focus_window ow).1)
  | cycle_focus {m : MinimisingWM} (h : Reachable m) (d : PrevOrNext) :
      Reachable (m.cycle_focus d)
  | resize_screen {m : MinimisingWM} (h : Reachable m) (sc : Screen) :
      Reachable (m.resize_screen sc)
  | toggle_minimised {m : MinimisingWM} (h : Reachable m) (w : Window) :
      Reachable ((m.toggle_minimised w).1)
  | toggle_floating {m : MinimisingWM} (h : Reachable m) (w : Window) :
      Reachable ((m.toggle_floating w).1)
  | set_window_geometry {m : MinimisingWM} (h : Reachable m) (w : Window) (g : Geometry) :
      Reachable ((m.set_window_geometry w g).1)
  | swap_with_master {m : MinimisingWM} (h : Reachable m) (w : Window) :
      Reachable ((m.swap_with_master w).1)
  | swap_windows {m : MinimisingWM} (h : Reachable m) (d : PrevOrNext) :
      Reachable (m.swap_windows d)
  | set_gap {m : MinimisingWM} (h : Reachable m) (g : Nat) :
      Reachable (m.set_gap g)

/-- Every reachable minimise-layer state is well-formed. -/
theorem reachable_WF_m {m : MinimisingWM} (h : Reachable m) : m.WF := by
  induction h with
  | new screen => exact WF_new_m screen
  | add_window _ wi ih => exact add_window_WF_m ih wi
  | remove_window _ w ih => exact remove_window_WF_m ih w
  | focus_window _ ow ih => exact focus_window_WF_m ih ow
  | cycle_focus _ d ih => exact cycle_focus_WF_m ih d
  | resize_screen _ sc ih => exact resize_screen_WF_m ih sc
  | toggle_minimised _ w ih => exact toggle_minimised_WF_m ih w
  | toggle_floating _ w ih => exact toggle_floating_WF_m ih w
  | set_window_geometry _ w g ih => exact set_window_geometry_WF_m ih w g
  | swap_with_master _ w ih => exact swap_with_master_WF_m ih w
  | swap_windows _ d ih => exact swap_windows_WF_m ih d
  | set_gap _ g ih => exact set_gap_WF_m ih g

end MinimisingWM

namespace FloatingWM

theorem remove_window_ok {s : FloatingWM} (h : s.WF) {w : Window}
    (hm : s.is_managed w = true) : (s.remove_window w).2 = Except.ok () := by
  rcases managed_cases hm with hc | hc
  · have hnt : ¬ s.tiling_wm.is_managed w = true := by
      intro hc2
      exact h.disj w hc (by simpa [TilingWM.is_managed] using hc2)
    obtain ⟨i, hpF⟩ : ∃ i, position s.floating_windows w = some i := by
      cases hp : position s.floating_windows w with
      | none => exact absurd hc (position_eq_none_iff.mp hp)
      | some i => exact ⟨i, rfl⟩
    exact (remove_window_float_spec h hnt hpF).2.2.2
  · have ht : s.tiling_wm.is_managed w = true := by
      simpa [TilingWM.is_managed] using hc
    obtain ⟨i, hpT⟩ : ∃ i, position s.tiling_wm.windows w = some i := by
      cases hp : position s.tiling_wm.windows w with
      | none => exact absurd hc (position_eq_none_iff.mp hp)
      | some i => exact ⟨i, rfl⟩
    exact (remove_window_tiled_spec ht hpT).2.2.2.2.2

theorem get_window_info_float {s : FloatingWM} (h : s.WF) {w : Window}
    {info : WindowWithInfo} (hf : s.is_floating w = true)
    (hinfo : s.infos w = some info) :
    s.get_window_info w = Except.ok
      { window := info.window, geometry := info.geometry,
        float_or_tile := FloatOrTile.Float, fullscreen := false } := by
  have hwF : w ∈ s.floating_windows := by simpa [is_floating] using hf
  have hwT : w ∉ s.tiling_wm.windows := h.disj w hwF
  rw [get_window_info, TilingWM.get_window_info,
    position_eq_none_iff.mpr hwT]
  dsimp only
  rw [hinfo]

theorem get_window_info_tiled {s : FloatingWM} {w : Window} {i : Nat}
    (hp : position s.tiling_wm.windows w = some i) :
    s.get_window_info w = Except.ok
      { window := w, geometry := s.tiling_wm.get_geom i,
        float_or_tile := FloatOrTile.Tile, fullscreen := false } := by
  rw [get_window_info, TilingWM.get_window_info, hp]

end FloatingWM

namespace MinimisingWM

/-- toggle_minimised on a non-minimised managed window freezes the
current descriptor and removes the window from the wrapped layer. -/
theorem toggle_minimised_freeze {m : MinimisingWM} (h : m.WF) {w : Window}
    {wi : WindowWithInfo} (hnm : ¬ m.is_minimised w = true)
    (hm : m.wrapped_wm.is_managed w = true)
    (hgi : m.wrapped_wm.get_window_info w = Except.ok wi) :
    m.toggle_minimised w =
      ({ m with wrapped_wm := (m.wrapped_wm.remove_window w).1,
                infos := fun w2 => if w2 = w then some wi else m.infos w2,
                minimised_windows := m.minimised_windows ++ [w] },
       Except.ok ()) := by
  have hgim : m.get_window_info w = Except.ok wi := by
    rw [MinimisingWM.get_window_info, if_neg hnm]
    exact hgi
  have hrm : (m.wrapped_wm.remove_window w).2 = Except.ok () :=
    FloatingWM.remove_window_ok h.float hm
  rw [toggle_minimised.eq_def, hgim]
  dsimp only
  rw [if_neg hnm]
  rw [hrm]

/-- toggle_minimised on a minimised window drops the frozen descriptor
and re-adds it through the wrapped layer. -/
theorem toggle_minimised_unfreeze {m : MinimisingWM} (h : m.WF) {w : Window}
    {wi : WindowWithInfo} (hmin : m.is_minimised w = true)
    (hinfo : m.infos w = some wi) :
    m.toggle_minimised w =
      ({ m with infos := fun w2 => if w2 = w then none else m.infos w2,
                minimised_windows :=
                  match position m.minimised_windows w with
                  | some i => m.minimised_windows.eraseIdx i
                  | none => m.minimised_windows } : MinimisingWM).add_window wi := by
  have hgim : m.get_window_info w = Except.ok wi := by
    rw [MinimisingWM.get_window_info, if_pos hmin, hinfo]
  rw [toggle_minimised.eq_def, hgim]
  dsimp only
  rw [if_pos hmin]
  have hrm : m.remove_window w =
      ({ m with infos := fun w2 => if w2 = w then none else m.infos w2,
                minimised_windows :=
                  match position m.minimised_windows w with
                  | some i => m.minimised_windows.eraseIdx i
                  | none => m.minimised_windows }, Except.ok ()) := by
    rw [MinimisingWM.remove_window, if_neg (by simpa using hmin)]
  rw [hrm]

end MinimisingWM


namespace FloatingWM

/-- add_window of an unmanaged floating descriptor: appended to the
floating list, stored in the descriptor map, tiled list unchanged. -/
theorem add_float_result {s : FloatingWM} {wi : WindowWithInfo}
    (hm : ¬ s.is_managed wi.window = true)
    (hfl : wi.float_or_tile = FloatOrTile.Float) :
    (s.add_window wi).1.floating_windows = s.floating_windows ++ [wi.window] ∧
    (s.add_window wi).1.tiling_wm.windows = s.tiling_wm.windows ∧
    (s.add_window wi).1.infos
      = (fun w2 => if w2 = wi.window then some wi else s.infos w2) := by
  rw [add_window_float_eq hm hfl]
  exact ⟨focus_window_floats _ _, focus_window_tiling_windows _ _,
    focus_window_infos _ _⟩

/-- add_window of an unmanaged tiled descriptor: appended to the tiled
list, stored in the descriptor map, floating list unchanged. -/
theorem add_tile_result {s : FloatingWM} {wi : WindowWithInfo}
    (hm : ¬ s.is_managed wi.window = true)
    (hfl : wi.float_or_tile = FloatOrTile.Tile) :
    (s.add_window wi).1.floating_windows = s.floating_windows ∧
    (s.add_window wi).1.tiling_wm.windows = s.tiling_wm.windows ++ [wi.window] ∧
    (s.add_window wi).1.infos
      = (fun w2 => if w2 = wi.window then some wi else s.infos w2) := by
  have hnt : ¬ s.tiling_wm.is_managed wi.window = true := by
    intro hc
    exact hm (is_managed_of_tiled (by simpa [TilingWM.is_managed] using hc))
  have hadd := @TilingWM.add_window_windows_new s.tiling_wm wi hnt
  rw [add_window_tile_eq hm hfl]
  refine ⟨focus_window_floats _ _, ?_, focus_window_infos _ _⟩
  rw [focus_window_tiling_windows]
  exact hadd.1

end FloatingWM

namespace MinimisingWM

/-- add_window on a window that is not minimised delegates to the
wrapped layer. -/
theorem add_window_delegate {s : MinimisingWM} {wi : WindowWithInfo}
    (h : ¬ s.is_minimised wi.window = true) :
    s.add_window wi = ({ s with wrapped_wm := (s.wrapped_wm.add_window wi).1 },
      (s.wrapped_wm.add_window wi).2) := by
  rw [add_window, if_pos h]

/-- toggle_minimised twice on a non-minimised managed window: the net
effect on the state is a remove followed by a re-add of the frozen
descriptor through the wrapped layer, with the frozen-descriptor map
restored. -/
theorem toggle_roundtrip_general {m : MinimisingWM} (h : m.WF) {w : Window}
    {wi : WindowWithInfo} (hnm : ¬ m.is_minimised w = true)
    (hm : m.wrapped_wm.is_managed w = true)
    (hgi : m.wrapped_wm.get_window_info w = Except.ok wi)
    (hkeyM : wi.window = w) :
    ∃ L : List Window,
      (m.toggle_minimised w).1.toggle_minimised w =
        (({ minimised_windows := L,
            wrapped_wm := ((m.wrapped_wm.remove_window w).1.add_window wi).1,
            infos := m.infos } : MinimisingWM),
         ((m.wrapped_wm.remove_window w).1.add_window wi).2) ∧
      (m.toggle_minimised w).1.is_minimised w = true ∧
      (m.toggle_minimised w).2 = Except.ok () := by
  have hIold : m.infos w = none := by
    cases hio : m.infos w with
    | none => rfl
    | some x => exact absurd (by rw [is_minimised, hio]; rfl) hnm
  have heq1 := toggle_minimised_freeze h hnm hm hgi
  have h1 : ((m.toggle_minimised w).1).WF := toggle_minimised_WF_m h w
  have hmin1 : (m.toggle_minimised w).1.is_minimised w = true := by
    rw [heq1]
    simp [is_minimised]
  have hinfo1 : (m.toggle_minimised w).1.infos w = some wi := by
    rw [heq1]
    simp
  have heq2 := toggle_minimised_unfreeze h1 hmin1 hinfo1
  refine ⟨match position (m.toggle_minimised w).1.minimised_windows w with
          | some i => (m.toggle_minimised w).1.minimised_windows.eraseIdx i
          | none => (m.toggle_minimised w).1.minimised_windows,
    ?_, hmin1, by rw [heq1]⟩
  rw [heq2]
  have hcond : ¬ ({ (m.toggle_minimised w).1 with
      infos := fun w2 => if w2 = w then none
               else (m.toggle_minimised w).1.infos w2,
      minimised_windows :=
        match position (m.toggle_minimised w).1.minimised_windows w with
        | some i => (m.toggle_minimised w).1.minimised_windows.eraseIdx i
        | none => (m.toggle_minimised w).1.minimised_windows } : MinimisingWM).is_minimised
        wi.window = true := by
    rw [is_minimised]
    dsimp only
    rw [hkeyM, if_pos rfl]
    simp
  rw [add_window_delegate hcond]
  rw [heq1]
  dsimp only
  congr 1
  congr 1
  funext w2
  by_cases hw2 : w2 = w
  · subst hw2
    rw [if_pos rfl, hIold]
  · rw [if_neg hw2, if_neg hw2]

end MinimisingWM

namespace MinimisingWM

/-- Double toggle_minimised on a floating window: minimised in between,
afterwards not minimised and floating again, with get_window_info fully
restored (the frozen descriptor carries the stored geometry). -/
theorem toggle_minimised_float_roundtrip {m : MinimisingWM} (h : m.WF) {w : Window}
    {info : WindowWithInfo} (hnm : ¬ m.is_minimised w = true)
    (hf : m.wrapped_wm.is_floating w = true)
    (hinfo : m.wrapped_wm.infos w = some info) :
    (m.toggle_minimised w).1.is_minimised w = true ∧
    (m.toggle_minimised w).2 = Except.ok () ∧
    ¬ ((m.toggle_minimised w).1.toggle_minimised w).1.is_minimised w = true ∧
    ((m.toggle_minimised w).1.toggle_minimised w).1.wrapped_wm.is_floating w = true ∧
    ((m.toggle_minimised w).1.toggle_minimised w).1.get_window_info w
      = m.get_window_info w ∧
    ((m.toggle_minimised w).1.toggle_minimised w).2 = Except.ok () := by
  have hkey : info.window = w := h.float.infos_key w info hinfo
  have hminb : m.is_minimised w = false := by simpa using hnm
  have hwF : w ∈ m.wrapped_wm.floating_windows := by
    simpa [FloatingWM.is_floating] using hf
  have hm0 : m.wrapped_wm.is_managed w = true := FloatingWM.is_managed_of_floating hwF
  have hgi := FloatingWM.get_window_info_float h.float hf hinfo
  obtain ⟨L, heqPair, hmin1, hok1⟩ := toggle_roundtrip_general h hnm hm0 hgi hkey
  have hm' : ¬ ((m.wrapped_wm.remove_window w).1.is_managed
      ({ window := info.window, geometry := info.geometry,
         float_or_tile := FloatOrTile.Float, fullscreen := false } : WindowWithInfo).window)
      = true := by
    rw [FloatingWM.remove_window_managed_f h.float w]
    dsimp only
    rw [hkey, if_pos rfl]
    simp
  obtain ⟨hFa, hTa, hIa⟩ := FloatingWM.add_float_result hm' rfl
  have hf2 : ((m.wrapped_wm.remove_window w).1.add_window
      { window := info.window, geometry := info.geometry,
        float_or_tile := FloatOrTile.Float, fullscreen := false }).1.is_floating w = true := by
    rw [FloatingWM.is_floating, hFa]
    simp [hkey]
  have hi2 : ((m.wrapped_wm.remove_window w).1.add_window
      { window := info.window, geometry := info.geometry,
        float_or_tile := FloatOrTile.Float, fullscreen := false }).1.infos w = some
      { window := info.window, geometry := info.geometry,
        float_or_tile := FloatOrTile.Float, fullscreen := false } := by
    rw [hIa]
    dsimp only
    rw [hkey, if_pos rfl]
  have hWF2 : ((m.wrapped_wm.remove_window w).1.add_window
      { window := info.window, geometry := info.geometry,
        float_or_tile := FloatOrTile.Float, fullscreen := false }).1.WF :=
    FloatingWM.add_window_WF_f (FloatingWM.remove_window_WF_f h.float w) _
  have hgif2 := FloatingWM.get_window_info_float hWF2 hf2 hi2
  have hmin2 : ((m.toggle_minimised w).1.toggle_minimised w).1.is_minimised w
      = false := by
    rw [heqPair]
    exact hminb
  refine ⟨hmin1, hok1, ?_, ?_, ?_, ?_⟩
  · rw [heqPair]
    exact hnm
  · rw [heqPair]
    exact hf2
  · rw [MinimisingWM.get_window_info, hmin2, if_neg Bool.false_ne_true]
    rw [heqPair]
    show ((m.wrapped_wm.remove_window w).1.add_window
      { window := info.window, geometry := info.geometry,
        float_or_tile := FloatOrTile.Float, fullscreen := false }).1.get_window_info w
      = m.get_window_info w
    rw [hgif2, MinimisingWM.get_window_info, hminb, if_neg Bool.false_ne_true, hgi]
  · rw [heqPair]
    show ((m.wrapped_wm.remove_window w).1.add_window
      { window := info.window, geometry := info.geometry,
        float_or_tile := FloatOrTile.Float, fullscreen := false }).2 = Except.ok ()
    exact FloatingWM.add_window_ok_f _ _

/-- Double toggle_minimised on a tiled window: minimised in between,
afterwards not minimised and tiled again (at the end of the tiled
list), not floating. -/
theorem toggle_minimised_tile_roundtrip {m : MinimisingWM} (h : m.WF) {w : Window}
    {i : Nat} (hnm : ¬ m.is_minimised w = true)
    (hp : position m.wrapped_wm.tiling_wm.windows w = some i) :
    (m.toggle_minimised w).1.is_minimised w = true ∧
    (m.toggle_minimised w).2 = Except.ok () ∧
    ¬ ((m.toggle_minimised w).1.toggle_minimised w).1.is_minimised w = true ∧
    w ∈ ((m.toggle_minimised w).1.toggle_minimised w).1.wrapped_wm.tiling_wm.windows ∧
    ¬ ((m.toggle_minimised w).1.toggle_minimised w).1.wrapped_wm.is_floating w = true ∧
    ((m.toggle_minimised w).1.toggle_minimised w).2 = Except.ok () := by
  have hmem : w ∈ m.wrapped_wm.tiling_wm.windows := by
    by_contra hc
    rw [position_eq_none_iff.mpr hc] at hp
    cases hp
  have ht : m.wrapped_wm.tiling_wm.is_managed w = true := by
    simpa [TilingWM.is_managed] using hmem
  have hnF : w ∉ m.wrapped_wm.floating_windows := by
    intro hc
    exact h.float.disj w hc hmem
  have hm0 : m.wrapped_wm.is_managed w = true := FloatingWM.is_managed_of_tiled hmem
  have hgi := @FloatingWM.get_window_info_tiled m.wrapped_wm _ _ hp
  obtain ⟨L, heqPair, hmin1, hok1⟩ := toggle_roundtrip_general h hnm hm0 hgi rfl
  obtain ⟨hF1, hS1, hT1, hI1, hfi1, hok1'⟩ :=
    FloatingWM.remove_window_tiled_spec ht hp
  have hm' : ¬ ((m.wrapped_wm.remove_window w).1.is_managed
      ({ window := w, geometry := m.wrapped_wm.tiling_wm.get_geom i,
         float_or_tile := FloatOrTile.Tile, fullscreen := false } : WindowWithInfo).window)
      = true := by
    rw [FloatingWM.remove_window_managed_f h.float w]
    dsimp only
    rw [if_pos rfl]
    simp
  obtain ⟨hFa, hTa, hIa⟩ := FloatingWM.add_tile_result hm' rfl
  refine ⟨hmin1, hok1, ?_, ?_, ?_, ?_⟩
  · rw [heqPair]
    exact hnm
  · rw [heqPair]
    show w ∈ ((m.wrapped_wm.remove_window w).1.add_window
      { window := w, geometry := m.wrapped_wm.tiling_wm.get_geom i,
        float_or_tile := FloatOrTile.Tile, fullscreen := false }).1.tiling_wm.windows
    rw [hTa]
    simp
  · rw [heqPair]
    show ¬ ((m.wrapped_wm.remove_window w).1.add_window
      { window := w, geometry := m.wrapped_wm.tiling_wm.get_geom i,
        float_or_tile := FloatOrTile.Tile, fullscreen := false }).1.is_floating w = true
    rw [FloatingWM.is_floating, hFa, hF1]
    simp
    exact hnF
  · rw [heqPair]
    show ((m.wrapped_wm.remove_window w).1.add_window
      { window := w, geometry := m.wrapped_wm.tiling_wm.get_geom i,
        float_or_tile := FloatOrTile.Tile, fullscreen := false }).2 = Except.ok ()
    exact FloatingWM.add_window_ok_f _ _

end MinimisingWM

namespace FloatingWM

/-- Double toggle_floating on a tiled window: it is tiled again (at the
end of the tiled list) and its stored descriptor keeps its geometry
with the mode back to Tile. -/
theorem toggle_floating_twice_tiled {s : FloatingWM} (h : s.WF) {w : Window}
    {info : WindowWithInfo} (ht : s.tiling_wm.is_managed w = true)
    (hinfo : s.infos w = some info) :
    ¬ ((s.toggle_floating w).1.toggle_floating w).1.is_floating w = true ∧
    w ∈ ((s.toggle_floating w).1.toggle_floating w).1.tiling_wm.windows ∧
    ((s.toggle_floating w).1.toggle_floating w).1.infos w
      = some { info with float_or_tile := FloatOrTile.Tile } ∧
    (s.toggle_floating w).2 = Except.ok () ∧
    ((s.toggle_floating w).1.toggle_floating w).2 = Except.ok () := by
  obtain ⟨hf1, hnt1, hi1, hok1⟩ := toggle_floating_tiled_result h ht hinfo
  obtain ⟨hf2, ht2, hi2, hok2⟩ :=
    toggle_floating_float_result (toggle_floating_WF_f h w) hf1 hi1
  exact ⟨hf2, ht2, hi2, hok1, hok2⟩

/-- Double toggle_floating on a floating window: it is floating again
and its stored descriptor keeps its geometry with the mode back to
Float. -/
theorem toggle_floating_twice_float {s : FloatingWM} (h : s.WF) {w : Window}
    {info : WindowWithInfo} (hf : s.is_floating w = true)
    (hinfo : s.infos w = some info) :
    ((s.toggle_floating w).1.toggle_floating w).1.is_floating w = true ∧
    w ∉ ((s.toggle_floating w).1.toggle_floating w).1.tiling_wm.windows ∧
    ((s.toggle_floating w).1.toggle_floating w).1.infos w
      = some { info with float_or_tile := FloatOrTile.Float } ∧
    (s.toggle_floating w).2 = Except.ok () ∧
    ((s.toggle_floating w).1.toggle_floating w).2 = Except.ok () := by
  obtain ⟨hf1, ht1, hi1, hok1⟩ := toggle_floating_float_result h hf hinfo
  have ht1' : (s.toggle_floating w).1.tiling_wm.is_managed w = true := by
    simpa [TilingWM.is_managed] using ht1
  obtain ⟨hf2, hnt2, hi2, hok2⟩ :=
    toggle_floating_tiled_result (toggle_floating_WF_f h w) ht1' hi1
  exact ⟨hf2, hnt2, hi2, hok1, hok2⟩

end FloatingWM

/-! ## Claim C4 -/

/-- claim C4 (amended): toggling twice with no mutation in between
restores a window's mode and its STORED descriptor geometry, but not in
general its rendered geometry.  toggle_floating twice on a tiled window
leaves it tiled with its stored descriptor geometry and mode restored;
on a floating window it leaves it floating likewise.  toggle_minimised
twice on a non-minimised floating window restores its entire
get_window_info answer; on a non-minimised tiled window it restores the
mode (tiled, not minimised, not floating).  A tiled window re-enters
the tiled list at the end, so the geometry the tiling strategy renders
it at is not restored in general (see the counterexample). -/
theorem claim_C4 {s : FloatingWM} (hs : s.WF) {m : MinimisingWM} (hm : m.WF)
    (w : Window) :
    (∀ info, s.tiling_wm.is_managed w = true → s.infos w = some info →
      ¬ ((s.toggle_floating w).1.toggle_floating w).1.is_floating w = true ∧
      w ∈ ((s.toggle_floating w).1.toggle_floating w).1.tiling_wm.windows ∧
      ((s.toggle_floating w).1.toggle_floating w).1.infos w
        = some { info with float_or_tile := FloatOrTile.Tile } ∧
      (s.toggle_floating w).2 = Except.ok () ∧
      ((s.toggle_floating w).1.toggle_floating w).2 = Except.ok ()) ∧
    (∀ info, s.is_floating w = true → s.infos w = some info →
      ((s.toggle_floating w).1.toggle_floating w).1.is_floating w = true ∧
      w ∉ ((s.toggle_floating w).1.toggle_floating w).1.tiling_wm.windows ∧
      ((s.toggle_floating w).1.toggle_floating w).1.infos w
        = some { info with float_or_tile := FloatOrTile.Float } ∧
      (s.toggle_floating w).2 = Except.ok () ∧
      ((s.toggle_floating w).1.toggle_floating w).2 = Except.ok ()) ∧
    (∀ info, ¬ m.is_minimised w = true → m.wrapped_wm.is_floating w = true →
      m.wrapped_wm.infos w = some info →
      (m.toggle_minimised w).1.is_minimised w = true ∧
      (m.toggle_minimised w).2 = Except.ok () ∧
      ¬ ((m.toggle_minimised w).1.toggle_minimised w).1.is_minimised w = true ∧
      ((m.toggle_minimised w).1.toggle_minimised w).1.wrapped_wm.is_floating w = true ∧
      ((m.toggle_minimised w).1.toggle_minimised w).1.get_window_info w
        = m.get_window_info w ∧
      ((m.toggle_minimised w).1.toggle_minimised w).2 = Except.ok ()) ∧
    (∀ i, ¬ m.is_minimised w = true →
      position m.wrapped_wm.tiling_wm.windows w = some i →
      (m.toggle_minimised w).1.is_minimised w = true ∧
      (m.toggle_minimised w).2 = Except.ok () ∧
      ¬ ((m.toggle_minimised w).1.toggle_minimised w).1.is_minimised w = true ∧
      w ∈ ((m.toggle_minimised w).1.toggle_minimised w).1.wrapped_wm.tiling_wm.windows ∧
      ¬ ((m.toggle_minimised w).1.toggle_minimised w).1.wrapped_wm.is_floating w = true ∧
      ((m.toggle_minimised w).1.toggle_minimised w).2 = Except.ok ()) := by
  refine ⟨?_, ?_, ?_, ?_⟩
  · intro info ht hinfo
    exact FloatingWM.toggle_floating_twice_tiled hs ht hinfo
  · intro info hf hinfo
    exact FloatingWM.toggle_floating_twice_float hs hf hinfo
  · intro info hnm hf hinfo
    exact MinimisingWM.toggle_minimised_float_roundtrip hm hnm hf hinfo
  · intro i hnm hp
    exact MinimisingWM.toggle_minimised_tile_roundtrip hm hnm hp

/-- Two tiled windows at the minimise layer on a 100 by 100 screen. -/
def c4state : MinimisingWM :=
  (((MinimisingWM.new { width := 100, height := 100 }).add_window
    { window := 1, geometry := { x := 0, y := 0, width := 10, height := 10 },
      float_or_tile := FloatOrTile.Tile, fullscreen := false }).1.add_window
    { window := 2, geometry := { x := 0, y := 0, width := 10, height := 10 },
      float_or_tile := FloatOrTile.Tile, fullscreen := false }).1

/-- claim C4 counterexample: double toggle_minimised (and likewise
double toggle_floating) re-adds a tiled window at the end of the tiled
list, so the geometry the tiling strategy renders it at changes: tiled
window 1 of two moves from the master half to the slave half. -/
theorem claim_C4_counterexample :
    MinimisingWM.Reachable c4state ∧
    ¬ c4state.is_minimised 1 = true ∧
    c4state.get_window_info 1 = Except.ok
      { window := 1, geometry := { x := 0, y := 0, width := 50, height := 100 },
        float_or_tile := FloatOrTile.Tile, fullscreen := false } ∧
    ((c4state.toggle_minimised 1).1.toggle_minimised 1).1.get_window_info 1
      = Except.ok
      { window := 1, geometry := { x := 50, y := 0, width := 50, height := 100 },
        float_or_tile := FloatOrTile.Tile, fullscreen := false } ∧
    ¬ (((c4state.toggle_minimised 1).1.toggle_minimised 1).1.get_window_info 1
      = c4state.get_window_info 1) ∧
    ((c4state.wrapped_wm.toggle_floating 1).1.toggle_floating 1).1.get_window_info 1
      = Except.ok
      { window := 1, geometry := { x := 50, y := 0, width := 50, height := 100 },
        float_or_tile := FloatOrTile.Tile, fullscreen := false } ∧
    ¬ (((c4state.wrapped_wm.toggle_floating 1).1.toggle_floating 1).1.get_window_info 1
      = c4state.wrapped_wm.get_window_info 1) := by
  refine ⟨?_, by decide, by decide, by decide, by decide, by decide, by decide⟩
  exact MinimisingWM.Reachable.add_window
    (MinimisingWM.Reachable.add_window (MinimisingWM.Reachable.new _) _) _

/-- Witness for claim C4: all four round trips exercised at concrete
two-window states. -/
theorem claim_C4_witness :
    (¬ ((c4state.wrapped_wm.toggle_floating 1).1.toggle_floating 1).1.is_floating 1 = true ∧
     1 ∈ ((c4state.wrapped_wm.toggle_floating 1).1.toggle_floating 1).1.tiling_wm.windows ∧
     ((c4state.wrapped_wm.toggle_floating 1).1.toggle_floating 1).1.infos 1
       = some { window := 1, geometry := { x := 0, y := 0, width := 10, height := 10 },
                float_or_tile := FloatOrTile.Tile, fullscreen := false } ∧
     (c4state.wrapped_wm.toggle_floating 1).2 = Except.ok () ∧
     ((c4state.wrapped_wm.toggle_floating 1).1.toggle_floating 1).2 = Except.ok ()) ∧
    (((((c4state.wrapped_wm.toggle_floating 1).1).toggle_floating 1).1.toggle_floating 1).1.is_floating 1 = true ∧
     1 ∉ ((((c4state.wrapped_wm.toggle_floating 1).1).toggle_floating 1).1.toggle_floating 1).1.tiling_wm.windows ∧
     ((((c4state.wrapped_wm.toggle_floating 1).1).toggle_floating 1).1.toggle_floating 1).1.infos 1
       = some { window := 1, geometry := { x := 0, y := 0, width := 10, height := 10 },
                float_or_tile := FloatOrTile.Float, fullscreen := false } ∧
     ((c4state.wrapped_wm.toggle_floating 1).1.toggle_floating 1).2 = Except.ok () ∧
     ((((c4state.wrapped_wm.toggle_floating 1).1).toggle_floating 1).1.toggle_floating 1).2 = Except.ok ()) ∧
    (((c4state.toggle_floating 1).1.toggle_minimised 1).1.is_minimised 1 = true ∧
     ((c4state.toggle_floating 1).1.toggle_minimised 1).2 = Except.ok () ∧
     ¬ (((c4state.toggle_floating 1).1.toggle_minimised 1).1.toggle_minimised 1).1.is_minimised 1 = true ∧
     (((c4state.toggle_floating 1).1.toggle_minimised 1).1.toggle_minimised 1).1.wrapped_wm.is_floating 1 = true ∧
     (((c4state.toggle_floating 1).1.toggle_minimised 1).1.toggle_minimised 1).1.get_window_info 1
       = (c4state.toggle_floating 1).1.get_window_info 1 ∧
     (((c4state.toggle_floating 1).1.toggle_minimised 1).1.toggle_minimised 1).2 = Except.ok ()) ∧
    ((c4state.toggle_minimised 1).1.is_minimised 1 = true ∧
     (c4state.toggle_minimised 1).2 = Except.ok () ∧
     ¬ ((c4state.toggle_minimised 1).1.toggle_minimised 1).1.is_minimised 1 = true ∧
     1 ∈ ((c4state.toggle_minimised 1).1.toggle_minimised 1).1.wrapped_wm.tiling_wm.windows ∧
     ¬ ((c4state.toggle_minimised 1).1.toggle_minimised 1).1.wrapped_wm.is_floating 1 = true ∧
     ((c4state.toggle_minimised 1).1.toggle_minimised 1).2 = Except.ok ()) := by
  have R : MinimisingWM.Reachable c4state :=
    MinimisingWM.Reachable.add_window
      (MinimisingWM.Reachable.add_window (MinimisingWM.Reachable.new _) _) _
  have hm := MinimisingWM.reachable_WF_m R
  have hs := hm.float
  have hm2 := MinimisingWM.reachable_WF_m (MinimisingWM.Reachable.toggle_floating R 1)
  have hs2 := FloatingWM.toggle_floating_WF_f hs 1
  refine ⟨?_, ?_, ?_, ?_⟩
  · exact (claim_C4 hs hm 1).1
      { window := 1, geometry := { x := 0, y := 0, width := 10, height := 10 },
        float_or_tile := FloatOrTile.Tile, fullscreen := false }
      (by decide) (by decide)
  · exact (claim_C4 hs2 hm 1).2.1
      { window := 1, geometry := { x := 0, y := 0, width := 10, height := 10 },
        float_or_tile := FloatOrTile.Float, fullscreen := false }
      (by decide) (by decide)
  · exact (claim_C4 hs hm2 1).2.2.1
      { window := 1, geometry := { x := 0, y := 0, width := 10, height := 10 },
        float_or_tile := FloatOrTile.Float, fullscreen := false }
      (by decide) (by decide) (by decide)
  · exact (claim_C4 hs hm 1).2.2.2 0 (by decide) (by decide)

/-! ## Minimise-layer managed-set catalog (for the fullscreen layer) -/

namespace MinimisingWM

theorem add_window_managed_m (m : MinimisingWM) (wi : WindowWithInfo) (x : Window) :
    (m.add_window wi).1.is_managed x = (m.is_managed x || (x == wi.window)) := by
  rw [add_window.eq_def]
  by_cases hmin : m.is_minimised wi.window = true
  · rw [if_neg (not_not_intro hmin)]
    by_cases hx : x = wi.window
    · subst hx
      simp [MinimisingWM.is_managed, hmin]
    · simp [hx]
  · rw [if_pos hmin]
    dsimp only
    show (m.is_minimised x || (m.wrapped_wm.add_window wi).1.is_managed x)
      = ((m.is_minimised x || m.wrapped_wm.is_managed x) || (x == wi.window))
    rw [FloatingWM.add_window_managed_f, Bool.or_assoc]

theorem remove_window_managed_m {m : MinimisingWM} (h : m.WF) (w x : Window) :
    (m.remove_window w).1.is_managed x = if x = w then false else m.is_managed x := by
  rw [remove_window.eq_def]
  by_cases hmin : m.is_minimised w = true
  · rw [if_neg (not_not_intro hmin)]
    dsimp only
    show ((if x = w then none else m.infos x).isSome || m.wrapped_wm.is_managed x)
      = if x = w then false else m.is_managed x
    by_cases hx : x = w
    · subst hx
      rw [if_pos rfl, if_pos rfl, h.disj x hmin]
      rfl
    · rw [if_neg hx, if_neg hx]
      rfl
  · rw [if_pos hmin]
    dsimp only
    show (m.is_minimised x || (m.wrapped_wm.remove_window w).1.is_managed x)
      = if x = w then false else m.is_managed x
    rw [FloatingWM.remove_window_managed_f h.float w x]
    by_cases hx : x = w
    · subst hx
      rw [if_pos rfl, if_pos rfl]
      have : m.is_minimised x = false := by simpa using hmin
      rw [this]
      rfl
    · rw [if_neg hx, if_neg hx]
      rfl

theorem toggle_minimised_managed_ne {m : MinimisingWM} (h : m.WF) {w x : Window}
    (hx : x ≠ w) : (m.toggle_minimised w).1.is_managed x = m.is_managed x := by
  cases hok : m.get_window_info w with
  | error e =>
    rw [toggle_minimised.eq_def, hok]
  | ok wi =>
    have hkey : wi.window = w := get_window_info_key_m h hok
    by_cases hmin : m.is_minimised w = true
    · obtain ⟨wi2, hinfo⟩ : ∃ wi2, m.infos w = some wi2 := by
        cases hi : m.infos w with
        | some wi2 => exact ⟨wi2, rfl⟩
        | none =>
          rw [is_minimised, hi] at hmin
          cases hmin
      have hwi2 : wi = wi2 := by
        rw [get_window_info, if_pos hmin, hinfo] at hok
        cases hok
        rfl
      subst hwi2
      rw [toggle_minimised_unfreeze h hmin hinfo]
      rw [add_window_managed_m, hkey]
      have hbeq : (x == w) = false := by simpa using hx
      rw [hbeq, Bool.or_false]
      show ((if x = w then none else m.infos x).isSome || m.wrapped_wm.is_managed x)
        = m.is_managed x
      rw [if_neg hx]
      rfl
    · rw [toggle_minimised.eq_def, hok]
      dsimp only
      rw [if_neg hmin]
      cases hrm : (m.wrapped_wm.remove_window w).2 with
      | error e =>
        dsimp only
        show (m.is_minimised x || (m.wrapped_wm.remove_window w).1.is_managed x)
          = m.is_managed x
        rw [FloatingWM.remove_window_managed_f h.float w x, if_neg hx]
        rfl
      | ok u =>
        dsimp only
        show ((if x = w then some wi else m.infos x).isSome
          || (m.wrapped_wm.remove_window w).1.is_managed x) = m.is_managed x
        rw [if_neg hx, FloatingWM.remove_window_managed_f h.float w x, if_neg hx]
        rfl

theorem toggle_floating_managed_ne {m : MinimisingWM} (h : m.WF) {w x : Window}
    (hx : x ≠ w) : (m.toggle_floating w).1.is_managed x = m.is_managed x := by
  rw [toggle_floating.eq_def]
  dsimp only
  by_cases hmin : m.is_minimised w = true
  · rw [if_pos hmin]
    cases hstep : (m.toggle_minimised w).2 with
    | error e =>
      dsimp only
      exact toggle_minimised_managed_ne h hx
    | ok u =>
      dsimp only
      show ((m.toggle_minimised w).1.is_minimised x
        || ((m.toggle_minimised w).1.wrapped_wm.toggle_floating w).1.is_managed x)
        = m.is_managed x
      rw [FloatingWM.toggle_floating_managed (toggle_minimised_WF_m h w).float w x]
      show (m.toggle_minimised w).1.is_managed x = m.is_managed x
      exact toggle_minimised_managed_ne h hx
  · rw [if_neg hmin]
    dsimp only
    show (m.is_minimised x || (m.wrapped_wm.toggle_floating w).1.is_managed x)
      = m.is_managed x
    rw [FloatingWM.toggle_floating_managed h.float w x]
    rfl

theorem set_window_geometry_managed_m (m : MinimisingWM) (w : Window) (g : Geometry)
    (x : Window) :
    (m.set_window_geometry w g).1.is_managed x = m.is_managed x := by
  rw [set_window_geometry.eq_def]
  by_cases hmin : m.is_minimised w = true
  · rw [if_pos hmin]
    cases hi : m.infos w with
    | some wi =>
      dsimp only
      show ((if x = w then some { wi with geometry := g } else m.infos x).isSome
        || m.wrapped_wm.is_managed x) = m.is_managed x
      by_cases hx : x = w
      · subst hx
        rw [if_pos rfl]
        simp [MinimisingWM.is_managed, MinimisingWM.is_minimised, hi]
      · rw [if_neg hx]
        rfl
    | none => rfl
  · rw [if_neg hmin]
    dsimp only
    show (m.is_minimised x || (m.wrapped_wm.set_window_geometry w g).1.is_managed x)
      = m.is_managed x
    rw [FloatingWM.set_window_geometry_managed_f]
    rfl

theorem resize_screen_managed_m (m : MinimisingWM) (sc : Screen) (x : Window) :
    (m.resize_screen sc).is_managed x = m.is_managed x := by
  show (m.is_minimised x || (m.wrapped_wm.resize_screen sc).is_managed x)
    = m.is_managed x
  rw [FloatingWM.resize_screen_managed_f]
  rfl

end MinimisingWM

/-! ## Fullscreen-layer well-formedness -/

namespace FullscreenWM

/-- Well-formed fullscreen-layer state: the wrapped minimise layer is
well-formed, and a held fullscreen window is no longer managed below
(toggle_fullscreen removes it on freeze). -/
structure WF (s : FullscreenWM) : Prop where
  wrapped : s.wrapped_wm.WF
  held : ∀ wi, s.fullscreen_window = some wi →
    s.wrapped_wm.is_managed wi.window = false

theorem WF_new_u (screen : Screen) : (FullscreenWM.new screen).WF :=
  { wrapped := MinimisingWM.WF_new_m screen
    held := by intro wi hc; cases hc }

theorem is_fullscreen_some {s : FullscreenWM} {wi : WindowWithInfo}
    (hf : s.fullscreen_window = some wi) (x : Window) :
    s.is_fullscreen x = (wi.window == x) := by
  rw [is_fullscreen, get_fullscreen_window, hf]
  rfl

theorem is_fullscreen_none {s : FullscreenWM}
    (hf : s.fullscreen_window = none) (x : Window) :
    s.is_fullscreen x = false := by
  rw [is_fullscreen, get_fullscreen_window, hf]
  rfl

theorem toggle_fullscreen_WF {s : FullscreenWM} (h : s.WF) (w : Window) :
    (s.toggle_fullscreen w).1.WF := by
  rw [toggle_fullscreen.eq_def]
  by_cases hfs : s.is_fullscreen w = true
  · rw [if_pos hfs]
    cases hfw : s.fullscreen_window with
    | some wi =>
      dsimp only
      refine { wrapped := MinimisingWM.add_window_WF_m h.wrapped wi, held := ?_ }
      intro wi2 hc
      dsimp only at hc
      cases hc
    | none =>
      dsimp only
      exact h
  · rw [if_neg hfs]
    cases hok : s.wrapped_wm.get_window_info w with
    | error e =>
      dsimp only
      exact h
    | ok wi =>
      dsimp only
      have hkey : wi.window = w := MinimisingWM.get_window_info_key_m h.wrapped hok
      refine { wrapped := MinimisingWM.remove_window_WF_m h.wrapped w, held := ?_ }
      intro wi2 hc
      dsimp only at hc
      injection hc with hc2
      subst hc2
      rw [hkey, MinimisingWM.remove_window_managed_m h.wrapped w w, if_pos rfl]

theorem un_fullscreen_WF {s : FullscreenWM} (h : s.WF) : s.un_fullscreen.WF := by
  rw [un_fullscreen.eq_def]
  cases hf : s.get_fullscreen_window with
  | none =>
    dsimp only
    refine { wrapped := h.wrapped, held := ?_ }
    intro wi hc
    dsimp only at hc
    cases hc
  | some w =>
    dsimp only
    refine { wrapped := (toggle_fullscreen_WF h w).wrapped, held := ?_ }
    intro wi hc
    dsimp only at hc
    cases hc

/-- un_fullscreen re-adds only the held window, so a window unmanaged
at this layer stays unmanaged below afterwards. -/
theorem un_fullscreen_not_managed {s : FullscreenWM} (h : s.WF) {x : Window}
    (hx : s.is_managed x = false) :
    s.un_fullscreen.wrapped_wm.is_managed x = false := by
  have hx2 := hx
  rw [FullscreenWM.is_managed, Bool.or_eq_false_iff] at hx2
  rw [un_fullscreen.eq_def]
  cases hf : s.fullscreen_window with
  | none =>
    rw [get_fullscreen_window, hf]
    dsimp only
    exact hx2.2
  | some wi =>
    rw [get_fullscreen_window, hf]
    simp only [Option.map_some']
    have htrue : s.is_fullscreen wi.window = true := by
      rw [is_fullscreen_some hf]
      simp
    rw [toggle_fullscreen.eq_def, if_pos htrue, hf]
    dsimp only
    rw [MinimisingWM.add_window_managed_m, hx2.2]
    have : (x == wi.window) = false := by
      have h1 := hx2.1
      rw [is_fullscreen_some hf] at h1
      simp only [beq_eq_false_iff_ne] at h1 ⊢
      exact fun hc => h1 hc.symm
    rw [this]
    rfl

end FullscreenWM

namespace FullscreenWM

/-- un_fullscreen always clears the fullscreen slot. -/
theorem un_fullscreen_fs (s : FullscreenWM) : s.un_fullscreen.fullscreen_window = none :=
  rfl

/-- A window that is not the held fullscreen window has a different
id. -/
theorem not_fullscreen_ne {s : FullscreenWM} {wi : WindowWithInfo} {w : Window}
    (hc : s.fullscreen_window = some wi) (hfs : ¬ s.is_fullscreen w = true) :
    wi.window ≠ w := by
  intro he
  rw [is_fullscreen_some hc] at hfs
  exact hfs (by simp [he])

theorem add_window_WF_u {s : FullscreenWM} (h : s.WF) (wi : WindowWithInfo) :
    (s.add_window wi).1.WF := by
  rw [add_window.eq_def]
  by_cases hm : s.is_managed wi.window = true
  · rw [if_pos hm]
    exact h
  · rw [if_neg hm]
    have h1 := un_fullscreen_WF h
    have hum := @un_fullscreen_not_managed s h wi.window (by simpa using hm)
    by_cases hfs : wi.fullscreen = true
    · rw [if_pos hfs]
      refine { wrapped := h1.wrapped, held := ?_ }
      intro wi2 hc
      dsimp only at hc
      injection hc with hc2
      subst hc2
      exact hum
    · rw [if_neg hfs]
      dsimp only
      refine { wrapped := MinimisingWM.add_window_WF_m h1.wrapped wi, held := ?_ }
      intro wi2 hc
      dsimp only at hc
      rw [un_fullscreen_fs] at hc
      exact Option.noConfusion hc

theorem remove_window_WF_u {s : FullscreenWM} (h : s.WF) (w : Window) :
    (s.remove_window w).1.WF := by
  rw [remove_window.eq_def]
  by_cases hfs : s.is_fullscreen w = true
  · rw [if_pos hfs]
    refine { wrapped := h.wrapped, held := ?_ }
    intro wi hc
    dsimp only at hc
    exact Option.noConfusion hc
  · rw [if_neg hfs]
    dsimp only
    refine { wrapped := MinimisingWM.remove_window_WF_m h.wrapped w, held := ?_ }
    intro wi hc
    dsimp only at hc
    rw [MinimisingWM.remove_window_managed_m h.wrapped w,
      if_neg (not_fullscreen_ne hc hfs)]
    exact h.held wi hc

theorem focus_window_WF_u {s : FullscreenWM} (h : s.WF) (ow : Option Window) :
    (s.focus_window ow).1.WF := by
  rw [focus_window.eq_def]
  by_cases hc : (ow.map (fun w => s.is_fullscreen w)).getD false = true
  · rw [if_pos hc]
    exact h
  · rw [if_neg hc]
    dsimp only
    refine { wrapped := MinimisingWM.focus_window_WF_m (un_fullscreen_WF h).wrapped ow,
             held := ?_ }
    intro wi hcc
    dsimp only at hcc
    rw [un_fullscreen_fs] at hcc
    exact Option.noConfusion hcc

theorem cycle_focus_WF_u {s : FullscreenWM} (h : s.WF) (d : PrevOrNext) :
    (s.cycle_focus d).WF := by
  refine { wrapped := MinimisingWM.cycle_focus_WF_m (un_fullscreen_WF h).wrapped d,
           held := ?_ }
  intro wi hc
  dsimp only [cycle_focus] at hc
  rw [un_fullscreen_fs] at hc
  exact Option.noConfusion hc

theorem resize_screen_WF_u {s : FullscreenWM} (h : s.WF) (sc : Screen) :
    (s.resize_screen sc).WF := by
  refine { wrapped := MinimisingWM.resize_screen_WF_m h.wrapped sc, held := ?_ }
  intro wi hc
  dsimp only [resize_screen] at hc
  show (s.wrapped_wm.resize_screen sc).is_managed wi.window = false
  rw [MinimisingWM.resize_screen_managed_m]
  exact h.held wi hc

theorem swap_with_master_WF_u {s : FullscreenWM} (h : s.WF) (w : Window) :
    (s.swap_with_master w).1.WF := by
  refine { wrapped := MinimisingWM.swap_with_master_WF_m (un_fullscreen_WF h).wrapped w,
           held := ?_ }
  intro wi hc
  dsimp only [swap_with_master] at hc
  rw [un_fullscreen_fs] at hc
  exact Option.noConfusion hc

theorem swap_windows_WF_u {s : FullscreenWM} (h : s.WF) (d : PrevOrNext) :
    (s.swap_windows d).WF := by
  refine { wrapped := MinimisingWM.swap_windows_WF_m (un_fullscreen_WF h).wrapped d,
           held := ?_ }
  intro wi hc
  dsimp only [swap_windows] at hc
  rw [un_fullscreen_fs] at hc
  exact Option.noConfusion hc

theorem toggle_floating_WF_u {s : FullscreenWM} (h : s.WF) (w : Window) :
    (s.toggle_floating w).1.WF := by
  rw [toggle_floating.eq_def]
  by_cases hfs : s.is_fullscreen w = true
  · rw [if_pos hfs]
    dsimp only
    refine { wrapped := MinimisingWM.toggle_floating_WF_m (un_fullscreen_WF h).wrapped w,
             held := ?_ }
    intro wi hc
    dsimp only at hc
    rw [un_fullscreen_fs] at hc
    exact Option.noConfusion hc
  · rw [if_neg hfs]
    dsimp only
    refine { wrapped := MinimisingWM.toggle_floating_WF_m h.wrapped w, held := ?_ }
    intro wi hc
    dsimp only at hc
    rw [MinimisingWM.toggle_floating_managed_ne h.wrapped (not_fullscreen_ne hc hfs)]
    exact h.held wi hc

theorem toggle_minimised_WF_u {s : FullscreenWM} (h : s.WF) (w : Window) :
    (s.toggle_minimised w).1.WF := by
  rw [toggle_minimised.eq_def]
  by_cases hfs : s.is_fullscreen w = true
  · rw [if_pos hfs]
    dsimp only
    refine { wrapped := MinimisingWM.toggle_minimised_WF_m (un_fullscreen_WF h).wrapped w,
             held := ?_ }
    intro wi hc
    dsimp only at hc
    rw [un_fullscreen_fs] at hc
    exact Option.noConfusion hc
  · rw [if_neg hfs]
    dsimp only
    refine { wrapped := MinimisingWM.toggle_minimised_WF_m h.wrapped w, held := ?_ }
    intro wi hc
    dsimp only at hc
    rw [MinimisingWM.toggle_minimised_managed_ne h.wrapped (not_fullscreen_ne hc hfs)]
    exact h.held wi hc

theorem set_window_geometry_WF_u {s : FullscreenWM} (h : s.WF) (w : Window)
    (g : Geometry) : (s.set_window_geometry w g).1.WF := by
  rw [set_window_geometry.eq_def]
  by_cases hfs : s.is_fullscreen w = true
  · rw [if_pos hfs]
    cases hfw : s.fullscreen_window with
    | some wi =>
      dsimp only
      refine { wrapped := h.wrapped, held := ?_ }
      intro wi2 hc
      dsimp only at hc
      injection hc with hc2
      subst hc2
      show s.wrapped_wm.is_managed wi.window = false
      exact h.held wi hfw
    | none =>
      dsimp only
      exact h
  · rw [if_neg hfs]
    dsimp only
    refine { wrapped := MinimisingWM.set_window_geometry_WF_m h.wrapped w g, held := ?_ }
    intro wi hc
    dsimp only at hc
    rw [MinimisingWM.set_window_geometry_managed_m]
    exact h.held wi hc

/-- The states reachable through the fullscreen-layer interface. -/
inductive Reachable : FullscreenWM → Prop where
  | new (screen : Screen) : Reachable (FullscreenWM.new screen)
  | add_window {s : FullscreenWM} (h : Reachable s) (wi : WindowWithInfo) :
      Reachable ((s.add_window wi).1)
  | remove_window {s : FullscreenWM} (h : Reachable s) (w : Window) :
      Reachable ((s.remove_window w).1)
  | focus_window {s : FullscreenWM} (h : Reachable s) (ow : Option Window) :
      Reachable ((s.focus_window ow).1)
  | cycle_focus {s : FullscreenWM} (h : Reachable s) (d : PrevOrNext) :
      Reachable (s.cycle_focus d)
  | resize_screen {s : FullscreenWM} (h : Reachable s) (sc : Screen) :
      Reachable (s.resize_screen sc)
  | toggle_fullscreen {s : FullscreenWM} (h : Reachable s) (w : Window) :
      Reachable ((s.toggle_fullscreen w).1)
  | toggle_floating {s : FullscreenWM} (h : Reachable s) (w : Window) :
      Reachable ((s.toggle_floating w).1)
  | toggle_minimised {s : FullscreenWM} (h : Reachable s) (w : Window) :
      Reachable ((s.toggle_minimised w).1)
  | set_window_geometry {s : FullscreenWM} (h : Reachable s) (w : Window) (g : Geometry) :
      Reachable ((s.set_window_geometry w g).1)
  | swap_with_master {s : FullscreenWM} (h : Reachable s) (w : Window) :
      Reachable ((s.swap_with_master w).1)
  | swap_windows {s : FullscreenWM} (h : Reachable s) (d : PrevOrNext) :
      Reachable (s.swap_windows d)

/-- Every reachable fullscreen-layer state is well-formed. -/
theorem reachable_WF_u {s : FullscreenWM} (h : Reachable s) : s.WF := by
  induction h with
  | new screen => exact WF_new_u screen
  | add_window h wi ih => exact add_window_WF_u ih wi
  | remove_window h w ih => exact remove_window_WF_u ih w
  | focus_window h ow ih => exact focus_window_WF_u ih ow
  | cycle_focus h d ih => exact cycle_focus_WF_u ih d
  | resize_screen h sc ih => exact resize_screen_WF_u ih sc
  | toggle_fullscreen h w ih => exact toggle_fullscreen_WF ih w
  | toggle_floating h w ih => exact toggle_floating_WF_u ih w
  | toggle_minimised h w ih => exact toggle_minimised_WF_u ih w
  | set_window_geometry h w g ih => exact set_window_geometry_WF_u ih w g
  | swap_with_master h w ih => exact swap_with_master_WF_u ih w
  | swap_windows h d ih => exact swap_windows_WF_u ih d

end FullscreenWM

/-! ## Layout entries (for claim C5) -/

namespace TilingWM

/-- The ids of the tiled layout entries are the tiled windows, in
order. -/
theorem layout_fst (s : TilingWM) :
    s.get_window_layout.windows.map Prod.fst = s.windows := by
  rw [get_window_layout]
  by_cases hl : s.windows.length = 0
  · rw [if_pos hl]
    have : s.windows = [] := List.length_eq_zero.mp hl
    rw [this]
    rfl
  · rw [if_neg hl]
    dsimp only
    rw [List.map_map]
    show List.map (fun p => p.2) s.windows.enum = s.windows
    exact List.enum_map_snd s.windows

end TilingWM

namespace FloatingWM

/-- The ids of the float-layer layout entries: the tiled windows
followed by the floating z-order stack (empty layout when nothing is
managed). -/
theorem layout_entries (s : FloatingWM) :
    s.get_window_layout.windows.map Prod.fst =
      if s.get_windows.length = 0 then []
      else s.tiling_wm.windows ++ s.stack_order_floating_windows := by
  rw [get_window_layout]
  by_cases hl : s.get_windows.length = 0
  · rw [if_pos hl, if_pos hl]
    rfl
  · rw [if_neg hl, if_neg hl]
    dsimp only
    rw [List.map_append, TilingWM.layout_fst, List.map_map]
    congr 1
    show List.map (fun w => w) s.stack_order_floating_windows = _
    simp

/-- A window appears in the float-layer layout exactly when it is
managed. -/
theorem layout_mem {s : FloatingWM} (h : s.WF) (x : Window) :
    x ∈ s.get_window_layout.windows.map Prod.fst ↔ s.is_managed x = true := by
  rw [layout_entries]
  by_cases hl : s.get_windows.length = 0
  · rw [if_pos hl]
    rw [get_windows, TilingWM.get_windows, get_floating_windows] at hl
    simp only [List.length_append, Nat.add_eq_zero, List.length_eq_zero] at hl
    simp [managed_iff, hl.1, hl.2]
  · rw [if_neg hl, managed_iff]
    simp only [List.mem_append]
    have hp : x ∈ s.stack_order_floating_windows ↔ x ∈ s.floating_windows :=
    h.perm.mem_iff
    tauto

/-- The float-layer layout lists no window twice. -/
theorem layout_nodup {s : FloatingWM} (h : s.WF) :
    (s.get_window_layout.windows.map Prod.fst).Nodup := by
  rw [layout_entries]
  by_cases hl : s.get_windows.length = 0
  · rw [if_pos hl]
    exact List.nodup_nil
  · rw [if_neg hl]
    refine List.Nodup.append h.tiling.nodup (h.perm.symm.nodup h.nodupF) ?_
    intro a ha hb
    exact h.disj a (h.perm.mem_iff.mp hb) ha

end FloatingWM

namespace FullscreenWM

/-- The layout while a fullscreen window is held: that window alone at
the full screen, focused. -/
theorem layout_some {s : FullscreenWM} {wi : WindowWithInfo}
    (hfw : s.fullscreen_window = some wi) :
    s.get_window_layout
      = { focused_window := some wi.window,
          windows := [(wi.window, s.get_screen.to_geometry)] } := by
  rw [get_window_layout.eq_def, get_fullscreen_window, hfw]
  simp only [Option.map_some']

/-- The layout with no fullscreen window: the wrapped layout. -/
theorem layout_none {s : FullscreenWM} (hfw : s.fullscreen_window = none) :
    s.get_window_layout = s.wrapped_wm.get_window_layout := by
  rw [get_window_layout.eq_def, get_fullscreen_window, hfw]
  rfl

end FullscreenWM

/-! ## Claim C5 -/

/-- claim C5: in every reachable fullscreen-layer state the layout
lists, without duplicates, exactly the managed windows that are neither
minimised nor eclipsed by a held fullscreen window; and while a
fullscreen window is held the layout is that window alone at the full
screen rectangle, focused. -/
theorem claim_C5 {s : FullscreenWM} (h : FullscreenWM.Reachable s) :
    (s.get_window_layout.windows.map Prod.fst).Nodup ∧
    (∀ w, w ∈ s.get_window_layout.windows.map Prod.fst ↔
      (s.is_managed w = true ∧ s.is_minimised w = false ∧
        ∀ wf, s.get_fullscreen_window = some wf → w = wf)) ∧
    (∀ wi, s.fullscreen_window = some wi →
      s.get_window_layout
        = { focused_window := some wi.window,
            windows := [(wi.window, s.get_screen.to_geometry)] }) := by
  have hWF := FullscreenWM.reachable_WF_u h
  cases hfw : s.fullscreen_window with
  | some wi =>
    have hlay := FullscreenWM.layout_some hfw
    have hheld := hWF.held wi hfw
    have hmin : s.wrapped_wm.is_minimised wi.window = false := by
      have h2 := hheld
      rw [MinimisingWM.is_managed, Bool.or_eq_false_iff] at h2
      exact h2.1
    refine ⟨?_, ?_, ?_⟩
    · rw [hlay]
      simp
    · intro w
      rw [hlay]
      simp only [List.map_cons, List.map_nil, List.mem_singleton]
      constructor
      · intro hw
        subst hw
        refine ⟨?_, ?_, ?_⟩
        · rw [FullscreenWM.is_managed, FullscreenWM.is_fullscreen_some hfw]
          simp
        · show s.wrapped_wm.is_minimised wi.window = false
          exact hmin
        · intro wf hwf
          rw [FullscreenWM.get_fullscreen_window, hfw] at hwf
          simp only [Option.map_some'] at hwf
          injection hwf with h2
      · rintro ⟨hmg, hmn, hecl⟩
        exact hecl wi.window (by rw [FullscreenWM.get_fullscreen_window, hfw]; rfl)
    · intro wi2 hwi2
      injection hwi2 with h2
      subst h2
      exact hlay
  | none =>
    have hlay := FullscreenWM.layout_none hfw
    have hfloat := hWF.wrapped.float
    refine ⟨?_, ?_, ?_⟩
    · rw [hlay]
      exact FloatingWM.layout_nodup hfloat
    · intro w
      rw [hlay]
      have hmem := FloatingWM.layout_mem hfloat w
      constructor
      · intro hw
        have hfm : s.wrapped_wm.wrapped_wm.is_managed w = true := hmem.mp hw
        have hnm : s.wrapped_wm.is_minimised w = false := by
          cases hb : s.wrapped_wm.is_minimised w with
          | false => rfl
          | true =>
            have hd := hWF.wrapped.disj w hb
            rw [hd] at hfm
            exact Bool.noConfusion hfm
        refine ⟨?_, hnm, ?_⟩
        · rw [FullscreenWM.is_managed, FullscreenWM.is_fullscreen_none hfw,
            Bool.false_or, MinimisingWM.is_managed, hnm, Bool.false_or]
          exact hfm
        · intro wf hwf
          rw [FullscreenWM.get_fullscreen_window, hfw] at hwf
          exact Option.noConfusion hwf
      · rintro ⟨hmg, hmn, hecl⟩
        apply hmem.mpr
        rw [FullscreenWM.is_managed, FullscreenWM.is_fullscreen_none hfw,
          Bool.false_or, MinimisingWM.is_managed] at hmg
        rw [show s.is_minimised w = s.wrapped_wm.is_minimised w from rfl] at hmn
        rw [hmn, Bool.false_or] at hmg
        exact hmg
    · intro wi hwi
      exact Option.noConfusion hwi

/-- One tiled window made fullscreen on a 100 by 100 screen. -/
def c5state : FullscreenWM :=
  (((FullscreenWM.new { width := 100, height := 100 }).add_window
    { window := 1, geometry := { x := 0, y := 0, width := 10, height := 10 },
      float_or_tile := FloatOrTile.Tile, fullscreen := false }).1.toggle_fullscreen 1).1

/-- Witness for claim C5 at a held-fullscreen state. -/
theorem claim_C5_witness :
    (c5state.get_window_layout.windows.map Prod.fst).Nodup ∧
    (1 ∈ c5state.get_window_layout.windows.map Prod.fst ↔
      (c5state.is_managed 1 = true ∧ c5state.is_minimised 1 = false ∧
        ∀ wf, c5state.get_fullscreen_window = some wf → 1 = wf)) ∧
    c5state.get_window_layout
      = { focused_window := some 1,
          windows := [(1, { x := 0, y := 0, width := 100, height := 100 })] } := by
  have R : FullscreenWM.Reachable c5state :=
    FullscreenWM.Reachable.toggle_fullscreen
      (FullscreenWM.Reachable.add_window (FullscreenWM.Reachable.new _) _) 1
  obtain ⟨h1, h2, h3⟩ := claim_C5 R
  refine ⟨h1, h2 1, ?_⟩
  have h4 := h3
    { window := 1, geometry := { x := 0, y := 0, width := 100, height := 100 },
      float_or_tile := FloatOrTile.Tile, fullscreen := false } (by decide)
  exact h4
